import Mathlib

/-!
# twitch.js: chat connection (IRCWrapper) correlation and backoff

A shallow embedding of `src/client/ws/IRCWrapper.js`, of the backoff and subscription
parts of `src/client/ws/WebSocketWrapper.js`, of `src/utils/utils.js` and of the
`reconnect` option in `src/client/BaseClient.js`.

* JavaScript numbers that hold delays, latencies and factors are idealised as
  rationals (`ℚ`); `Infinity` and `undefined` are explicit constructors.
* A `msg-id` that is absent (`message.tags?.['msg-id']` is `undefined`) is `none`.
* The event emitter, the timers and the promise of one `promise()` call are
  explicit state; the microtask that resumes an `async` listener after its
  `await` is an explicit step.
-/

namespace Twitch

/-! ## Messages -/

/-- The structured message produced by the parser collaborator:
`{ tags, command: { command }, parameters }`. -/
structure Message where
  /-- The tag map, `null` when the line carried no tags. -/
  tags : Option (List (String × String))
  /-- The value of `message.command.command`. -/
  command : String
  /-- The trailing parameters, `null` when absent. -/
  parameters : Option String
  deriving DecidableEq, Repr

/-- The expression `message.tags?.['msg-id']`: `undefined` (here `none`) when there are
no tags or no such key. -/
def Message.msgId (message : Message) : Option String :=
  match message.tags with
  | none => none
  | some tags => tags.lookup "msg-id"

/-! ## Classification tables (`#resolveCases`, `#rejectCases`) -/

/-- The set `#resolveCases` (IRCWrapper.js 145-164). -/
def resolveCases : List String :=
  [ "msg_bad_characters",
    "msg_channel_blocked",
    "msg_channel_suspended",
    "msg_duplicate",
    "msg_rejected",
    "msg_requires_verified_phone_number",
    "msg_slowmode",
    "msg_subsonly",
    "msg_timedout",
    "msg_verified_email",
    "raid_error_already_raiding",
    "raid_error_forbidden",
    "raid_error_too_many_viewers",
    "timeout_no_timeout",
    "unraid_error_no_active_raid",
    "whisper_banned_recipient",
    "whisper_limit_per_min",
    "whisper_limit_per_sec" ]

/-- The set `#rejectCases` (IRCWrapper.js 166-190). -/
def rejectCases : List String :=
  [ "invalid_user",
    "msg_duplicate",
    "msg_ratelimit",
    "msg_rejected_mandatory",
    "msg_suspended",
    "msg_banned",
    "msg_room_not_found",
    "msg_channel_suspended",
    "no_permission",
    "raid_error_self",
    "raid_error_unexpected",
    "raid_notice_mature",
    "raid_notice_restricted_chat",
    "tos_ban",
    "turbo_only_color",
    "unavailable_command",
    "unraid_error_unexpected",
    "unrecognized_cmd",
    "whisper_banned",
    "whisper_invalid_login",
    "whisper_invalid_self",
    "whisper_restricted",
    "whisper_restricted_recipient" ]

/-- `Set.prototype.has` on a set of strings, applied to a value that is a string or
`undefined`: `undefined` is never a member. -/
def setHas (cases : List String) (value : Option String) : Bool :=
  match value with
  | none => false
  | some s => cases.contains s

/-- `String.prototype.startsWith` with a literal search string. -/
def startsWith (s search : String) : Bool :=
  search.toList.isPrefixOf s.toList

/-- The string a regular expression's `test` sees for its argument: `undefined` is
converted to the text `undefined`. -/
def toJSString (value : Option String) : String :=
  match value with
  | none => "undefined"
  | some s => s

/-- The test `/^(already|no|usage)_/.test(value)`: one of the three alternatives,
then an underscore, anchored at the start. -/
def resolvePrefixTest (value : Option String) : Bool :=
  ["already", "no", "usage"].any fun alt => startsWith (toJSString value) (alt ++ "_")

/-- The method `#resolves(msgid)` (IRCWrapper.js 192-194). -/
def resolves (msgid : Option String) : Bool :=
  resolvePrefixTest msgid || setHas resolveCases msgid

/-- The method `#rejects(msgid)` (IRCWrapper.js 196-198):
`(msgid ?? '').startsWith('bad_') || this.#rejectCases.has(msgid)`. -/
def rejects (msgid : Option String) : Bool :=
  startsWith (msgid.getD "") "bad_" || setHas rejectCases msgid

/-! ## One `promise()` call (IRCWrapper.js 205-233) -/

/-- How the promise returned by `promise()` is settled. -/
inductive Outcome where
  /-- The call `resolve(message)`. -/
  | resolved (message : Message)
  /-- The call `reject(message.parameters)`. -/
  | rejected (reason : Option String)
  /-- The call `reject(new Error("Twitch did not respond in time."))`. -/
  | timedOut
  deriving DecidableEq, Repr

/-- The state that one call of `promise(callback)` owns: its listener on `'raw'`, its
deadline timer, the listener invocations suspended at `await callback(message)`, and
the promise itself. -/
structure Pending where
  /-- The predicate passed to `promise`. -/
  callback : Message → Bool
  /-- Whether `listener` is registered on `'raw'`. -/
  listening : Bool
  /-- The deadline timer while it is pending, with its delay in milliseconds. -/
  timer : Option ℚ
  /-- Listener invocations that evaluated `callback(message)` and wait to be resumed,
  oldest first, each with the value `callback` returned. -/
  awaiting : List (Message × Bool)
  /-- The settled value of the promise; `none` while it is pending. -/
  settled : Option Outcome

namespace Pending

/-- The executor of `new Promise(...)` in `promise`: arm the timer, register the listener. -/
def create (callback : Message → Bool) (delay : ℚ) : Pending :=
  { callback := callback, listening := true, timer := some delay, awaiting := [], settled := none }

/-- The functions `resolve` and `reject` of a promise: only the first call settles it. -/
def settle (outcome : Outcome) (entry : Pending) : Pending :=
  match entry.settled with
  | none => { entry with settled := some outcome }
  | some _ => entry

/-- The two statements `clearTimeout(timeout); this.off("raw", listener);`. -/
def release (entry : Pending) : Pending :=
  { entry with timer := none, listening := false }

/-- The callback of the deadline timer (IRCWrapper.js 211-214). A cleared timer never fires. -/
def onTimeout (entry : Pending) : Pending :=
  match entry.timer with
  | none => entry
  | some _ => settle .timedOut { entry with timer := none, listening := false }

/-- The emitter calls the listeners registered on `'raw'`: a registered `listener` runs
up to `await callback(message)` and is suspended there. -/
def onRaw (message : Message) (entry : Pending) : Pending :=
  if entry.listening then
    { entry with awaiting := entry.awaiting ++ [(message, entry.callback message)] }
  else entry

/-- The rest of `listener` after the `await` (IRCWrapper.js 216-228), for a message
whose `callback` value was `matched`. -/
def afterAwait (message : Message) (matched : Bool) (entry : Pending) : Pending :=
  if matched then
    settle (.resolved message) (release entry)
  else if rejects message.msgId then
    settle (.rejected message.parameters) (release entry)
  else if resolves message.msgId then
    settle (.resolved message) (release entry)
  else entry

/-- One microtask: the oldest suspended listener invocation is resumed. -/
def resume (entry : Pending) : Pending :=
  match entry.awaiting with
  | [] => entry
  | (message, matched) :: rest => afterAwait message matched { entry with awaiting := rest }

/-- The microtask queue is run until it is empty: every suspended invocation is resumed,
oldest first. -/
def drain (entry : Pending) : Pending :=
  entry.awaiting.foldl (fun acc waiting => afterAwait waiting.1 waiting.2 acc)
    { entry with awaiting := [] }

/-- A message is emitted on `'raw'` and the invocation of `listener` it starts is run
to its end. -/
def deliver (message : Message) (entry : Pending) : Pending :=
  (entry.onRaw message).resume

/-- What can happen to one entry. -/
inductive Event where
  /-- A message is emitted on `'raw'`. -/
  | raw (message : Message)
  /-- One microtask runs. -/
  | microtask
  /-- The deadline timer is due. -/
  | deadline

/-- The effect of one event on an entry. -/
def step (entry : Pending) (event : Event) : Pending :=
  match event with
  | .raw message => entry.onRaw message
  | .microtask => entry.resume
  | .deadline => entry.onTimeout

/-- The effect of a sequence of events, in order. -/
def run (events : List Event) (entry : Pending) : Pending :=
  events.foldl step entry

end Pending

/-! ## Default deadline (`#promiseDelay`, IRCWrapper.js 17-19) -/

/-- The numeric value of `this.latency`: `null` converts to `0`. -/
def latencyNumber (latency : Option ℚ) : ℚ :=
  latency.getD 0

/-- The getter `#promiseDelay`: `Math.max(600, this.latency * 1e3 + 100)`. -/
def promiseDelay (latency : Option ℚ) : ℚ :=
  max 600 (latencyNumber latency * 1000 + 100)

/-- The delay of the timer that `sendCommand` arms (IRCWrapper.js 267-272): none when
the socket is not open, `#promiseDelay` when `delay` is `null`, else the given number. -/
def sendCommandTimer (connected : Bool) (delay : Option ℚ) (latency : Option ℚ) : Option ℚ :=
  if !connected then none
  else match delay with
    | none => some (promiseDelay latency)
    | some d => some d

/-! ## The connection object (`class IRCWrapper`) -/

/-- The value of `_config.maxAttempts`: a non-negative integer or `Infinity`. -/
inductive Limit where
  /-- A finite number of attempts. -/
  | finite (n : Nat)
  /-- The default, `Infinity`. -/
  | infinity
  deriving DecidableEq, Repr

/-- The test `this._config.maxAttempts > 0`. -/
def Limit.positive (limit : Limit) : Bool :=
  match limit with
  | .finite n => decide (0 < n)
  | .infinity => true

/-- The test `this._config.attempts >= this._config.maxAttempts`, where `attempts` is
`undefined` (here `none`) until it is first assigned: a comparison with `undefined` is
false, and no number reaches `Infinity`. -/
def attemptsReached (attempts : Option Nat) (maxAttempts : Limit) : Bool :=
  match attempts, maxAttempts with
  | some a, .finite n => decide (n ≤ a)
  | _, _ => false

/-- A JavaScript number: a finite number (idealised as a rational, so neither rounding
nor overflow), an infinity, or `NaN`, which is also the number that `undefined` converts
to in arithmetic. -/
inductive JSNumber where
  /-- A finite number. -/
  | finite (value : ℚ)
  /-- The value `Infinity`. -/
  | infinity
  /-- The value `-Infinity`. -/
  | negInfinity
  /-- The value `NaN`, also the number that `undefined` converts to. -/
  | nan
  deriving DecidableEq, Repr

/-- A numeral read as a JavaScript number. -/
instance JSNumber.instOfNat (n : Nat) : OfNat JSNumber n :=
  ⟨.finite n⟩

/-- A finite number read as a JavaScript number. -/
instance JSNumber.instCoe : Coe ℚ JSNumber :=
  ⟨.finite⟩

/-- The operator `*` on numbers: `NaN` with anything and zero times an infinity give
`NaN`; an infinity takes the sign of the product. -/
def JSNumber.times (a b : JSNumber) : JSNumber :=
  match a, b with
  | .nan, _ => .nan
  | _, .nan => .nan
  | .finite x, .finite y => .finite (x * y)
  | .finite x, .infinity => if x = 0 then .nan else if 0 < x then .infinity else .negInfinity
  | .finite x, .negInfinity => if x = 0 then .nan else if 0 < x then .negInfinity else .infinity
  | .infinity, .finite y => if y = 0 then .nan else if 0 < y then .infinity else .negInfinity
  | .negInfinity, .finite y => if y = 0 then .nan else if 0 < y then .negInfinity else .infinity
  | .infinity, .infinity => .infinity
  | .infinity, .negInfinity => .negInfinity
  | .negInfinity, .infinity => .negInfinity
  | .negInfinity, .negInfinity => .infinity

/-- The function `Math.min` of two numbers: `NaN` if either is `NaN`, else the smaller. -/
def mathMin (a b : JSNumber) : JSNumber :=
  match a, b with
  | .nan, _ => .nan
  | _, .nan => .nan
  | .negInfinity, _ => .negInfinity
  | _, .negInfinity => .negInfinity
  | .infinity, y => y
  | x, .infinity => x
  | .finite x, .finite y => .finite (min x y)

/-- The object `_config` (IRCWrapper.js 21-29), with the property `attempts` that the
handler of `001` adds to it. The bounds of the interval are only ever assigned finite
numbers; `decay` is assigned whatever the option holds (BaseClient.js 116) and `delay` is
computed from it. -/
structure Config where
  /-- The factor `decay`; `undefined` is kept as `NaN`, which it becomes in the product. -/
  decay : JSNumber
  /-- The current delay `delay`, in milliseconds. -/
  delay : JSNumber
  /-- The bound `interval.min`. -/
  intervalMin : ℚ
  /-- The bound `interval.max`. -/
  intervalMax : ℚ
  /-- The limit `maxAttempts`. -/
  maxAttempts : Limit
  /-- The property `attempts`, absent from the initial object. -/
  attempts : Option Nat
  deriving DecidableEq, Repr

/-- A value passed to `_socket.destroy(...)` and kept in `_socket.errored`. -/
inductive Errored where
  /-- An `Error` object with this `message`. -/
  | error (message : String)
  /-- A string passed where an error is expected. -/
  | text (value : String)
  deriving DecidableEq, Repr

/-- Whether the value is truthy: an object always, a string unless it is empty. -/
def Errored.truthy (value : Errored) : Bool :=
  match value with
  | .error _ => true
  | .text value => decide (value ≠ "")

/-- The property `message` of the value; a string has none (`undefined`). -/
def Errored.message (value : Errored) : Option String :=
  match value with
  | .error message => some message
  | .text _ => none

/-- What the model keeps of `_socket`: the lines written, the argument of the call of
`destroy`, whether `connect` was called, and the property `errored`. -/
structure Socket where
  /-- The strings passed to `write`, oldest first. -/
  written : List String
  /-- After `destroy(error)`: `some error`, with `none` inside when no error was passed. -/
  destroyed : Option (Option Errored)
  /-- Whether `connect(...)` has been called. -/
  connectCalled : Bool
  /-- The property `errored`: `null` unless the socket was destroyed with an error. -/
  errored : Option Errored := none
  deriving DecidableEq, Repr

/-- The method `destroy(error)` of the socket, as the stream library documents it: the
first call marks the socket destroyed and keeps a truthy `error` in `errored` unless one
is there already; a call on a destroyed socket does nothing. The event `'close'` follows
later. -/
def Socket.destroy (reason : Option Errored) (socket : Socket) : Socket :=
  match socket.destroyed with
  | some _ => socket
  | none =>
    { socket with
      destroyed := some reason
      errored :=
        match socket.errored with
        | some earlier => some earlier
        | none => reason.filter Errored.truthy }

/-- An event emitted by the connection object itself. -/
inductive Emitted where
  /-- The event `'ready'`. -/
  | ready
  /-- The event `'raw'` with its message. -/
  | raw (message : Message)
  /-- The event `'maxreconnect'`. -/
  | maxreconnect
  /-- The event `'disconnect'`. -/
  | disconnect
  deriving DecidableEq, Repr

/-- An exception that leaves a method. -/
inductive Thrown where
  /-- The error `ReferenceError: <name> is not defined`. -/
  | referenceError (name : String)
  /-- The error `TypeError: <callee> is not a function`. -/
  | notAFunction (callee : String)
  /-- Any other exception, by its text. -/
  | other (text : String)
  deriving DecidableEq, Repr

/-- The fields of an `IRCWrapper`, the listeners on `'raw'`, and a log of what it
emitted. The listeners on `'raw'` are those that were registered before any call of
`promise()` (the client registers `_handleIRCMessage` in its constructor, BaseClient.js
65), kept as `observer`, followed by one per call of `promise()`. The client's listener
on `'ready'` is an `async` function, which cannot throw into `emit`. What a listener
calls on this object is a separate operation. -/
structure IRCWrapper where
  /-- The field `#pingTime` (milliseconds), initially `null`. -/
  pingTime : Option Int
  /-- The timer `#pingTimeout` while it is pending, with its delay. -/
  pingTimeout : Option ℚ
  /-- The timer `#staleTimeout` while it is pending, with its delay. -/
  staleTimeout : Option ℚ
  /-- The field `_config`. -/
  config : Config
  /-- The field `_reconnectAttempts`. -/
  reconnectAttempts : Nat
  /-- The field `_reconnecting`. -/
  reconnecting : Bool
  /-- The field `_reconnectTimeout`: the last delay stored there, initially `null`. -/
  reconnectTimeout : Option JSNumber
  /-- The timers armed by `reconnect`, each with its delay; their handles are not kept. -/
  reconnectTimers : List JSNumber
  /-- The field `_socket`. -/
  socket : Socket
  /-- The field `latency` in seconds, initially `null`. -/
  latency : Option ℚ
  /-- One entry per call of `promise()`, in the order their listeners were registered. -/
  pending : List Pending
  /-- The events emitted so far, oldest first. -/
  emitted : List Emitted
  /-- The listeners registered on `'raw'` before any call of `promise()`, run on a
  message in their order: `none` when all of them return, else the exception of the first
  that throws. The class itself registers none. -/
  observer : Message → Option Thrown := fun _ => none
  /-- How many keepalive `PING` lines were passed to the socket whose write callback has
  not run yet. -/
  pingWrites : Nat := 0

/-- The state a method leaves behind, and the exception it threw, if any. -/
structure Handled where
  /-- The state when the method returned or threw. -/
  state : IRCWrapper
  /-- The exception, if one was thrown. -/
  thrown : Option Thrown

namespace IRCWrapper

/-- The field initialisers of the class (IRCWrapper.js 13-35). -/
def init : IRCWrapper :=
  { pingTime := none
    pingTimeout := none
    staleTimeout := none
    config :=
      { decay := .finite (3 / 2), delay := 1000, intervalMin := 1000, intervalMax := 30000,
        maxAttempts := .infinity, attempts := none }
    reconnectAttempts := 0
    reconnecting := false
    reconnectTimeout := none
    reconnectTimers := []
    socket := { written := [], destroyed := none, connectCalled := false }
    latency := none
    pending := []
    emitted := [] }

/-- The state after the client's constructor has stored a `reconnect` option with a
finite `decay` in `irc._config` (BaseClient.js 113-123): it assigns `maxAttempts`,
`decay`, `interval.min` and `interval.max`, and leaves `delay` at its initial value. -/
def withConfig (intervalMin intervalMax decay : ℚ) (maxAttempts : Limit) : IRCWrapper :=
  { init with
    config :=
      { init.config with
        maxAttempts := maxAttempts, decay := .finite decay,
        intervalMin := intervalMin, intervalMax := intervalMax } }

/-- The call `this.emit(event, ...)`, for an event without listeners in the model. -/
def emit (event : Emitted) (self : IRCWrapper) : IRCWrapper :=
  { self with emitted := self.emitted ++ [event] }

/-- The call `this.emit('raw', message)`: the listeners registered on `'raw'` are called
with the message in registration order, first those of `observer`, then those of
`promise()`. A listener that throws ends the call: the exception leaves `emit` and the
listeners after it are not called. The listeners of `promise()` are `async` functions,
which do not throw into `emit`. -/
def emitRaw (message : Message) (self : IRCWrapper) : Handled :=
  match self.observer message with
  | some error =>
    { state := { self with emitted := self.emitted ++ [.raw message] }, thrown := some error }
  | none =>
    { state :=
        { self with
          emitted := self.emitted ++ [.raw message]
          pending := self.pending.map (Pending.onRaw message) },
      thrown := none }

/-- The method `send(data, callback)`: `this._socket.write(data + '\r\n', callback)`. -/
def send (data : String) (self : IRCWrapper) : IRCWrapper :=
  { self with socket := { self.socket with written := self.socket.written ++ [data ++ "\r\n"] } }

/-- The method `ping(delay)` up to the timer it arms (IRCWrapper.js 132-142): the pending
ping timer is cleared and a new one is set. -/
def ping (delay : ℚ) (self : IRCWrapper) : IRCWrapper :=
  { self with pingTimeout := some delay }

/-- The method `promise(callback)` for a function `callback`: a new entry whose deadline
is `#promiseDelay`. -/
def promise (callback : Message → Bool) (self : IRCWrapper) : IRCWrapper :=
  { self with pending := self.pending ++ [Pending.create callback (promiseDelay self.latency)] }

/-- The method `connect()` (IRCWrapper.js 120-130) up to the call of `_socket.connect`. -/
def connect (self : IRCWrapper) : IRCWrapper :=
  { self with reconnecting := false, socket := { self.socket with connectCalled := true } }

/-- What `reconnect()` returns. -/
inductive ReconnectResult where
  /-- The value `Promise.resolve(false)`. -/
  | refused
  /-- A promise that waits for a timer armed with the given delay. -/
  | scheduled (delay : JSNumber)
  deriving DecidableEq, Repr

/-- The method `reconnect()` (IRCWrapper.js 235-257) up to the timer it arms. -/
def reconnect (self : IRCWrapper) : IRCWrapper × ReconnectResult :=
  if self.config.maxAttempts.positive then
    if attemptsReached self.config.attempts self.config.maxAttempts then
      (self.emit .maxreconnect, .refused)
    else if !self.reconnecting then
      let delay := mathMin (.finite self.config.intervalMax)
        (self.config.delay.times self.config.decay)
      ({ self with
          reconnecting := true
          reconnectAttempts := self.reconnectAttempts + 1
          config := { self.config with delay := delay }
          reconnectTimeout := some delay
          reconnectTimers := self.reconnectTimers ++ [delay] },
        .scheduled delay)
    else (self, .refused)
  else (self, .refused)

/-- The method `_handleMessage(message)` (IRCWrapper.js 75-114); `now` is the value of
`Date.now()`. In the `NOTICE` case the authentication branch destroys the socket without
an error (the logger it registers on `'close'` is not modelled) and the permission branch
reads the undeclared name `msg`; in the `RECONNECT` case the class has no method
`disconnect`: both throw at that point, whatever the debug flag. -/
def handleMessage (now : Int) (message : Option Message) (self : IRCWrapper) : Handled :=
  match message with
  | none => { state := self, thrown := none }
  | some message =>
    if message.command = "001" then
      let self := self.emit .ready
      let self := { self with config := { self.config with attempts := some 0 } }
      let self :=
        { self with config := { self.config with delay := .finite self.config.intervalMin } }
      { state := self.ping 60000, thrown := none }
    else if message.command = "NOTICE" then
      if message.tags.isNone then { state := self, thrown := none }
      else if message.parameters = some "Login authentication failed" then
        { state := { self with socket := self.socket.destroy none }, thrown := none }
      else if message.parameters = some "You don't have permission to perform that action" then
        { state := self, thrown := some (.referenceError "msg") }
      else { state := self, thrown := none }
    else if message.command = "PING" then
      let self := { self with pingTimeout := none }
      { state := self.send "PONG", thrown := none }
    else if message.command = "PONG" then
      let self := { self with staleTimeout := none }
      let self := { self with latency := some (((now - self.pingTime.getD 0 : Int) : ℚ) / 1000) }
      { state := self.ping 60000, thrown := none }
    else if message.command = "RECONNECT" then
      { state := self, thrown := some (.notAFunction "this.disconnect") }
    else
      self.emitRaw message

/-- The microtask queue is run until it is empty. -/
def runMicrotasks (self : IRCWrapper) : IRCWrapper :=
  { self with pending := self.pending.map Pending.drain }

/-- The deadline timer of the entry at position `index` is due. -/
def deadline (index : Nat) (self : IRCWrapper) : IRCWrapper :=
  { self with pending := self.pending.modify Pending.onTimeout index }

/-! ### Handlers of the socket events and of the timers -/

/-- The constant `CAPS` (IRCWrapper.js 6-10), in insertion order. -/
def CAPS : List String :=
  ["commands", "tags", "membership"]

/-- The call `this._socket.write(data)`. -/
def write (data : String) (self : IRCWrapper) : IRCWrapper :=
  { self with socket := { self.socket with written := self.socket.written ++ [data] } }

/-- The handler of the socket event `'connect'` (IRCWrapper.js 61-66); `token` is
`this.client.token` and `login` is `this.client.user.username`. -/
def onConnect (token login : String) (self : IRCWrapper) : IRCWrapper :=
  let self := self.write ("CAP REQ :twitch.tv/" ++ " twitch.tv/".intercalate CAPS ++ "\r\n")
  let self := self.write ("PASS oauth:" ++ token ++ "\r\n")
  self.write ("NICK " ++ login ++ "\r\n")

/-- The callback of the timer armed by `ping` (IRCWrapper.js 134-141) up to the call of
`send`: `PING` is written; the rest runs in the callback of that write, which is
counted as under way. A cleared timer never fires. -/
def onPingTimer (self : IRCWrapper) : IRCWrapper :=
  match self.pingTimeout with
  | none => self
  | some _ => ({ self with pingTimeout := none, pingWrites := self.pingWrites + 1 }).send "PING"

/-- The callback given to `send("PING", ...)`, run at time `now` once the line has been
written (IRCWrapper.js 136-139): the time is recorded and the stale timer is armed with
`interval.min ?? 1e4`, where `interval.min` is always a number. The handle of an earlier
stale timer is overwritten; the model keeps the newest timer. One write fewer is under
way. -/
def onPingWritten (now : Int) (self : IRCWrapper) : IRCWrapper :=
  { self with
    pingTime := some now
    staleTimeout := some self.config.intervalMin
    pingWrites := self.pingWrites - 1 }

/-- The callback of the stale timer: `this._socket.destroy('Ping timeout.')`. A cleared
timer never fires. -/
def onStaleTimer (self : IRCWrapper) : IRCWrapper :=
  match self.staleTimeout with
  | none => self
  | some _ =>
    { self with
      staleTimeout := none
      socket := self.socket.destroy (some (.text "Ping timeout.")) }

/-- The method `destroy()` (IRCWrapper.js 286-296) up to the call of `_socket.destroy`:
the socket is destroyed with `new Error('CLIENT_DISCONNECT')`. Its own three-second
timer and its listener on `'close'` concern only the promise it returns. -/
def destroy (self : IRCWrapper) : IRCWrapper :=
  { self with socket := self.socket.destroy (some (.error "CLIENT_DISCONNECT")) }

/-- The test of the `'close'` handler:
`this._socket.errored && this._socket.errored.message !== 'CLIENT_DISCONNECT'`. -/
def closeReconnects (errored : Option Errored) : Bool :=
  match errored with
  | none => false
  | some value => value.truthy && decide (value.message ≠ some "CLIENT_DISCONNECT")

/-- What the `'close'` handler did. -/
structure Closed where
  /-- The state the handler leaves. -/
  state : IRCWrapper
  /-- The result of its call of `reconnect()`; `none` when it made no such call. -/
  reconnectCall : Option ReconnectResult

/-- The handler of the socket event `'close'` (IRCWrapper.js 47-60). After a refused
`reconnect()` (`attempt === false`) it emits `'disconnect'`; after an accepted one it
waits for the promise of `reconnect()`. -/
def onClose (self : IRCWrapper) : Closed :=
  let self := { self with pingTimeout := none, staleTimeout := none }
  if closeReconnects self.socket.errored then
    match self.reconnect with
    | (next, .refused) => { state := next.emit .disconnect, reconnectCall := some .refused }
    | (next, .scheduled delay) => { state := next, reconnectCall := some (.scheduled delay) }
  else
    { state := self.emit .disconnect, reconnectCall := none }

/-- The callback of a timer armed by `reconnect` (IRCWrapper.js 247-251):
`this._connect().then(resolve).catch(reject)`. The class has the method `connect` and no
member `_connect`, so the call throws before `connect`, `resolve` or `reject` is reached. -/
def onReconnectTimer (self : IRCWrapper) : Handled :=
  match self.reconnectTimers with
  | [] => { state := self, thrown := none }
  | _ :: rest =>
    { state := { self with reconnectTimers := rest },
      thrown := some (.notAFunction "this._connect") }

/-! ### Outbound commands (`sendCommand`) -/

/-- How the executor of `sendCommand` rejects the promise it returns. -/
inductive SendRejection where
  /-- The call `reject(new Error("Not connected to server."))`. -/
  | notConnected
  /-- An exception thrown inside the executor, which rejects the promise. -/
  | thrown (error : Thrown)
  deriving DecidableEq, Repr

/-- What the executor of `sendCommand` did. -/
structure Sent where
  /-- The state it leaves. -/
  state : IRCWrapper
  /-- The first rejection it made; `none` while the promise is pending. -/
  rejected : Option SendRejection
  /-- The delay of the timer it armed, if any. -/
  timer : Option ℚ

/-- The method `sendCommand(command, { channel, delay, tags })` (IRCWrapper.js 265-280)
up to the end of the executor; `connected` is the value of the getter `connected`,
`channel` is `none` unless it is a string. After `reject(...)` for a connection that is
not open the executor goes on. For a tag map with an entry the mapping function reads
`_.escapeIRC`, and the module binds no `_` (IRCWrapper.js 1-4): the executor throws
there, before `send`. -/
def sendCommand (connected : Bool) (command : String) (channel : Option String)
    (delay : Option ℚ) (tags : Option (List (String × String))) (self : IRCWrapper) : Sent :=
  let rejected : Option SendRejection := if connected then none else some .notConnected
  let timer := sendCommandTimer connected delay self.latency
  match tags.getD [] with
  | _ :: _ =>
    { state := self
      rejected := some (rejected.getD (.thrown (.referenceError "_")))
      timer := timer }
  | [] =>
    let scope :=
      match channel with
      | some name => "PRIVMSG " ++ name ++ " :"
      | none => ""
    { state := self.send (scope ++ command), rejected := rejected, timer := timer }

/-! ### Everything that can happen to the connection object -/

/-- What can happen to the connection object: a call of one of its methods that the
client makes, a handler of a socket event, a callback of one of its timers, or the
callback of a write. -/
inductive Op where
  /-- A parsed line reaches `_handleMessage` at time `now`. -/
  | message (now : Int) (message : Option Message)
  /-- A call of `reconnect()`. -/
  | reconnect
  /-- A call of `connect()`. -/
  | connect
  /-- A call of `promise(callback)`. -/
  | promise (callback : Message → Bool)
  /-- The deadline timer of an entry is due. -/
  | deadline (index : Nat)
  /-- The microtask queue is run. -/
  | microtasks
  /-- The socket emits `'connect'`. -/
  | socketConnect (token login : String)
  /-- The timer armed by `ping` is due. -/
  | pingTimer
  /-- The write of a keepalive `PING` completes at time `now`. -/
  | pingWritten (now : Int)
  /-- The stale timer is due. -/
  | staleTimer
  /-- The socket emits `'close'`. -/
  | close
  /-- A call of `destroy()`. -/
  | destroy
  /-- The oldest timer armed by `reconnect` is due. -/
  | reconnectTimer
  /-- A call of `sendCommand`. -/
  | sendCommand (connected : Bool) (command : String) (channel : Option String)
      (delay : Option ℚ) (tags : Option (List (String × String)))

/-- The effect of one operation; an exception ends the operation where it was thrown.
The callback of a write runs only for a write that was made. -/
def step (self : IRCWrapper) (op : Op) : IRCWrapper :=
  match op with
  | .message now message => (self.handleMessage now message).state
  | .reconnect => self.reconnect.1
  | .connect => self.connect
  | .promise callback => self.promise callback
  | .deadline index => self.deadline index
  | .microtasks => self.runMicrotasks
  | .socketConnect token login => self.onConnect token login
  | .pingTimer => self.onPingTimer
  | .pingWritten now => if 0 < self.pingWrites then self.onPingWritten now else self
  | .staleTimer => self.onStaleTimer
  | .close => self.onClose.state
  | .destroy => self.destroy
  | .reconnectTimer => self.onReconnectTimer.state
  | .sendCommand connected command channel delay tags =>
    (self.sendCommand connected command channel delay tags).state

/-- The effect of a sequence of operations, in order. -/
def run (ops : List Op) (self : IRCWrapper) : IRCWrapper :=
  ops.foldl step self

/-- The delays computed by `rounds` successive accepted calls of `reconnect()`, each
followed by the `connect()` that ends the reconnect; the list stops at a refused call. -/
def reconnectDelays : Nat → IRCWrapper → List JSNumber
  | 0, _ => []
  | rounds + 1, self =>
    match self.reconnect with
    | (next, .scheduled delay) => delay :: reconnectDelays rounds next.connect
    | (_, .refused) => []

/-! ### Inbound framing (the handler of `'data'`) -/

/-- The characters that `String.prototype.trim` removes: white space and line
terminators. -/
def isTrimmed (c : Char) : Bool :=
  c.toNat ∈ [0x09, 0x0A, 0x0B, 0x0C, 0x0D, 0x20, 0xA0, 0x1680, 0x2000, 0x2001, 0x2002,
    0x2003, 0x2004, 0x2005, 0x2006, 0x2007, 0x2008, 0x2009, 0x200A, 0x2028, 0x2029, 0x202F,
    0x205F, 0x3000, 0xFEFF]

/-- The method `trim()` on the characters of a string. -/
def trim (text : List Char) : List Char :=
  ((text.dropWhile isTrimmed).reverse.dropWhile isTrimmed).reverse

/-- The call `split('\r\n')` on the characters of a string: the pieces between the
occurrences of the separator, found left to right; a string without the separator is one
piece. -/
def splitCRLF : List Char → List (List Char)
  | [] => [[]]
  | [c] => [[c]]
  | c :: d :: rest =>
    if c = '\r' ∧ d = '\n' then [] :: splitCRLF rest
    else
      match splitCRLF (d :: rest) with
      | [] => [[c]]
      | piece :: pieces => (c :: piece) :: pieces

/-- The array `parts` of the handler of `'data'` (IRCWrapper.js 67-72) for one chunk,
given as its decoded text: `buffer.toString("utf8").trim().split('\r\n')`. -/
def dataLines (chunk : String) : List String :=
  (splitCRLF (trim chunk.toList)).map String.mk

/-- What the handler of `'data'` did. -/
structure Received where
  /-- The state it leaves. -/
  state : IRCWrapper
  /-- The strings it handed to `parseMessage`, in order. -/
  parsed : List String
  /-- The messages it handed to `_handleMessage`, in order. -/
  handled : List (Option Message)
  /-- The exception that left the handler, if any. -/
  thrown : Option Thrown

/-- The loop `parts.forEach(data => this._handleMessage(parseMessage(data)))`
(IRCWrapper.js 71) at time `now`. The module of `parseMessage` is not part of the
sources at hand, so the function is a parameter: it returns a message or `null`, or
throws. An exception of `parseMessage` or of `_handleMessage` is caught nowhere in the
callback: it leaves `forEach`, and the parts after it are handed to neither. -/
def handleParts (parseMessage : String → Except Thrown (Option Message)) (now : Int) :
    List String → IRCWrapper → Received
  | [], self => { state := self, parsed := [], handled := [], thrown := none }
  | part :: parts, self =>
    match parseMessage part with
    | .error error => { state := self, parsed := [part], handled := [], thrown := some error }
    | .ok message =>
      match self.handleMessage now message with
      | { state := next, thrown := some error } =>
        { state := next, parsed := [part], handled := [message], thrown := some error }
      | { state := next, thrown := none } =>
        let rest := handleParts parseMessage now parts next
        { rest with parsed := part :: rest.parsed, handled := message :: rest.handled }

/-- The handler of `'data'` (IRCWrapper.js 67-72) for one chunk that arrives at time
`now`. -/
def onData (parseMessage : String → Except Thrown (Option Message)) (now : Int)
    (chunk : String) (self : IRCWrapper) : Received :=
  handleParts parseMessage now (dataLines chunk) self

/-- The handler of `'data'` for a sequence of chunks, each with its time of arrival: each
event is handled by itself, nothing is kept from one chunk to the next. An exception
that leaves the handler is caught nowhere in the class; the sequence ends there. -/
def onStream (parseMessage : String → Except Thrown (Option Message)) :
    List (Int × String) → IRCWrapper → Received
  | [], self => { state := self, parsed := [], handled := [], thrown := none }
  | (now, chunk) :: chunks, self =>
    match self.onData parseMessage now chunk with
    | { state := next, parsed := parsed, handled := handled, thrown := some error } =>
      { state := next, parsed := parsed, handled := handled, thrown := some error }
    | { state := next, parsed := parsed, handled := handled, thrown := none } =>
      let rest := onStream parseMessage chunks next
      { rest with parsed := parsed ++ rest.parsed, handled := handled ++ rest.handled }

/-- A line as the chat server sends it: without CR or LF, not empty, and without white
space at either end. -/
def isPlainLine (line : String) : Bool :=
  line.toList.all (fun c => c != '\r' && c != '\n') &&
    (line.toList.head?.map isTrimmed == some false) &&
    (line.toList.getLast?.map isTrimmed == some false)

/-- The text of a sequence of lines on the wire: each line followed by CRLF. -/
def wireText (lines : List String) : String :=
  String.join (lines.map fun line => line ++ "\r\n")

end IRCWrapper

/-! ## Tag escaping (`utils.js`) -/

/-- The table `ircUnescapedChars`: the letter written after the backslash. -/
def ircUnescapedChars (c : Char) : Option Char :=
  if c = ' ' then some 's'
  else if c = '\n' then some 'n'
  else if c = ';' then some ':'
  else if c = '\r' then some 'r'
  else none

/-- The table `ircEscapedChars`: what an escape letter stands for; `n` and `r` stand for
the empty string. -/
def ircEscapedChars (c : Char) : Option (List Char) :=
  if c = 's' then some [' ']
  else if c = 'n' then some []
  else if c = ':' then some [';']
  else if c = 'r' then some []
  else none

/-- The replacement made by `escapeIRC` for one character: the pattern
`/([ \n;\r\\])/g` matches a space, a line feed, a semicolon, a carriage return or a
backslash; a match in the table becomes a backslash and its letter, any other match
(the backslash) is put back as it is. -/
def escapeChar (c : Char) : List Char :=
  if c = ' ' ∨ c = '\n' ∨ c = ';' ∨ c = '\r' ∨ c = '\\' then
    match ircUnescapedChars c with
    | some letter => ['\\', letter]
    | none => [c]
  else [c]

/-- The function `escapeIRC` on a string (utils.js 9-12). -/
def escapeIRC (msg : String) : String :=
  String.mk (msg.toList.flatMap escapeChar)

/-- The replacement made by `unescapeIRC`, left to right: the pattern `/\\([sn:r\\])/g`
matches a backslash followed by `s`, `n`, `:`, `r` or a backslash; a letter in the table
becomes what it stands for, any other match (the second backslash) becomes that
character. -/
def unescapeChars : List Char → List Char
  | [] => []
  | [c] => [c]
  | c :: p :: after =>
    if c = '\\' ∧ (p = 's' ∨ p = 'n' ∨ p = ':' ∨ p = 'r' ∨ p = '\\') then
      (match ircEscapedChars p with
        | some text => text
        | none => [p]) ++ unescapeChars after
    else c :: unescapeChars (p :: after)

/-- The function `unescapeIRC` on a string (utils.js 5-8); a string without a backslash
has no match and is returned as it is. -/
def unescapeIRC (msg : String) : String :=
  String.mk (unescapeChars msg.toList)

/-! ## The event connection (`class WebSocketWrapper`): backoff and subscriptions -/

/-- A subscription object as the API returns it: the properties `type` and `id`. -/
structure Subscription where
  /-- The property `type`. -/
  type : String
  /-- The property `id`. -/
  id : String
  deriving DecidableEq, Repr

/-- A request made through `this.client.api(...)`. -/
structure ApiRequest where
  /-- The HTTP method. -/
  method : String
  /-- The path under `/helix`. -/
  path : String
  /-- The property `type` of the body. -/
  type : String
  /-- The property `transport.session_id` of the body. -/
  sessionId : Option String
  deriving DecidableEq, Repr

/-- How the promise of `this.client.api(...)` settles: rejected with an error text, or
resolved with the subscriptions of the response. -/
inductive ApiResponse where
  /-- The promise is rejected. -/
  | failure (error : String)
  /-- The promise is resolved with this array. -/
  | success (subscriptions : List Subscription)
  deriving DecidableEq, Repr

/-- The call `map.has(key)` on a `Map` kept as its entries in insertion order. -/
def mapHas (map : List (String × Subscription)) (key : String) : Bool :=
  map.any fun entry => entry.1 == key

/-- The call `map.set(key, value)`: the value of an existing key is replaced in place, a
new key is added at the end. -/
def mapSet (map : List (String × Subscription)) (key : String) (value : Subscription) :
    List (String × Subscription) :=
  if mapHas map key then
    map.map fun entry => if entry.1 == key then (key, value) else entry
  else map ++ [(key, value)]

/-- The fields of a `WebSocketWrapper` that `reconnect()`, `connect()`, `subscribe()` and
the `session_welcome` case read or write (WebSocketWrapper.js 12-29), the requests it
made through the API and the names of the events it emitted. -/
structure WebSocketWrapper where
  /-- The field `_config`, without `keepAliveTimeout`. -/
  config : Config
  /-- The property `_config.keepAliveTimeout`, in seconds. -/
  keepAliveTimeout : ℚ
  /-- The field `_reconnectAttempts`. -/
  reconnectAttempts : Nat
  /-- The field `_reconnecting`. -/
  reconnecting : Bool
  /-- The field `_reconnectTimeout`: the last delay stored there, initially `null`. -/
  reconnectTimeout : Option JSNumber
  /-- The timers armed by `reconnect`, each with its delay; their handles are not kept. -/
  reconnectTimers : List JSNumber
  /-- How many times `connect()` created a `WebSocket`. -/
  connects : Nat
  /-- The names of the events emitted so far, oldest first. -/
  emitted : List String
  /-- The field `_sessionId`, initially `null`. -/
  sessionId : Option String := none
  /-- The field `subscriptions`, a `Map` from type to subscription, initially empty. -/
  subscriptions : List (String × Subscription) := []
  /-- The requests made through `this.client.api`, oldest first. -/
  requests : List ApiRequest := []

namespace WebSocketWrapper

/-- The field initialisers of the class (WebSocketWrapper.js 12-28). -/
def init : WebSocketWrapper :=
  { config :=
      { decay := .finite (3 / 2), delay := 1000, intervalMin := 1000, intervalMax := 30000,
        maxAttempts := .infinity, attempts := none }
    keepAliveTimeout := 30
    reconnectAttempts := 0
    reconnecting := false
    reconnectTimeout := none
    reconnectTimers := []
    connects := 0
    emitted := [] }

/-- The method `connect()` (WebSocketWrapper.js 74-91) up to the creation of the socket. -/
def connect (self : WebSocketWrapper) : WebSocketWrapper :=
  { self with reconnecting := false, connects := self.connects + 1 }

/-- The method `reconnect()` (WebSocketWrapper.js 116-138) up to the timer it arms. -/
def reconnect (self : WebSocketWrapper) : WebSocketWrapper × IRCWrapper.ReconnectResult :=
  if self.config.maxAttempts.positive then
    if attemptsReached self.config.attempts self.config.maxAttempts then
      ({ self with emitted := self.emitted ++ ["maxreconnect"] }, .refused)
    else if !self.reconnecting then
      let delay := mathMin (.finite self.config.intervalMax)
        (self.config.delay.times self.config.decay)
      ({ self with
          reconnecting := true
          reconnectAttempts := self.reconnectAttempts + 1
          config := { self.config with delay := delay }
          reconnectTimeout := some delay
          reconnectTimers := self.reconnectTimers ++ [delay] },
        .scheduled delay)
    else (self, .refused)
  else (self, .refused)

/-- The callback of a timer armed by `reconnect` (WebSocketWrapper.js 128-132):
`this._connect().then(resolve).catch(reject)`. The class has the method `connect` and no
member `_connect`, so the call throws; the exception, if any, is the second component. -/
def onReconnectTimer (self : WebSocketWrapper) : WebSocketWrapper × Option Thrown :=
  match self.reconnectTimers with
  | [] => (self, none)
  | _ :: rest => ({ self with reconnectTimers := rest }, some (.notAFunction "this._connect"))

/-- What a call of `subscribe` returns. -/
inductive SubscribeCall where
  /-- The map itself, without a request. -/
  | current (map : List (String × Subscription))
  /-- The promise of the request that the call made, not settled yet. -/
  | requested
  deriving DecidableEq, Repr

/-- The method `subscribe(type)` (WebSocketWrapper.js 152-177) up to its `return`: for a
type that the map holds, the map; otherwise one `POST` request is made and the promise of
its response is returned. The map is written only when that response arrives. -/
def subscribe (type : String) (self : WebSocketWrapper) : WebSocketWrapper × SubscribeCall :=
  if mapHas self.subscriptions type then (self, .current self.subscriptions)
  else
    ({ self with
        requests := self.requests ++
          [{ method := "POST", path := "/eventsub/subscriptions", type := type,
             sessionId := self.sessionId }] },
      .requested)

/-- The callback that `subscribe` passes to `.then` (WebSocketWrapper.js 171-176), run
when the request is resolved with `subscriptions`: each one is stored under its type. -/
def onSubscribed (subscriptions : List Subscription) (self : WebSocketWrapper) :
    WebSocketWrapper :=
  { self with
    subscriptions :=
      subscriptions.foldl (fun map sub => mapSet map sub.type sub) self.subscriptions }

/-- What `await this.subscribe(type)` gives. -/
inductive Subscribed where
  /-- The map itself, returned without a request. -/
  | current (map : List (String × Subscription))
  /-- The map, after the request was resolved. -/
  | resolved (map : List (String × Subscription))
  /-- The error with which the request was rejected, thrown by the `await`. -/
  | rejected (error : String)
  deriving DecidableEq, Repr

/-- The expression `await this.subscribe(type)` when nothing else runs before the
response: the call, then the settling of its request, if it made one; `response` is how
the API answers that request. -/
def awaitSubscribe (type : String) (response : ApiResponse) (self : WebSocketWrapper) :
    WebSocketWrapper × Subscribed :=
  match self.subscribe type with
  | (next, .current map) => (next, .current map)
  | (next, .requested) =>
    match response with
    | .failure error => (next, .rejected error)
    | .success subscriptions =>
      ((next.onSubscribed subscriptions), .resolved (next.onSubscribed subscriptions).subscriptions)

/-- What the loop of the `session_welcome` case did. -/
structure Welcomed where
  /-- The state it leaves. -/
  state : WebSocketWrapper
  /-- The types for which `subscribe` was called, in order. -/
  called : List String
  /-- The error that left the loop, if a call of `subscribe` was rejected. -/
  failed : Option String

/-- The loop `for (const type of this.client.options.subscriptions) await
this.subscribe(type);` (WebSocketWrapper.js 62-63); `respond` is how the API answers a
request for a type. A rejected `subscribe` makes the `await` throw, which leaves the
loop. -/
def subscribeAll (respond : String → ApiResponse) :
    List String → WebSocketWrapper → Welcomed
  | [], self => { state := self, called := [], failed := none }
  | type :: types, self =>
    match self.awaitSubscribe type (respond type) with
    | (next, .rejected error) => { state := next, called := [type], failed := some error }
    | (next, _) =>
      let rest := subscribeAll respond types next
      { rest with called := type :: rest.called }

/-- The case `session_welcome` of `_handleMessage` (WebSocketWrapper.js 58-64) for a
frame with the given `payload.session.id` and `payload.session.keepalive_timeout_seconds`;
`types` are the elements of `this.client.options.subscriptions` in iteration order. -/
def onSessionWelcome (id : String) (keepalive : ℚ) (types : List String)
    (respond : String → ApiResponse) (self : WebSocketWrapper) : Welcomed :=
  let self := { self with sessionId := some id }
  let self := { self with keepAliveTimeout := keepalive }
  let self := { self with emitted := self.emitted ++ ["ready"] }
  subscribeAll respond types self

end WebSocketWrapper

/-! ## The `reconnect` option of the client (BaseClient.js 104-126) -/

/-- The operator `~~` on a number (`ToInt32`): `NaN` and the infinities give `0`; a
finite number is truncated towards zero and reduced modulo `2^32` into
`[-2^31, 2^31)`. -/
def toInt32 (number : JSNumber) : Int :=
  match number with
  | .finite value =>
    let wrapped := (Int.tdiv value.num value.den) % 4294967296
    if wrapped < 2147483648 then wrapped else wrapped - 4294967296
  | _ => 0

/-- One property of the `reconnect` option, by its key in lower case. -/
inductive ReconnectOption where
  /-- The key `attempts` or `maxattempts`. -/
  | maxAttempts (value : JSNumber)
  /-- The key `decay`: `none` for `null` or `undefined`, else the number that the value
  is, or converts to, in the product of `reconnect()`. -/
  | decay (value : Option JSNumber)
  /-- The key `interval`, with the properties `min` and `max` of its object. -/
  | interval (min max : JSNumber)
  /-- Any other key: no case of the switch. -/
  | other (key : String)
  deriving DecidableEq, Repr

/-- The two connection objects that the constructor of the client creates. -/
structure BaseClient where
  /-- The property `irc`. -/
  irc : IRCWrapper
  /-- The property `ws`. -/
  ws : WebSocketWrapper

namespace BaseClient

/-- Whether the listener `_handleIRCMessage` (BaseClient.js 233-686) throws into the
`emit` that calls it. The listener is an ordinary function, so what it throws leaves
it. `rest` stands for all it runs for a message apart from line 618 (the client's own
`emit("raw", message)`, the constructor of `Message`, the cases of its switch) and gives
the exception of the first of them that throws. In the case `USERNOTICE`, line 618 reads
the name `tags`, which is declared nowhere; every path through the case reaches that
line, so unless something before it threw, a `ReferenceError` is thrown there. -/
def handleIRCMessage (rest : Message → Option Thrown) (message : Message) : Option Thrown :=
  match rest message with
  | some error => some error
  | none => if message.command = "USERNOTICE" then some (.referenceError "tags") else none

/-- The connections as the constructor creates them, before it reads the options: it
registers `_handleIRCMessage` on `'raw'` of the chat connection (BaseClient.js 65). -/
def init (rest : Message → Option Thrown) : BaseClient :=
  { irc := { IRCWrapper.init with observer := handleIRCMessage rest }
    ws := WebSocketWrapper.init }

/-- The body of the loop over the keys of the `reconnect` option (BaseClient.js 110-124). -/
def setReconnectOption (self : BaseClient) (option : ReconnectOption) : BaseClient :=
  match option with
  | .maxAttempts value =>
    { self with
      irc := { self.irc with
        config := { self.irc.config with
          maxAttempts := .finite (max 0 (toInt32 value)).toNat } } }
  | .decay value =>
    { self with
      irc := { self.irc with config := { self.irc.config with decay := value.getD .nan } } }
  | .interval min max =>
    let intervalMin : Int := Max.max 0 (toInt32 min)
    let intervalMax : Int := Max.max intervalMin (toInt32 max)
    { self with
      irc := { self.irc with
        config := { self.irc.config with
          intervalMin := (intervalMin : ℚ), intervalMax := (intervalMax : ℚ) } } }
  | .other _ => self

/-- The case `reconnect` of the constructor: the properties of the option are handled in
their order. -/
def setReconnect (options : List ReconnectOption) (self : BaseClient) : BaseClient :=
  options.foldl setReconnectOption self

end BaseClient

/-! # Theorems

## Classification -/

/-! ## Numbers -/

/-- A numeral as a JavaScript number is the finite number of that value. -/
theorem JSNumber.ofNat_eq (n : ℕ) [n.AtLeastTwo] :
    (no_index (OfNat.ofNat n) : JSNumber) = .finite (OfNat.ofNat n) := by
  show JSNumber.finite (n : ℚ) = _
  rw [Nat.cast_eq_ofNat]

/-- The delay computed from finite numbers is the smaller of the bound and the
product. -/
theorem mathMin_times_finite (hi delay decay : ℚ) :
    mathMin (.finite hi) ((JSNumber.finite delay).times (.finite decay)) =
      .finite (min hi (delay * decay)) := rfl

theorem startsWith_iff (s search : String) :
    startsWith s search = true ↔ ∃ rest : String, s = search ++ rest := by
  unfold startsWith
  rw [List.isPrefixOf_iff_prefix]
  constructor
  · rintro ⟨t, ht⟩
    refine ⟨String.mk t, ?_⟩
    apply String.ext
    simpa using ht.symm
  · rintro ⟨rest, rfl⟩
    exact ⟨rest.toList, by simp⟩

theorem setHas_iff (cases : List String) (value : Option String) :
    setHas cases value = true ↔ ∃ s, value = some s ∧ s ∈ cases := by
  cases value <;> simp [setHas]

/-- C4: the deny predicate `#rejects` holds of an identifier exactly when the identifier
is a string that is a member of `#rejectCases` or begins with `bad_`; `bad_host_error`
is denied and an absent identifier is not. -/
theorem rejects_iff_member_or_bad_prefix :
    (∀ msgid : Option String,
      rejects msgid = true ↔
        ∃ s, msgid = some s ∧ (s ∈ rejectCases ∨ ∃ rest : String, s = "bad_" ++ rest)) ∧
    rejects (some "bad_host_error") = true ∧
    rejects none = false := by
  refine ⟨?_, by decide, by decide⟩
  intro msgid
  unfold rejects
  rw [Bool.or_eq_true, startsWith_iff, setHas_iff]
  cases msgid with
  | none =>
    constructor
    · rintro (⟨rest, h⟩ | ⟨s, h, _⟩)
      · exfalso
        have h2 := congrArg String.length h
        simp [String.length_append] at h2
        have : ("bad_" : String).length = 4 := by decide
        omega
      · cases h
    · rintro ⟨s, h, _⟩
      cases h
  | some s =>
    constructor
    · rintro (h | ⟨t, ht, hm⟩)
      · exact ⟨s, rfl, Or.inr h⟩
      · cases ht
        exact ⟨s, rfl, Or.inl hm⟩
    · rintro ⟨t, ht, h | h⟩
      · cases ht
        exact Or.inr ⟨s, rfl, h⟩
      · cases ht
        exact Or.inl h

theorem resolvePrefixTest_iff (value : Option String) :
    resolvePrefixTest value = true ↔
      ∃ rest : String, toJSString value = "already_" ++ rest ∨
        toJSString value = "no_" ++ rest ∨ toJSString value = "usage_" ++ rest := by
  unfold resolvePrefixTest
  simp only [List.any_cons, List.any_nil, Bool.or_false, Bool.or_eq_true, startsWith_iff]
  constructor
  · rintro (⟨r, h⟩ | ⟨r, h⟩ | ⟨r, h⟩)
    · exact ⟨r, Or.inl h⟩
    · exact ⟨r, Or.inr (Or.inl h)⟩
    · exact ⟨r, Or.inr (Or.inr h)⟩
  · rintro ⟨r, h | h | h⟩
    · exact Or.inl ⟨r, h⟩
    · exact Or.inr (Or.inl ⟨r, h⟩)
    · exact Or.inr (Or.inr ⟨r, h⟩)

/-- C5: the allow predicate `#resolves` holds of an identifier exactly when the
identifier is a string that is a member of `#resolveCases` or begins with `already_`,
`no_` or `usage_`; `usage_host` is allowed and an absent identifier is not. -/
theorem resolves_iff_member_or_allow_prefix :
    (∀ msgid : Option String,
      resolves msgid = true ↔
        ∃ s, msgid = some s ∧
          (s ∈ resolveCases ∨
            ∃ rest : String, s = "already_" ++ rest ∨ s = "no_" ++ rest ∨ s = "usage_" ++ rest)) ∧
    resolves (some "usage_host") = true ∧
    resolves none = false := by
  refine ⟨?_, by decide, by decide⟩
  intro msgid
  cases msgid with
  | none =>
    constructor
    · intro h
      exact absurd h (by decide)
    · rintro ⟨s, h, _⟩
      cases h
  | some s =>
    unfold resolves
    rw [Bool.or_eq_true, resolvePrefixTest_iff, setHas_iff]
    constructor
    · rintro (h | ⟨t, ht, hm⟩)
      · exact ⟨s, rfl, Or.inr h⟩
      · cases ht
        exact ⟨s, rfl, Or.inl hm⟩
    · rintro ⟨t, ht, h | h⟩
      · cases ht
        exact Or.inr ⟨s, rfl, h⟩
      · cases ht
        exact Or.inl h

/-! ## Default deadline -/

/-- C6: the default deadline is `max(600, L * 1000 + 100)` milliseconds for a measured
latency of `L` seconds and `600` when no latency was measured; it is never below `600`,
it is `600` for `L = 0.05` and `1100` for `L = 1`; `promise()` arms its deadline timer
with it and `sendCommand()` uses it when no delay is given. -/
theorem promiseDelay_formula :
    (∀ L : ℚ, promiseDelay (some L) = max 600 (L * 1000 + 100)) ∧
    promiseDelay none = 600 ∧
    (∀ latency : Option ℚ, 600 ≤ promiseDelay latency) ∧
    promiseDelay (some (1 / 20)) = 600 ∧
    promiseDelay (some 1) = 1100 ∧
    (∀ (callback : Message → Bool) (self : IRCWrapper),
      (self.promise callback).pending =
        self.pending ++ [Pending.create callback (promiseDelay self.latency)] ∧
      (Pending.create callback (promiseDelay self.latency)).timer =
        some (promiseDelay self.latency)) ∧
    (∀ latency : Option ℚ, sendCommandTimer true none latency = some (promiseDelay latency)) := by
  refine ⟨fun L => rfl, ?_, fun latency => le_max_left _ _, ?_, ?_, fun _ _ => ⟨rfl, rfl⟩,
    fun _ => rfl⟩
  · norm_num [promiseDelay, latencyNumber]
  · norm_num [promiseDelay, latencyNumber]
  · norm_num [promiseDelay, latencyNumber]

/-! ## One `promise()` call -/

namespace Pending

theorem deliver_eq (message : Message) (entry : Pending) (hl : entry.listening = true)
    (hq : entry.awaiting = []) :
    entry.deliver message = afterAwait message (entry.callback message) entry := by
  cases entry
  simp_all [deliver, onRaw, resume]

end Pending

/-- C1: for a pending entry (listener registered, promise unsettled, no invocation in
flight) and a message delivered on `'raw'`, the listener decides in this order: a
message the predicate accepts resolves the entry with that message, whatever its
`msg-id`; else a deny-classified `msg-id` rejects it; else an allow-classified `msg-id`
resolves it with the message; else the entry is left exactly as it was. -/
theorem promise_listener_order (entry : Pending) (message : Message)
    (hl : entry.listening = true) (hs : entry.settled = none) (hq : entry.awaiting = []) :
    (entry.callback message = true →
      (entry.deliver message).settled = some (.resolved message) ∧
      (entry.deliver message).listening = false ∧ (entry.deliver message).timer = none) ∧
    (entry.callback message = false → rejects message.msgId = true →
      (entry.deliver message).settled = some (.rejected message.parameters) ∧
      (entry.deliver message).listening = false ∧ (entry.deliver message).timer = none) ∧
    (entry.callback message = false → rejects message.msgId = false →
      resolves message.msgId = true →
      (entry.deliver message).settled = some (.resolved message) ∧
      (entry.deliver message).listening = false ∧ (entry.deliver message).timer = none) ∧
    (entry.callback message = false → rejects message.msgId = false →
      resolves message.msgId = false → entry.deliver message = entry) := by
  rw [Pending.deliver_eq message entry hl hq]
  refine ⟨?_, ?_, ?_, ?_⟩
  · intro hc
    simp [Pending.afterAwait, Pending.settle, Pending.release, hc, hs]
  · intro hc hr
    simp [Pending.afterAwait, Pending.settle, Pending.release, hc, hr, hs]
  · intro hc hr ha
    simp [Pending.afterAwait, Pending.settle, Pending.release, hc, hr, ha, hs]
  · intro hc hr ha
    simp [Pending.afterAwait, hc, hr, ha]

/-- Witness for C1: an entry whose predicate accepts everything is resolved by a message
whose `msg-id` is the deny-classified `msg_banned`. -/
theorem promise_listener_order_witness :
    rejects (Message.msgId ⟨some [("msg-id", "msg_banned")], "NOTICE", some "banned"⟩) = true ∧
    ((Pending.create (fun _ => true) 600).deliver
        ⟨some [("msg-id", "msg_banned")], "NOTICE", some "banned"⟩).settled =
      some (.resolved ⟨some [("msg-id", "msg_banned")], "NOTICE", some "banned"⟩) :=
  ⟨by decide,
    ((promise_listener_order (Pending.create (fun _ => true) 600)
      ⟨some [("msg-id", "msg_banned")], "NOTICE", some "banned"⟩ rfl rfl rfl).1 rfl).1⟩

namespace Pending

theorem settle_settled_isSome (outcome : Outcome) (entry : Pending) :
    (settle outcome entry).settled.isSome = true := by
  unfold settle
  cases h : entry.settled <;> simp [h]

theorem settle_of_some (outcome o : Outcome) (entry : Pending) (h : entry.settled = some o) :
    settle outcome entry = entry := by
  unfold settle
  simp [h]

theorem afterAwait_keeps (message : Message) (matched : Bool) (entry : Pending) (o : Outcome)
    (h : entry.settled = some o) (hl : entry.listening = false) (ht : entry.timer = none) :
    (afterAwait message matched entry).settled = some o ∧
    (afterAwait message matched entry).listening = false ∧
    (afterAwait message matched entry).timer = none := by
  unfold afterAwait
  split_ifs <;> simp [settle, release, h, hl, ht]

theorem afterAwait_isSome_of_isSome (message : Message) (matched : Bool) (entry : Pending)
    (h : entry.settled.isSome = true) :
    (afterAwait message matched entry).settled.isSome = true := by
  unfold afterAwait
  split_ifs <;> simp [settle_settled_isSome, h]

theorem afterAwait_isSome_of_decisive (message : Message) (matched : Bool) (entry : Pending)
    (h : (matched || rejects message.msgId || resolves message.msgId) = true) :
    (afterAwait message matched entry).settled.isSome = true := by
  unfold afterAwait
  split_ifs with h1 h2 h3
  · exact settle_settled_isSome _ _
  · exact settle_settled_isSome _ _
  · exact settle_settled_isSome _ _
  · simp [h1, h2, h3] at h

theorem foldl_afterAwait_isSome (queue : List (Message × Bool)) :
    ∀ acc : Pending, acc.settled.isSome = true →
      (queue.foldl (fun acc waiting => afterAwait waiting.1 waiting.2 acc) acc).settled.isSome
        = true := by
  induction queue with
  | nil => intro acc h; simpa using h
  | cons p rest ih =>
    intro acc h
    simp only [List.foldl_cons]
    exact ih _ (afterAwait_isSome_of_isSome _ _ _ h)

theorem foldl_afterAwait_decisive (queue : List (Message × Bool)) :
    ∀ acc : Pending,
      (∃ p ∈ queue, (p.2 || rejects p.1.msgId || resolves p.1.msgId) = true) →
      (queue.foldl (fun acc waiting => afterAwait waiting.1 waiting.2 acc) acc).settled.isSome
        = true := by
  induction queue with
  | nil => intro acc h; simp at h
  | cons p rest ih =>
    intro acc h
    simp only [List.foldl_cons]
    rcases h with ⟨q, hq, hd⟩
    rcases List.mem_cons.mp hq with rfl | hq
    · exact foldl_afterAwait_isSome _ _ (afterAwait_isSome_of_decisive _ _ _ hd)
    · exact ih _ ⟨q, hq, hd⟩

theorem step_keeps (entry : Pending) (event : Event) (o : Outcome)
    (h : entry.settled = some o) (hl : entry.listening = false) (ht : entry.timer = none) :
    (step entry event).settled = some o ∧ (step entry event).listening = false ∧
      (step entry event).timer = none := by
  cases event with
  | raw message => simp [step, onRaw, h, hl, ht]
  | microtask =>
    simp only [step, resume]
    split
    · exact ⟨h, hl, ht⟩
    · exact afterAwait_keeps _ _ _ o h hl ht
  | deadline => simp [step, onTimeout, h, hl, ht]

theorem run_keeps (events : List Event) :
    ∀ (entry : Pending) (o : Outcome), entry.settled = some o → entry.listening = false →
      entry.timer = none →
      (run events entry).settled = some o ∧ (run events entry).listening = false ∧
        (run events entry).timer = none := by
  induction events with
  | nil => intro entry o h hl ht; exact ⟨h, hl, ht⟩
  | cons event rest ih =>
    intro entry o h hl ht
    obtain ⟨h1, h2, h3⟩ := step_keeps entry event o h hl ht
    simpa [run] using ih _ o h1 h2 h3

theorem run_events_concat (events : List Event) (event : Event) (entry : Pending) :
    run (events ++ [event]) entry = step (run events entry) event := by
  simp [run, List.foldl_append]

theorem run_events_append (first later : List Event) (entry : Pending) :
    run (first ++ later) entry = run later (run first entry) := by
  simp [run, List.foldl_append]

/-- The invariant of one entry along any sequence of events. -/
theorem run_invariant (callback : Message → Bool) (delay : ℚ) (events : List Event) :
    (run events (create callback delay)).callback = callback ∧
    (∀ p ∈ (run events (create callback delay)).awaiting, p.2 = callback p.1) ∧
    ((run events (create callback delay)).settled = none →
      (run events (create callback delay)).listening = true ∧
      (run events (create callback delay)).timer = some delay ∧
      Event.deadline ∉ events ∧
      ∀ m, Event.raw m ∈ events →
        (callback m || rejects m.msgId || resolves m.msgId) = true →
        (m, callback m) ∈ (run events (create callback delay)).awaiting) ∧
    (∀ o, (run events (create callback delay)).settled = some o →
      (run events (create callback delay)).listening = false ∧
      (run events (create callback delay)).timer = none) := by
  induction events using List.reverseRecOn with
  | nil => simp [run, create]
  | append_singleton events event ih =>
    rw [run_events_concat]
    generalize run events (create callback delay) = e at ih ⊢
    obtain ⟨hcb, hq, hnone, hsome⟩ := ih
    cases event with
    | raw message =>
      cases hs : e.settled with
      | none =>
        obtain ⟨hl, ht, hd, hm⟩ := hnone hs
        have he : step e (.raw message) =
            { e with awaiting := e.awaiting ++ [(message, e.callback message)] } := by
          simp [step, onRaw, hl]
        rw [he]
        refine ⟨hcb, ?_, ?_, ?_⟩
        · intro p hp
          rcases List.mem_append.mp hp with hp | hp
          · exact hq p hp
          · simp only [List.mem_singleton] at hp
            subst hp
            simp [hcb]
        · intro _
          refine ⟨hl, ht, ?_, ?_⟩
          · simpa using hd
          · intro m hmem hdec
            simp only [List.mem_append, List.mem_singleton, Event.raw.injEq] at hmem
            rcases hmem with hmem | rfl
            · exact List.mem_append_left _ (hm m hmem hdec)
            · simp [hcb]
        · intro o ho
          simp [hs] at ho
      | some o =>
        obtain ⟨hl, ht⟩ := hsome o hs
        have he : step e (.raw message) = e := by simp [step, onRaw, hl]
        rw [he]
        refine ⟨hcb, hq, ?_, ?_⟩
        · intro h; simp [hs] at h
        · intro o2 _; exact ⟨hl, ht⟩
    | microtask =>
      simp only [step, resume]
      split
      · rename_i hempty
        refine ⟨hcb, hq, ?_, hsome⟩
        intro hs
        obtain ⟨hl, ht, hd, hm⟩ := hnone hs
        refine ⟨hl, ht, by simpa using hd, ?_⟩
        intro m hmem hdec
        simp only [List.mem_append, List.mem_singleton] at hmem
        rcases hmem with hmem | hmem
        · exact hm m hmem hdec
        · cases hmem
      · rename_i message matched rest hcons
        have hmatched : matched = callback message := by
          have := hq (message, matched) (by simp [hcons])
          simpa using this
        have hrest : ∀ p ∈ rest, p.2 = callback p.1 := by
          intro p hp
          exact hq p (by simp [hcons, hp])
        by_cases hdec : (matched || rejects message.msgId || resolves message.msgId) = true
        · have hsettled := afterAwait_isSome_of_decisive message matched
            { e with awaiting := rest } hdec
          have hfields : (afterAwait message matched { e with awaiting := rest }).callback
                = callback ∧
              (afterAwait message matched { e with awaiting := rest }).awaiting = rest ∧
              (afterAwait message matched { e with awaiting := rest }).listening = false ∧
              (afterAwait message matched { e with awaiting := rest }).timer = none := by
            unfold afterAwait
            split_ifs with h1 h2 h3
            · cases hs : e.settled <;> simp [settle, release, hs, hcb]
            · cases hs : e.settled <;> simp [settle, release, hs, hcb]
            · cases hs : e.settled <;> simp [settle, release, hs, hcb]
            · simp [h1, h2, h3] at hdec
          obtain ⟨f1, f2, f3, f4⟩ := hfields
          refine ⟨f1, by rw [f2]; exact hrest, ?_, ?_⟩
          · intro hs
            rw [hs] at hsettled
            simp at hsettled
          · intro o _
            exact ⟨f3, f4⟩
        · have he : afterAwait message matched { e with awaiting := rest } =
              { e with awaiting := rest } := by
            unfold afterAwait
            simp only [Bool.or_eq_true, not_or] at hdec
            simp [hdec.1.1, hdec.1.2, hdec.2]
          rw [he]
          refine ⟨hcb, hrest, ?_, hsome⟩
          intro hs
          obtain ⟨hl, ht, hd, hm⟩ := hnone hs
          refine ⟨hl, ht, by simpa using hd, ?_⟩
          intro m hmem hmdec
          simp only [List.mem_append, List.mem_singleton] at hmem
          rcases hmem with hmem | hmem
          · have hin := hm m hmem hmdec
            rw [hcons] at hin
            rcases List.mem_cons.mp hin with heq | hin
            · exfalso
              apply hdec
              have h1 : m = message := congrArg Prod.fst heq
              have h2 : callback m = matched := congrArg Prod.snd heq
              rw [← h1, ← h2]
              exact hmdec
            · exact hin
          · cases hmem
    | deadline =>
      simp only [step, onTimeout]
      cases htimer : e.timer with
      | none =>
        simp only
        refine ⟨hcb, hq, ?_, hsome⟩
        intro hs
        have := (hnone hs).2.1
        rw [htimer] at this
        cases this
      | some d =>
        simp only
        refine ⟨?_, ?_, ?_, ?_⟩
        · cases hs : e.settled <;> simp [settle, hs, hcb]
        · cases hs : e.settled <;> simpa [settle, hs] using hq
        · intro hs
          have := settle_settled_isSome .timedOut { e with timer := none, listening := false }
          rw [hs] at this
          simp at this
        · intro o _
          cases hs : e.settled <;> simp [settle, hs]

end Pending

/-- C2: along every sequence of events of one `promise()` entry (messages emitted on
`'raw'`, microtasks, the deadline timer coming due), in any interleaving: once an
outcome is delivered the listener is removed and the timer is no longer pending; that
outcome is the only one, whatever happens later; an unsettled entry still has both its
listener and its timer; the deadline coming due forces an outcome; and so does any
message that matches the predicate or is deny- or allow-classified, once the
microtasks have run. -/
theorem promise_settles_exactly_once (callback : Message → Bool) (delay : ℚ)
    (events : List Pending.Event) :
    (∀ o, (Pending.run events (Pending.create callback delay)).settled = some o →
      (Pending.run events (Pending.create callback delay)).listening = false ∧
      (Pending.run events (Pending.create callback delay)).timer = none ∧
      ∀ later : List Pending.Event,
        (Pending.run (events ++ later) (Pending.create callback delay)).settled = some o ∧
        (Pending.run (events ++ later) (Pending.create callback delay)).listening = false ∧
        (Pending.run (events ++ later) (Pending.create callback delay)).timer = none) ∧
    ((Pending.run events (Pending.create callback delay)).settled = none →
      (Pending.run events (Pending.create callback delay)).listening = true ∧
      (Pending.run events (Pending.create callback delay)).timer = some delay) ∧
    (Pending.Event.deadline ∈ events →
      ∃ o, (Pending.run events (Pending.create callback delay)).settled = some o) ∧
    (∀ m, Pending.Event.raw m ∈ events →
      (callback m || rejects m.msgId || resolves m.msgId) = true →
      ∃ o, (Pending.run events (Pending.create callback delay)).drain.settled = some o) := by
  obtain ⟨_, _, hnone, hsome⟩ := Pending.run_invariant callback delay events
  refine ⟨?_, ?_, ?_, ?_⟩
  · intro o ho
    obtain ⟨hl, ht⟩ := hsome o ho
    refine ⟨hl, ht, ?_⟩
    intro later
    rw [Pending.run_events_append]
    exact Pending.run_keeps later _ o ho hl ht
  · intro hs
    exact ⟨(hnone hs).1, (hnone hs).2.1⟩
  · intro hd
    cases hs : (Pending.run events (Pending.create callback delay)).settled with
    | none => exact absurd hd (hnone hs).2.2.1
    | some o => exact ⟨o, rfl⟩
  · intro m hm hdec
    apply Option.isSome_iff_exists.mp
    cases hs : (Pending.run events (Pending.create callback delay)).settled with
    | none =>
      unfold Pending.drain
      exact Pending.foldl_afterAwait_decisive _ _ ⟨(m, callback m), (hnone hs).2.2.2 m hm hdec, hdec⟩
    | some o =>
      unfold Pending.drain
      exact Pending.foldl_afterAwait_isSome _ _ (by simp [hs])

/-- Witness for C2: a matching message, a deny-classified one and an allow-classified
one are emitted in the same tick, their microtasks run, then the deadline comes due and
further events follow: the entry is resolved with the first message and stays so. -/
theorem promise_settles_exactly_once_witness :
    (Pending.run
        [.raw ⟨none, "JOIN", none⟩, .raw ⟨some [("msg-id", "msg_banned")], "X", none⟩,
          .raw ⟨some [("msg-id", "usage_host")], "X", none⟩,
          .microtask, .microtask, .microtask, .deadline]
        (Pending.create (fun m => m.command == "JOIN") 600)).settled =
      some (.resolved ⟨none, "JOIN", none⟩) ∧
    (Pending.run
        ([.raw ⟨none, "JOIN", none⟩, .raw ⟨some [("msg-id", "msg_banned")], "X", none⟩,
          .raw ⟨some [("msg-id", "usage_host")], "X", none⟩,
          .microtask, .microtask, .microtask, .deadline] ++
          [.raw ⟨some [("msg-id", "msg_banned")], "X", none⟩, .microtask, .deadline])
        (Pending.create (fun m => m.command == "JOIN") 600)).settled =
      some (.resolved ⟨none, "JOIN", none⟩) :=
  ⟨by decide,
    (((promise_settles_exactly_once (fun m => m.command == "JOIN") 600
      [.raw ⟨none, "JOIN", none⟩, .raw ⟨some [("msg-id", "msg_banned")], "X", none⟩,
        .raw ⟨some [("msg-id", "usage_host")], "X", none⟩,
        .microtask, .microtask, .microtask, .deadline]).1 _ (by decide)).2.2
      [.raw ⟨some [("msg-id", "msg_banned")], "X", none⟩, .microtask, .deadline]).1⟩

/-! ## Dispatch of inbound messages (`_handleMessage`) -/

namespace IRCWrapper

theorem handleMessage_default (now : Int) (message : Message) (self : IRCWrapper)
    (hcmd : message.command ∉ ["001", "NOTICE", "PING", "PONG", "RECONNECT"]) :
    self.handleMessage now (some message) = self.emitRaw message := by
  simp only [List.mem_cons, List.mem_singleton, List.not_mem_nil, or_false, not_or] at hcmd
  obtain ⟨h1, h2, h3, h4, h5⟩ := hcmd
  simp [handleMessage, h1, h2, h3, h4, h5]

end IRCWrapper

/-- C3 as stated fails: a `PING` is not emitted on `'raw'`, so a pending entry whose
predicate accepts it is not resolved by it, also when no other listener is registered on
`'raw'`. -/
theorem handleMessage_ping_not_broadcast :
    ¬ ∀ (now : Int) (message : Message) (self : IRCWrapper) (i : Nat) (entry : Pending),
        self.pending[i]? = some entry → entry.listening = true → entry.settled = none →
        entry.awaiting = [] → entry.callback message = true →
        ∃ after,
          (self.handleMessage now (some message)).state.runMicrotasks.pending[i]? = some after ∧
          after.settled = some (.resolved message) := by
  intro h
  obtain ⟨after, h1, h2⟩ := h 0 ⟨none, "PING", none⟩ (IRCWrapper.init.promise fun _ => true) 0
    (Pending.create (fun _ => true) (promiseDelay none)) rfl rfl rfl rfl rfl
  have h3 : ((IRCWrapper.init.promise fun _ => true).handleMessage 0
      (some ⟨none, "PING", none⟩)).state.runMicrotasks.pending[0]? =
      some (Pending.create (fun _ => true) (promiseDelay none)) := rfl
  rw [h3] at h1
  cases h1
  cases h2

/-- C3, amended: a message whose command is none of `001`, `NOTICE`, `PING`, `PONG`,
`RECONNECT` is emitted on `'raw'`. When the listeners registered on `'raw'` before those
of `promise()` (the client's `_handleIRCMessage`) return for it, `_handleMessage` returns
without an exception, every entry whose listener is registered evaluates the message
once, and once the microtasks have run every pending entry whose predicate accepts the
message is resolved with it, however many there are. When one of those listeners throws,
as `_handleIRCMessage` does for every `USERNOTICE`, its exception leaves `_handleMessage`
and no entry is given the message. -/
theorem handleMessage_broadcasts_other_commands (now : Int) (message : Message)
    (self : IRCWrapper)
    (hcmd : message.command ∉ ["001", "NOTICE", "PING", "PONG", "RECONNECT"]) :
    (self.handleMessage now (some message)).state.emitted = self.emitted ++ [.raw message] ∧
    (self.observer message = none →
      (self.handleMessage now (some message)).thrown = none ∧
      ∀ (i : Nat) (entry : Pending), self.pending[i]? = some entry →
        (∃ called, (self.handleMessage now (some message)).state.pending[i]? = some called ∧
          called.awaiting = entry.awaiting ++
            (if entry.listening then [(message, entry.callback message)] else [])) ∧
        (entry.listening = true → entry.settled = none → entry.awaiting = [] →
          entry.callback message = true →
          ∃ after,
            (self.handleMessage now (some message)).state.runMicrotasks.pending[i]? =
              some after ∧
            after.settled = some (.resolved message) ∧ after.listening = false ∧
            after.timer = none)) ∧
    (∀ error, self.observer message = some error →
      (self.handleMessage now (some message)).thrown = some error ∧
      (self.handleMessage now (some message)).state.pending = self.pending) ∧
    (∀ rest, message.command = "USERNOTICE" →
      ∃ error, BaseClient.handleIRCMessage rest message = some error ∧
        ((BaseClient.init rest).irc.handleMessage now (some message)).thrown = some error) := by
  rw [IRCWrapper.handleMessage_default now message self hcmd]
  refine ⟨?_, ?_, ?_, ?_⟩
  · unfold IRCWrapper.emitRaw
    cases self.observer message <;> rfl
  · intro hobs
    refine ⟨by simp [IRCWrapper.emitRaw, hobs], ?_⟩
    intro i entry hi
    simp only [IRCWrapper.emitRaw, hobs]
    constructor
    · refine ⟨entry.onRaw message, ?_, ?_⟩
      · simp [List.getElem?_map, hi]
      · cases hl : entry.listening <;> simp [Pending.onRaw, hl]
    · intro hl hs hq hc
      refine ⟨(entry.onRaw message).drain, ?_, ?_⟩
      · simp [IRCWrapper.runMicrotasks, List.getElem?_map, hi]
      · simp [Pending.onRaw, Pending.drain, Pending.afterAwait, Pending.settle,
          Pending.release, hl, hs, hq, hc]
  · intro error hobs
    simp [IRCWrapper.emitRaw, hobs]
  · intro rest hu
    rw [IRCWrapper.handleMessage_default now message _ hcmd]
    cases hr : rest message with
    | some error =>
      refine ⟨error, by simp [BaseClient.handleIRCMessage, hr], ?_⟩
      simp [IRCWrapper.emitRaw, BaseClient.init, BaseClient.handleIRCMessage, hr]
    | none =>
      refine ⟨.referenceError "tags", by simp [BaseClient.handleIRCMessage, hr, hu], ?_⟩
      simp [IRCWrapper.emitRaw, BaseClient.init, BaseClient.handleIRCMessage, hr, hu]

/-- Witness for C3: two entries wait for a `JOIN` on a connection whose earlier listener
is the client's; one `JOIN` resolves both. -/
theorem handleMessage_broadcasts_other_commands_witness :
    ("JOIN" ∉ ["001", "NOTICE", "PING", "PONG", "RECONNECT"]) ∧
    (BaseClient.init fun _ => none).irc.observer ⟨none, "JOIN", none⟩ = none ∧
    ((((((BaseClient.init fun _ => none).irc.promise fun m => m.command == "JOIN").promise
        fun m => m.command == "JOIN").handleMessage 0
          (some ⟨none, "JOIN", none⟩)).state.runMicrotasks.pending.map fun e => e.settled) =
      [some (.resolved ⟨none, "JOIN", none⟩), some (.resolved ⟨none, "JOIN", none⟩)]) ∧
    ((((BaseClient.init fun _ => none).irc.promise fun m => m.command == "JOIN").promise
        fun m => m.command == "JOIN").handleMessage 0
          (some ⟨none, "JOIN", none⟩)).thrown = none :=
  ⟨by decide, by decide, by decide,
    ((handleMessage_broadcasts_other_commands 0 ⟨none, "JOIN", none⟩
      (((BaseClient.init fun _ => none).irc.promise fun m => m.command == "JOIN").promise
        fun m => m.command == "JOIN") (by decide)).2.1 (by decide)).1⟩

/-! ## Backoff (`reconnect`, the handler of `001`) -/

namespace IRCWrapper

theorem run_ops_concat (ops : List Op) (op : Op) (self : IRCWrapper) :
    run (ops ++ [op]) self = step (run ops self) op := by
  simp [run, List.foldl_append]

/-- What a call of `reconnect()` does to `_config`: nothing, or the delay is advanced. -/
theorem reconnect_config (self : IRCWrapper) :
    (self.reconnect.2 = .refused ∧ self.reconnect.1.config = self.config) ∨
    (self.reconnect.2 =
        .scheduled (mathMin (.finite self.config.intervalMax)
          (self.config.delay.times self.config.decay)) ∧
      self.reconnect.1.config =
        { self.config with
          delay := mathMin (.finite self.config.intervalMax)
            (self.config.delay.times self.config.decay) }) := by
  unfold reconnect
  split_ifs <;> simp [emit]

/-- What `_handleMessage` does to `_config`: nothing, or the reset of the `001` case. -/
theorem handleMessage_config (now : Int) (message : Option Message) (self : IRCWrapper) :
    (self.handleMessage now message).state.config = self.config ∨
    (self.handleMessage now message).state.config =
      { self.config with attempts := some 0, delay := .finite self.config.intervalMin } := by
  unfold handleMessage
  cases message with
  | none => exact Or.inl rfl
  | some message =>
    simp only
    split_ifs
    · exact Or.inr rfl
    · exact Or.inl rfl
    · exact Or.inl rfl
    · exact Or.inl rfl
    · exact Or.inl rfl
    · exact Or.inl rfl
    · exact Or.inl rfl
    · exact Or.inl rfl
    · left
      unfold emitRaw
      cases self.observer message <;> rfl

/-- What the handler of `'close'` does to `_config`: nothing, or the delay is advanced. -/
theorem onClose_config (self : IRCWrapper) :
    self.onClose.state.config = self.config ∨
    self.onClose.state.config =
      { self.config with
        delay := mathMin (.finite self.config.intervalMax)
          (self.config.delay.times self.config.decay) } := by
  unfold onClose reconnect
  simp only
  split_ifs <;> simp [emit]

/-- What one operation does to `_config`. -/
theorem step_config (self : IRCWrapper) (op : Op) :
    (step self op).config = self.config ∨
    (step self op).config =
      { self.config with attempts := some 0, delay := .finite self.config.intervalMin } ∨
    (step self op).config =
      { self.config with
        delay := mathMin (.finite self.config.intervalMax)
          (self.config.delay.times self.config.decay) } := by
  cases op with
  | message now message =>
    rcases handleMessage_config now message self with h | h
    · exact Or.inl h
    · exact Or.inr (Or.inl h)
  | reconnect =>
    rcases reconnect_config self with ⟨_, h⟩ | ⟨_, h⟩
    · exact Or.inl h
    · exact Or.inr (Or.inr h)
  | connect => exact Or.inl rfl
  | promise callback => exact Or.inl rfl
  | deadline index => exact Or.inl rfl
  | microtasks => exact Or.inl rfl
  | socketConnect token login => exact Or.inl rfl
  | pingTimer =>
    left
    simp only [step, onPingTimer]
    cases self.pingTimeout <;> rfl
  | pingWritten now =>
    left
    simp only [step]
    split_ifs <;> rfl
  | staleTimer =>
    left
    simp only [step, onStaleTimer]
    cases self.staleTimeout <;> rfl
  | close =>
    rcases onClose_config self with h | h
    · exact Or.inl h
    · exact Or.inr (Or.inr h)
  | destroy => exact Or.inl rfl
  | reconnectTimer =>
    left
    simp only [step, onReconnectTimer]
    cases self.reconnectTimers <;> rfl
  | sendCommand connected command channel delay tags =>
    left
    simp only [step, sendCommand]
    cases tags.getD [] <;> rfl

theorem advance_within (decay delay lo hi : ℚ) (hdecay : 1 ≤ decay) (hlo0 : 0 ≤ lo)
    (hlo : lo ≤ delay) (hhi : delay ≤ hi) :
    lo ≤ min hi (delay * decay) ∧ min hi (delay * decay) ≤ hi := by
  refine ⟨le_min (le_trans hlo hhi) ?_, min_le_left _ _⟩
  have h0 : 0 ≤ delay := le_trans hlo0 hlo
  nlinarith

theorem run_within (ops : List Op) (self : IRCWrapper) (decay delay : ℚ)
    (hk : self.config.decay = .finite decay) (hd : self.config.delay = .finite delay)
    (hdecay : 1 ≤ decay) (hmin : 0 ≤ self.config.intervalMin)
    (hlo : self.config.intervalMin ≤ delay) (hhi : delay ≤ self.config.intervalMax) :
    (run ops self).config.decay = .finite decay ∧
    (run ops self).config.intervalMin = self.config.intervalMin ∧
    (run ops self).config.intervalMax = self.config.intervalMax ∧
    ∃ d : ℚ, (run ops self).config.delay = .finite d ∧
      self.config.intervalMin ≤ d ∧ d ≤ self.config.intervalMax := by
  induction ops using List.reverseRecOn with
  | nil => exact ⟨hk, rfl, rfl, delay, hd, hlo, hhi⟩
  | append_singleton ops op ih =>
    rw [run_ops_concat]
    generalize run ops self = st at ih ⊢
    obtain ⟨h1, h2, h3, d, h4, h5, h6⟩ := ih
    rcases step_config st op with h | h | h
    · rw [h]; exact ⟨h1, h2, h3, d, h4, h5, h6⟩
    · rw [h]
      exact ⟨h1, h2, h3, self.config.intervalMin, by simp [h2], le_refl _, le_trans hlo hhi⟩
    · rw [h]
      have := advance_within decay d self.config.intervalMin
        self.config.intervalMax hdecay hmin h5 h6
      refine ⟨h1, h2, h3, min self.config.intervalMax (d * decay), ?_, this.1, this.2⟩
      simp only [h1, h3, h4, mathMin_times_finite]

end IRCWrapper

/-- C7 as stated fails: with `interval.min = 5000` and a finite `decay` the first
`reconnect()` computes the delay `1500`, which is below `interval.min`. -/
theorem reconnect_delay_below_interval_min :
    ¬ ∀ (intervalMin intervalMax decay : ℚ) (maxAttempts : Limit) (ops : List IRCWrapper.Op),
        ∃ delay : ℚ,
          (IRCWrapper.run ops
            (IRCWrapper.withConfig intervalMin intervalMax decay maxAttempts)).config.delay =
              .finite delay ∧
          (IRCWrapper.run ops
            (IRCWrapper.withConfig intervalMin intervalMax decay maxAttempts)).config.intervalMin ≤
              delay ∧
          delay ≤ (IRCWrapper.run ops
            (IRCWrapper.withConfig intervalMin intervalMax decay maxAttempts)).config.intervalMax := by
  intro h
  obtain ⟨delay, h1, h2, _⟩ := h 5000 30000 (3 / 2) .infinity [.reconnect]
  have h3 : (IRCWrapper.run [.reconnect]
      (IRCWrapper.withConfig 5000 30000 (3 / 2) .infinity)).config.delay = .finite 1500 := by
    simp [IRCWrapper.run, IRCWrapper.step, IRCWrapper.reconnect,
      IRCWrapper.withConfig, IRCWrapper.init, Limit.positive, attemptsReached,
      JSNumber.ofNat_eq, mathMin_times_finite]
    norm_num
  have h4 : (IRCWrapper.run [.reconnect]
      (IRCWrapper.withConfig 5000 30000 (3 / 2) .infinity)).config.intervalMin = 5000 := by
    simp [IRCWrapper.run, IRCWrapper.step, IRCWrapper.reconnect,
      IRCWrapper.withConfig, IRCWrapper.init, Limit.positive, attemptsReached]
  rw [h3] at h1
  rw [h4] at h2
  cases h1
  norm_num at h2

/-- C7, amended: for a configuration whose `decay` and current delay are finite numbers,
the delay that `reconnect()` computes and waits for is a finite number, at most
`interval.max`; when moreover `decay ≥ 1` and `0 ≤ interval.min ≤ delay ≤ interval.max`
hold in a state, then in every state reached from it, whatever happens to the
connection, the bounds are unchanged, the delay is a finite number in `[interval.min,
interval.max]`, and so is the delay that `reconnect()` computes there. With a `decay`
that is `NaN`, which is what an absent `decay` in the option becomes, the computed delay
is `NaN`. -/
theorem reconnect_delay_within_interval (self : IRCWrapper) (ops : List IRCWrapper.Op)
    (decay delay : ℚ) :
    (self.config.decay = .finite decay → self.config.delay = .finite delay →
      ∀ result, self.reconnect.2 = .scheduled result →
        ∃ d : ℚ, result = .finite d ∧ d ≤ self.config.intervalMax) ∧
    (self.config.decay = .finite decay → self.config.delay = .finite delay →
      1 ≤ decay → 0 ≤ self.config.intervalMin →
      self.config.intervalMin ≤ delay → delay ≤ self.config.intervalMax →
      (IRCWrapper.run ops self).config.intervalMin = self.config.intervalMin ∧
      (IRCWrapper.run ops self).config.intervalMax = self.config.intervalMax ∧
      (∃ d : ℚ, (IRCWrapper.run ops self).config.delay = .finite d ∧
        self.config.intervalMin ≤ d ∧ d ≤ self.config.intervalMax) ∧
      ∀ result, (IRCWrapper.run ops self).reconnect.2 = .scheduled result →
        ∃ d : ℚ, result = .finite d ∧
          self.config.intervalMin ≤ d ∧ d ≤ self.config.intervalMax) ∧
    (self.config.decay = .nan →
      ∀ result, self.reconnect.2 = .scheduled result → result = .nan) := by
  refine ⟨?_, ?_, ?_⟩
  · intro hk hd result hres
    rcases IRCWrapper.reconnect_config self with ⟨h, _⟩ | ⟨h, _⟩
    · rw [h] at hres; cases hres
    · rw [h, hk, hd, mathMin_times_finite] at hres
      cases hres
      exact ⟨_, rfl, min_le_left _ _⟩
  · intro hk hd hdecay hmin hlo hhi
    obtain ⟨h1, h2, h3, d, h4, h5, h6⟩ :=
      IRCWrapper.run_within ops self decay delay hk hd hdecay hmin hlo hhi
    refine ⟨h2, h3, ⟨d, h4, h5, h6⟩, ?_⟩
    intro result hres
    rcases IRCWrapper.reconnect_config (IRCWrapper.run ops self) with ⟨h, _⟩ | ⟨h, _⟩
    · rw [h] at hres; cases hres
    · rw [h, h1, h3, h4, mathMin_times_finite] at hres
      cases hres
      exact ⟨_, rfl, IRCWrapper.advance_within _ _ _ _ hdecay hmin h5 h6⟩
  · intro hk result hres
    rcases IRCWrapper.reconnect_config self with ⟨h, _⟩ | ⟨h, _⟩
    · rw [h] at hres; cases hres
    · rw [h, hk] at hres
      cases hres
      cases self.config.delay <;> rfl

/-- Witness for C7: under the default configuration, after a reconnect, the close of the
new socket with an error, a connect and the handling of `001`, the next `reconnect()`
computes `1500`, inside `[1000, 30000]`. -/
theorem reconnect_delay_within_interval_witness :
    IRCWrapper.init.config.decay = .finite (3 / 2) ∧
    IRCWrapper.init.config.delay = .finite 1000 ∧
    ∃ d : ℚ,
      (IRCWrapper.run [.reconnect, .connect, .message 0 (some ⟨none, "001", none⟩)]
        IRCWrapper.init).config.delay = .finite d ∧
      IRCWrapper.init.config.intervalMin ≤ d ∧ d ≤ IRCWrapper.init.config.intervalMax :=
  ⟨rfl, rfl,
    ((reconnect_delay_within_interval IRCWrapper.init
      [.reconnect, .connect, .message 0 (some ⟨none, "001", none⟩)] (3 / 2) 1000).2.1 rfl rfl
      (by norm_num) (by norm_num [IRCWrapper.init]) (by norm_num [IRCWrapper.init])
      (by norm_num [IRCWrapper.init])).2.2.1⟩

namespace IRCWrapper

/-- An accepted `reconnect()` followed by `connect()`. -/
theorem reconnectDelays_succ (rounds : Nat) (self : IRCWrapper)
    (hpos : self.config.maxAttempts.positive = true)
    (hreach : attemptsReached self.config.attempts self.config.maxAttempts = false)
    (hrec : self.reconnecting = false) :
    ∃ next : IRCWrapper,
      reconnectDelays (rounds + 1) self =
        mathMin (.finite self.config.intervalMax) (self.config.delay.times self.config.decay) ::
          reconnectDelays rounds next ∧
      next.config =
        { self.config with
          delay := mathMin (.finite self.config.intervalMax)
            (self.config.delay.times self.config.decay) } ∧
      next.reconnecting = false := by
  refine ⟨self.reconnect.1.connect, ?_, ?_, ?_⟩
  · simp [reconnectDelays, reconnect, hpos, hreach, hrec]
  · simp [reconnect, connect, hpos, hreach, hrec]
  · rfl

theorem reconnectDelays_from_bounded (rounds : Nat) (decay : ℚ) (hdecay : 1 ≤ decay) :
    ∀ (self : IRCWrapper) (delay : ℚ), self.config.decay = .finite decay →
      self.config.delay = .finite delay → 0 ≤ delay →
      delay ≤ self.config.intervalMax →
      self.config.maxAttempts.positive = true →
      attemptsReached self.config.attempts self.config.maxAttempts = false →
      self.reconnecting = false →
      ∃ delays : List ℚ, reconnectDelays rounds self = delays.map JSNumber.finite ∧
        delays.length = rounds ∧
        (∀ d ∈ delays, delay ≤ d ∧ d ≤ self.config.intervalMax) ∧
        delays.Sorted (· ≤ ·) := by
  induction rounds with
  | zero =>
    intro self delay _ _ _ _ _ _ _
    exact ⟨[], by simp [reconnectDelays], rfl, by simp, by simp⟩
  | succ rounds ih =>
    intro self delay hk hd h0 hhi hpos hreach hrec
    obtain ⟨next, hlist, hcfg, hnrec⟩ := reconnectDelays_succ rounds self hpos hreach hrec
    rw [hk, hd, mathMin_times_finite] at hlist hcfg
    have hstep : delay ≤ min self.config.intervalMax (delay * decay) := by
      refine le_min hhi ?_
      nlinarith
    obtain ⟨delays, heq, hlen, hall, hsorted⟩ := ih next
      (min self.config.intervalMax (delay * decay)) (by rw [hcfg]; exact hk)
      (by rw [hcfg]) (le_trans h0 hstep) (by rw [hcfg]; exact min_le_left _ _)
      (by rw [hcfg]; exact hpos) (by rw [hcfg]; exact hreach) hnrec
    rw [hcfg] at hall
    refine ⟨min self.config.intervalMax (delay * decay) :: delays, ?_, by simp [hlen], ?_, ?_⟩
    · rw [hlist, heq]; rfl
    · intro d hd
      rcases List.mem_cons.mp hd with rfl | hd
      · exact ⟨hstep, min_le_left _ _⟩
      · exact ⟨le_trans hstep (hall d hd).1, (hall d hd).2⟩
    · exact List.sorted_cons.mpr ⟨fun d hd => (hall d hd).1, hsorted⟩

theorem reconnectDelays_sorted (rounds : Nat) (self : IRCWrapper) (decay delay : ℚ)
    (hk : self.config.decay = .finite decay) (hd : self.config.delay = .finite delay)
    (hdecay : 1 ≤ decay) (h0 : 0 ≤ delay)
    (hmax : 0 ≤ self.config.intervalMax)
    (hpos : self.config.maxAttempts.positive = true)
    (hreach : attemptsReached self.config.attempts self.config.maxAttempts = false)
    (hrec : self.reconnecting = false) :
    ∃ delays : List ℚ, reconnectDelays rounds self = delays.map JSNumber.finite ∧
      delays.length = rounds ∧
      (∀ d ∈ delays, d ≤ self.config.intervalMax) ∧
      delays.Sorted (· ≤ ·) := by
  cases rounds with
  | zero => exact ⟨[], by simp [reconnectDelays], rfl, by simp, by simp⟩
  | succ rounds =>
    obtain ⟨next, hlist, hcfg, hnrec⟩ := reconnectDelays_succ rounds self hpos hreach hrec
    rw [hk, hd, mathMin_times_finite] at hlist hcfg
    have hnonneg : 0 ≤ min self.config.intervalMax (delay * decay) := by
      refine le_min hmax ?_
      nlinarith
    obtain ⟨delays, heq, hlen, hall, hsorted⟩ := reconnectDelays_from_bounded rounds decay
      hdecay next (min self.config.intervalMax (delay * decay))
      (by rw [hcfg]; exact hk) (by rw [hcfg]) hnonneg
      (by rw [hcfg]; exact min_le_left _ _) (by rw [hcfg]; exact hpos)
      (by rw [hcfg]; exact hreach) hnrec
    rw [hcfg] at hall
    refine ⟨min self.config.intervalMax (delay * decay) :: delays, ?_, by simp [hlen], ?_, ?_⟩
    · rw [hlist, heq]; rfl
    · intro d hd
      rcases List.mem_cons.mp hd with rfl | hd
      · exact min_le_left _ _
      · exact (hall d hd).2
    · exact List.sorted_cons.mpr ⟨fun d hd => (hall d hd).1, hsorted⟩

end IRCWrapper

/-- C8 as stated fails: with `decay = 0.5` two successive accepted calls of
`reconnect()` compute `500` and then `250`. -/
theorem reconnect_delays_decrease_for_small_decay :
    ¬ ∀ (intervalMin intervalMax decay : ℚ) (maxAttempts : Limit) (rounds : Nat),
        ∃ delays : List ℚ,
          IRCWrapper.reconnectDelays rounds
            (IRCWrapper.withConfig intervalMin intervalMax decay maxAttempts) =
              delays.map JSNumber.finite ∧
          delays.Sorted (· ≤ ·) := by
  intro h
  obtain ⟨delays, heq, hsorted⟩ := h 1000 30000 (1 / 2) .infinity 2
  have hrun : IRCWrapper.reconnectDelays 2 (IRCWrapper.withConfig 1000 30000 (1 / 2) .infinity) =
      [.finite 500, .finite 250] := by
    simp [IRCWrapper.reconnectDelays, IRCWrapper.reconnect, IRCWrapper.connect,
      IRCWrapper.withConfig, IRCWrapper.init, Limit.positive, attemptsReached,
      JSNumber.ofNat_eq, mathMin_times_finite]
    norm_num
  rw [hrun] at heq
  match delays, heq, hsorted with
  | [a, b], heq, hsorted =>
    simp only [List.map_cons, List.map_nil, List.cons.injEq, JSNumber.finite.injEq,
      and_true] at heq
    obtain ⟨ha, hb⟩ := heq
    subst ha hb
    norm_num at hsorted
  | [], heq, _ => simp at heq
  | [_], heq, _ => simp at heq
  | _ :: _ :: _ :: _, heq, _ => simp at heq

/-- C8, amended: when `decay` is a finite number with `decay ≥ 1`, the delay is a finite
number, the delay and `interval.max` are not negative and `reconnect()` is accepted, the
delays computed by successive accepted calls of `reconnect()` (each followed by the
`connect()` that ends it, no `001` in between) are finite numbers, non-decreasing and at
most `interval.max`, and once one equals `interval.max` all later ones do; with
`min = 1000`, `max = 30000`, `decay = 2` and initial delay `1000` they are
`2000, 4000, 8000, 16000, 30000, 30000`. -/
theorem reconnect_delays_nondecreasing :
    IRCWrapper.reconnectDelays 6 (IRCWrapper.withConfig 1000 30000 2 .infinity) =
      [2000, 4000, 8000, 16000, 30000, 30000] ∧
    ∀ (self : IRCWrapper) (rounds : Nat) (decay delay : ℚ),
      self.config.decay = .finite decay → self.config.delay = .finite delay →
      1 ≤ decay → 0 ≤ delay →
      0 ≤ self.config.intervalMax → self.config.maxAttempts.positive = true →
      attemptsReached self.config.attempts self.config.maxAttempts = false →
      self.reconnecting = false →
      ∃ delays : List ℚ,
        IRCWrapper.reconnectDelays rounds self = delays.map JSNumber.finite ∧
        delays.length = rounds ∧
        delays.Sorted (· ≤ ·) ∧
        (∀ d ∈ delays, d ≤ self.config.intervalMax) ∧
        ∀ i j : Fin delays.length, i ≤ j →
          delays.get i = self.config.intervalMax →
          delays.get j = self.config.intervalMax := by
  constructor
  · simp [IRCWrapper.reconnectDelays, IRCWrapper.reconnect, IRCWrapper.connect,
      IRCWrapper.withConfig, IRCWrapper.init, Limit.positive, attemptsReached,
      JSNumber.ofNat_eq, mathMin_times_finite]
    norm_num
  · intro self rounds decay delay hk hd hdecay h0 hmax hpos hreach hrec
    obtain ⟨delays, heq, hlen, hall, hsorted⟩ :=
      IRCWrapper.reconnectDelays_sorted rounds self decay delay hk hd hdecay h0 hmax hpos
        hreach hrec
    refine ⟨delays, heq, hlen, hsorted, hall, ?_⟩
    intro i j hij hi
    have h1 := hsorted.rel_get_of_le hij
    have h2 := hall _ (List.get_mem _ j.1 j.2)
    rw [hi] at h1
    exact le_antisymm h2 h1

/-- Witness for C8: the default configuration (`decay = 1.5`) for three rounds gives
`1500, 2250, 3375`. -/
theorem reconnect_delays_nondecreasing_witness :
    IRCWrapper.init.config.decay = .finite (3 / 2) ∧
    IRCWrapper.init.config.delay = .finite 1000 ∧
    IRCWrapper.reconnectDelays 3 IRCWrapper.init =
      [.finite 1500, .finite 2250, .finite 3375] ∧
    ∃ delays : List ℚ,
      IRCWrapper.reconnectDelays 3 IRCWrapper.init = delays.map JSNumber.finite ∧
      delays.length = 3 ∧ delays.Sorted (· ≤ ·) :=
  have h := reconnect_delays_nondecreasing.2 IRCWrapper.init 3 (3 / 2) 1000 rfl rfl
    (by norm_num) (by norm_num) (by norm_num [IRCWrapper.init]) rfl rfl rfl
  ⟨rfl, rfl,
    by
      simp [IRCWrapper.reconnectDelays, IRCWrapper.reconnect, IRCWrapper.connect,
        IRCWrapper.init, Limit.positive, attemptsReached, JSNumber.ofNat_eq,
        mathMin_times_finite]
      norm_num,
    h.choose, h.choose_spec.1, h.choose_spec.2.1, h.choose_spec.2.2.1⟩

namespace IRCWrapper

/-- No operation makes `_config.attempts` positive or changes `maxAttempts`, and
`'maxreconnect'` is not emitted while `_config.attempts` is absent or zero. -/
theorem step_attempts (self : IRCWrapper) (op : Op)
    (hatt : self.config.attempts = none ∨ self.config.attempts = some 0)
    (hlog : Emitted.maxreconnect ∉ self.emitted) :
    ((step self op).config.attempts = none ∨ (step self op).config.attempts = some 0) ∧
    Emitted.maxreconnect ∉ (step self op).emitted := by
  have hnot : ¬ (self.config.maxAttempts.positive = true ∧
      attemptsReached self.config.attempts self.config.maxAttempts = true) := by
    rintro ⟨hp, hr⟩
    rcases hatt with h | h
    · simp [attemptsReached, h] at hr
    · cases hm : self.config.maxAttempts with
      | infinity => simp [attemptsReached, h, hm] at hr
      | finite n =>
        simp [attemptsReached, h, hm] at hr
        simp [Limit.positive, hm, hr] at hp
  cases op with
  | message now message =>
    cases message with
    | none => exact ⟨hatt, hlog⟩
    | some message =>
      simp only [step, handleMessage]
      split_ifs
      on_goal 9 => unfold emitRaw; cases self.observer message
      all_goals simp [emit, ping, send, hatt, hlog]
  | reconnect =>
    simp only [step, reconnect]
    split_ifs with h1 h2 h3
    · exact absurd ⟨h1, h2⟩ hnot
    · exact ⟨hatt, hlog⟩
    · exact ⟨hatt, hlog⟩
    · exact ⟨hatt, hlog⟩
  | connect => exact ⟨hatt, hlog⟩
  | promise callback => exact ⟨hatt, hlog⟩
  | deadline index => exact ⟨hatt, hlog⟩
  | microtasks => exact ⟨hatt, hlog⟩
  | socketConnect token login => exact ⟨hatt, hlog⟩
  | pingTimer =>
    simp only [step, onPingTimer]
    cases self.pingTimeout <;> exact ⟨hatt, hlog⟩
  | pingWritten now =>
    simp only [step]
    split_ifs <;> exact ⟨hatt, hlog⟩
  | staleTimer =>
    simp only [step, onStaleTimer]
    cases self.staleTimeout <;> exact ⟨hatt, hlog⟩
  | close =>
    simp only [step, onClose, reconnect]
    split_ifs with h0 h1 h2 h3
    · exact absurd ⟨h1, h2⟩ hnot
    · exact ⟨hatt, hlog⟩
    · simp [emit, hatt, hlog]
    · simp [emit, hatt, hlog]
    · simp [emit, hatt, hlog]
  | destroy => exact ⟨hatt, hlog⟩
  | reconnectTimer =>
    simp only [step, onReconnectTimer]
    cases self.reconnectTimers <;> exact ⟨hatt, hlog⟩
  | sendCommand connected command channel delay tags =>
    simp only [step, sendCommand]
    cases tags.getD [] <;> exact ⟨hatt, hlog⟩

theorem run_attempts (ops : List Op) :
    ∀ self : IRCWrapper,
      (self.config.attempts = none ∨ self.config.attempts = some 0) →
      Emitted.maxreconnect ∉ self.emitted →
      ((run ops self).config.attempts = none ∨ (run ops self).config.attempts = some 0) ∧
      Emitted.maxreconnect ∉ (run ops self).emitted := by
  induction ops with
  | nil => intro self hatt hlog; exact ⟨hatt, hlog⟩
  | cons op rest ih =>
    intro self hatt hlog
    obtain ⟨h1, h2⟩ := step_attempts self op hatt hlog
    simpa [run] using ih _ h1 h2

end IRCWrapper

/-- C9, the code at the failing input: with `maxAttempts = 1`, after one accepted
`reconnect()` and the `connect()` that ends it, the next `reconnect()` is accepted again
(delay `2250`, second attempt counted) and `'maxreconnect'` is not emitted; a second
call while the first is in flight is refused without the signal; and from no
configuration does any sequence of operations emit `'maxreconnect'`, because
`_config.attempts`, the value compared with `maxAttempts`, never exceeds zero. -/
theorem reconnect_ignores_maxAttempts :
    (IRCWrapper.withConfig 1000 30000 (3 / 2) (.finite 1)).reconnect.1.connect.reconnect.2 =
      .scheduled 2250 ∧
    (IRCWrapper.withConfig 1000 30000 (3 / 2) (.finite 1)).reconnect.1.connect.reconnect.1.reconnectAttempts
      = 2 ∧
    (IRCWrapper.withConfig 1000 30000 (3 / 2) (.finite 1)).reconnect.1.connect.reconnect.1.emitted
      = [] ∧
    (IRCWrapper.withConfig 1000 30000 (3 / 2) (.finite 1)).reconnect.1.reconnect.2 = .refused ∧
    (IRCWrapper.withConfig 1000 30000 (3 / 2) (.finite 1)).reconnect.1.reconnect.1.emitted = [] ∧
    ∀ (intervalMin intervalMax decay : ℚ) (maxAttempts : Limit) (ops : List IRCWrapper.Op),
      Emitted.maxreconnect ∉
        (IRCWrapper.run ops
          (IRCWrapper.withConfig intervalMin intervalMax decay maxAttempts)).emitted := by
  refine ⟨?_, ?_, ?_, ?_, ?_, ?_⟩
  · simp [IRCWrapper.reconnect, IRCWrapper.connect, IRCWrapper.withConfig, IRCWrapper.init,
      Limit.positive, attemptsReached, JSNumber.ofNat_eq, mathMin_times_finite]
    norm_num
  · simp [IRCWrapper.reconnect, IRCWrapper.connect, IRCWrapper.withConfig, IRCWrapper.init,
      Limit.positive, attemptsReached]
  · simp [IRCWrapper.reconnect, IRCWrapper.connect, IRCWrapper.withConfig, IRCWrapper.init,
      Limit.positive, attemptsReached]
  · simp [IRCWrapper.reconnect, IRCWrapper.withConfig, IRCWrapper.init,
      Limit.positive, attemptsReached]
  · simp [IRCWrapper.reconnect, IRCWrapper.withConfig, IRCWrapper.init,
      Limit.positive, attemptsReached]
  · intro intervalMin intervalMax decay maxAttempts ops
    exact (IRCWrapper.run_attempts ops _ (Or.inl rfl) (by simp [IRCWrapper.withConfig,
      IRCWrapper.init])).2

/-- C10, the code at the failing input: handling `001` sets `_config.attempts` to `0`
and the delay to `interval.min`, but leaves `_reconnectAttempts`, the counter that
`reconnect()` increments, as it was; after one `reconnect()` and a `001` it is still `1`. -/
theorem welcome_keeps_reconnectAttempts :
    (∀ (now : Int) (tags : Option (List (String × String))) (parameters : Option String)
        (self : IRCWrapper),
      (self.handleMessage now (some ⟨tags, "001", parameters⟩)).state.reconnectAttempts =
        self.reconnectAttempts ∧
      (self.handleMessage now (some ⟨tags, "001", parameters⟩)).state.config.attempts = some 0 ∧
      (self.handleMessage now (some ⟨tags, "001", parameters⟩)).state.config.delay =
        self.config.intervalMin) ∧
    (IRCWrapper.run [.reconnect, .message 0 (some ⟨none, "001", none⟩)]
      IRCWrapper.init).reconnectAttempts = 1 := by
  constructor
  · intro now tags parameters self
    simp [IRCWrapper.handleMessage, IRCWrapper.emit, IRCWrapper.ping]
  · simp [IRCWrapper.run, IRCWrapper.step, IRCWrapper.handleMessage, IRCWrapper.emit,
      IRCWrapper.ping, IRCWrapper.reconnect, IRCWrapper.init, Limit.positive, attemptsReached]

/-! ## Single reconnect in flight, and what the reconnect timer runs -/

/-- C11: on either connection, when a reconnect is in flight (`_reconnecting` is true) a
call of `reconnect()` returns `false`, arms no timer, and leaves `_config` (the delay and
`attempts`), `_reconnectAttempts`, `_reconnectTimeout` and `_reconnecting` as they were. -/
theorem reconnect_refused_while_in_flight :
    (∀ self : IRCWrapper, self.reconnecting = true →
      self.reconnect.2 = .refused ∧
      self.reconnect.1.reconnectTimers = self.reconnectTimers ∧
      self.reconnect.1.config = self.config ∧
      self.reconnect.1.reconnectAttempts = self.reconnectAttempts ∧
      self.reconnect.1.reconnectTimeout = self.reconnectTimeout ∧
      self.reconnect.1.reconnecting = true) ∧
    (∀ self : WebSocketWrapper, self.reconnecting = true →
      self.reconnect.2 = .refused ∧
      self.reconnect.1.reconnectTimers = self.reconnectTimers ∧
      self.reconnect.1.config = self.config ∧
      self.reconnect.1.reconnectAttempts = self.reconnectAttempts ∧
      self.reconnect.1.reconnectTimeout = self.reconnectTimeout ∧
      self.reconnect.1.reconnecting = true) := by
  constructor
  · intro self h
    unfold IRCWrapper.reconnect
    split_ifs <;> simp_all [IRCWrapper.emit]
  · intro self h
    unfold WebSocketWrapper.reconnect
    split_ifs <;> simp_all

/-- Witness for C11: under the default configuration the first `reconnect()` is accepted
and a second call made at once is refused, with the delay still `1500` and one attempt
counted. -/
theorem reconnect_refused_while_in_flight_witness :
    IRCWrapper.init.reconnect.1.reconnecting = true ∧
    IRCWrapper.init.reconnect.1.reconnect.2 = .refused ∧
    IRCWrapper.init.reconnect.1.reconnect.1.reconnectTimers =
      IRCWrapper.init.reconnect.1.reconnectTimers ∧
    IRCWrapper.init.reconnect.1.reconnect.1.config = IRCWrapper.init.reconnect.1.config :=
  have hflight : IRCWrapper.init.reconnect.1.reconnecting = true := rfl
  have h := reconnect_refused_while_in_flight.1 IRCWrapper.init.reconnect.1 hflight
  ⟨hflight, h.1, h.2.1, h.2.2.1⟩

/-- C12, the code at the failing input: under the default configuration `reconnect()` is
accepted with delay `1500` on both connections; when its timer comes due the callback
throws `TypeError: this._connect is not a function`, `connect()` is not called and
`_reconnecting` stays true. In every state the callback either has no timer to run or
throws this error, and it never touches the socket or `_reconnecting`. -/
theorem reconnect_timer_throws :
    IRCWrapper.init.reconnect.2 = .scheduled 1500 ∧
    IRCWrapper.init.reconnect.1.onReconnectTimer.thrown =
      some (.notAFunction "this._connect") ∧
    IRCWrapper.init.reconnect.1.onReconnectTimer.state.socket.connectCalled = false ∧
    IRCWrapper.init.reconnect.1.onReconnectTimer.state.reconnecting = true ∧
    WebSocketWrapper.init.reconnect.2 = .scheduled 1500 ∧
    WebSocketWrapper.init.reconnect.1.onReconnectTimer.2 =
      some (.notAFunction "this._connect") ∧
    WebSocketWrapper.init.reconnect.1.onReconnectTimer.1.connects = 0 ∧
    WebSocketWrapper.init.reconnect.1.onReconnectTimer.1.reconnecting = true ∧
    (∀ self : IRCWrapper,
      (self.reconnectTimers = [] ∨
        self.onReconnectTimer.thrown = some (.notAFunction "this._connect")) ∧
      self.onReconnectTimer.state.socket = self.socket ∧
      self.onReconnectTimer.state.reconnecting = self.reconnecting) ∧
    (∀ self : WebSocketWrapper,
      (self.reconnectTimers = [] ∨
        self.onReconnectTimer.2 = some (.notAFunction "this._connect")) ∧
      self.onReconnectTimer.1.connects = self.connects ∧
      self.onReconnectTimer.1.reconnecting = self.reconnecting) := by
  refine ⟨?_, rfl, rfl, rfl, ?_, rfl, rfl, rfl, ?_, ?_⟩
  · simp [IRCWrapper.reconnect, IRCWrapper.init, Limit.positive, attemptsReached,
      JSNumber.ofNat_eq, mathMin_times_finite]
    norm_num
  · simp [WebSocketWrapper.reconnect, WebSocketWrapper.init, Limit.positive, attemptsReached,
      JSNumber.ofNat_eq, mathMin_times_finite]
    norm_num
  · intro self
    unfold IRCWrapper.onReconnectTimer
    cases self.reconnectTimers <;> simp
  · intro self
    unfold WebSocketWrapper.onReconnectTimer
    cases self.reconnectTimers <;> simp

/-! ## Handshake and keepalive -/

/-- C13: for every token and login name the `'connect'` handler writes exactly three
strings, in this order and without waiting for anything: the capability request for
`commands`, `tags` and `membership`, `PASS oauth:<token>` and `NICK <login>`, each
ending in CRLF; it changes nothing else. -/
theorem connect_writes_handshake (token login : String) (self : IRCWrapper) :
    (self.onConnect token login).socket.written =
      self.socket.written ++
        ["CAP REQ :twitch.tv/commands twitch.tv/tags twitch.tv/membership\r\n",
          "PASS oauth:" ++ token ++ "\r\n",
          "NICK " ++ login ++ "\r\n"] ∧
    (IRCWrapper.init.onConnect token login).socket.written =
      ["CAP REQ :twitch.tv/commands twitch.tv/tags twitch.tv/membership\r\n",
        "PASS oauth:" ++ token ++ "\r\n",
        "NICK " ++ login ++ "\r\n"] ∧
    self.onConnect token login =
      { self with socket := { self.socket with written := (self.onConnect token login).socket.written } } := by
  have hcap : "CAP REQ :twitch.tv/" ++ " twitch.tv/".intercalate IRCWrapper.CAPS ++ "\r\n" =
      "CAP REQ :twitch.tv/commands twitch.tv/tags twitch.tv/membership\r\n" := by decide
  refine ⟨?_, ?_, ?_⟩
  · simp [IRCWrapper.onConnect, IRCWrapper.write, hcap]
  · simp [IRCWrapper.onConnect, IRCWrapper.write, hcap, IRCWrapper.init]
  · rfl

namespace IRCWrapper

/-- The `'close'` handler calls `reconnect()` exactly when its test holds. -/
theorem onClose_reconnectCall (self : IRCWrapper) :
    self.onClose.reconnectCall =
      if closeReconnects self.socket.errored then
        some ({ self with pingTimeout := none, staleTimeout := none } : IRCWrapper).reconnect.2
      else none := by
  unfold onClose
  simp only
  split_ifs with h
  · split <;> simp_all
  · rfl

/-- The `'close'` handler clears both keepalive timers. -/
theorem onClose_timers (self : IRCWrapper) :
    self.onClose.state.pingTimeout = none ∧ self.onClose.state.staleTimeout = none := by
  unfold onClose
  simp only
  split_ifs with h
  · generalize hr : ({ self with pingTimeout := none, staleTimeout := none } : IRCWrapper).reconnect
      = r
    have h1 : r.1.pingTimeout = none ∧ r.1.staleTimeout = none := by
      rw [← hr]
      unfold reconnect
      split_ifs <;> simp [emit]
    rcases r with ⟨next, _ | delay⟩
    · simpa [emit] using h1
    · simpa using h1
  · simp [emit]

end IRCWrapper

/-- C14: when the keepalive timer comes due `PING` is written, and the callback of that
write arms the stale timer with `interval.min`, which is `1000` by default. When the
stale timer of an open socket comes due the socket is destroyed with the text
`Ping timeout.`, which is not the local-disconnect error, and the `'close'` handler then
calls `reconnect()`. A `PONG` handled first clears the stale timer, which then does
nothing. -/
theorem keepalive_stale_timer (now : Int) (self : IRCWrapper) :
    (∀ d, self.pingTimeout = some d →
      self.onPingTimer.socket.written = self.socket.written ++ ["PING\r\n"]) ∧
    (self.onPingWritten now).staleTimeout = some self.config.intervalMin ∧
    (self.onPingTimer.onPingWritten now).staleTimeout = some self.config.intervalMin ∧
    IRCWrapper.init.config.intervalMin = 1000 ∧
    (∀ d, self.staleTimeout = some d → self.socket.destroyed = none →
      self.socket.errored = none →
      self.onStaleTimer.socket.destroyed = some (some (.text "Ping timeout.")) ∧
      self.onStaleTimer.socket.errored = some (.text "Ping timeout.") ∧
      self.onStaleTimer.socket.errored ≠ self.destroy.socket.errored ∧
      self.onStaleTimer.onClose.reconnectCall =
        some ({ self.onStaleTimer with pingTimeout := none, staleTimeout := none } :
          IRCWrapper).reconnect.2) ∧
    (∀ (tags : Option (List (String × String))) (parameters : Option String),
      (self.handleMessage now (some ⟨tags, "PONG", parameters⟩)).state.onStaleTimer =
        (self.handleMessage now (some ⟨tags, "PONG", parameters⟩)).state) := by
  refine ⟨?_, rfl, ?_, rfl, ?_, ?_⟩
  · intro d hd
    simp [IRCWrapper.onPingTimer, hd, IRCWrapper.send]
  · unfold IRCWrapper.onPingTimer
    cases self.pingTimeout <;> rfl
  · intro d hd hdes herr
    have hsock : self.onStaleTimer.socket =
        { self.socket with
          destroyed := some (some (.text "Ping timeout."))
          errored := some (.text "Ping timeout.") } := by
      simp [IRCWrapper.onStaleTimer, hd, Socket.destroy, hdes, herr, Option.filter,
        Errored.truthy]
    refine ⟨by rw [hsock], by rw [hsock], ?_, ?_⟩
    · rw [hsock]
      simp [IRCWrapper.destroy, Socket.destroy, hdes, herr, Option.filter, Errored.truthy]
    · have herr2 : self.onStaleTimer.socket.errored = some (.text "Ping timeout.") := by
        rw [hsock]
      rw [IRCWrapper.onClose_reconnectCall, herr2]
      simp [IRCWrapper.closeReconnects, Errored.truthy, Errored.message]
  · intro tags parameters
    simp [IRCWrapper.handleMessage, IRCWrapper.ping, IRCWrapper.onStaleTimer]

/-- Witness for C14: after `001`, the keepalive timer, the write of `PING` at time `5`
and no `PONG`, the stale timer closes the socket and the `'close'` handler calls
`reconnect()`, which is accepted. -/
theorem keepalive_stale_timer_witness :
    ((IRCWrapper.init.ping 60000).onPingTimer.onPingWritten 5).staleTimeout = some 1000 ∧
    ((IRCWrapper.init.ping 60000).onPingTimer.onPingWritten 5).onStaleTimer.socket.errored =
      some (.text "Ping timeout.") ∧
    ((IRCWrapper.init.ping 60000).onPingTimer.onPingWritten 5).onStaleTimer.onClose.reconnectCall =
      some ({ ((IRCWrapper.init.ping 60000).onPingTimer.onPingWritten 5).onStaleTimer with
        pingTimeout := none, staleTimeout := none } : IRCWrapper).reconnect.2 :=
  have h := (keepalive_stale_timer 5 ((IRCWrapper.init.ping 60000).onPingTimer.onPingWritten 5)).2.2.2.2.1
    1000 rfl rfl rfl
  ⟨rfl, h.2.1, h.2.2.2⟩

/-- C15: a `PONG` handled at time `t` after the keepalive `PING` was written at time `p`
clears the stale timer, sets `latency` to `(t - p) / 1000` and leaves `#pingTimeout`,
the one keepalive timer that `ping` keeps, pending with delay `60000`; handling `001`
also leaves it pending with delay `60000`. -/
theorem pong_records_latency (t p : Int) (tags : Option (List (String × String)))
    (parameters : Option String) (self : IRCWrapper) :
    ((self.onPingWritten p).handleMessage t (some ⟨tags, "PONG", parameters⟩)).state.staleTimeout
      = none ∧
    ((self.onPingWritten p).handleMessage t (some ⟨tags, "PONG", parameters⟩)).state.latency
      = some (((t - p : Int) : ℚ) / 1000) ∧
    ((self.onPingWritten p).handleMessage t (some ⟨tags, "PONG", parameters⟩)).state.pingTimeout
      = some 60000 ∧
    ((self.onPingWritten p).handleMessage t (some ⟨tags, "PONG", parameters⟩)).thrown = none ∧
    (self.handleMessage t (some ⟨tags, "001", parameters⟩)).state.pingTimeout = some 60000 ∧
    (self.handleMessage t (some ⟨tags, "001", parameters⟩)).thrown = none := by
  simp [IRCWrapper.handleMessage, IRCWrapper.ping, IRCWrapper.onPingWritten, IRCWrapper.emit]

/-! ## Notices, `RECONNECT` and local disconnect -/

/-- C16 as stated fails: an authentication-failure `NOTICE` without tags is ignored, the
socket is not destroyed. -/
theorem auth_notice_without_tags_ignored :
    ¬ ∀ (now : Int) (tags : Option (List (String × String))) (self : IRCWrapper),
        self.socket.destroyed = none →
        (self.handleMessage now
          (some ⟨tags, "NOTICE", some "Login authentication failed"⟩)).state.socket.destroyed
          ≠ none := by
  intro h
  exact h 0 none IRCWrapper.init rfl rfl

/-- C16, amended: an authentication-failure `NOTICE` that carries tags, handled on an
open socket without error, destroys the socket without an error and throws nothing;
the `'close'` handler then clears both keepalive timers, does not call `reconnect()`
and emits `'disconnect'`. The same `NOTICE` without tags changes nothing. -/
theorem auth_notice_closes_without_reconnect (now : Int) (tags : List (String × String))
    (self : IRCWrapper) (hopen : self.socket.destroyed = none)
    (herr : self.socket.errored = none) :
    (self.handleMessage now
      (some ⟨some tags, "NOTICE", some "Login authentication failed"⟩)).thrown = none ∧
    (self.handleMessage now
      (some ⟨some tags, "NOTICE", some "Login authentication failed"⟩)).state.socket.destroyed
      = some none ∧
    (self.handleMessage now
      (some ⟨some tags, "NOTICE", some "Login authentication failed"⟩)).state.onClose.reconnectCall
      = none ∧
    (self.handleMessage now
      (some ⟨some tags, "NOTICE", some "Login authentication failed"⟩)).state.onClose.state.emitted
      = self.emitted ++ [.disconnect] ∧
    (self.handleMessage now
      (some ⟨some tags, "NOTICE", some "Login authentication failed"⟩)).state.onClose.state.pingTimeout
      = none ∧
    (self.handleMessage now
      (some ⟨some tags, "NOTICE", some "Login authentication failed"⟩)).state.onClose.state.staleTimeout
      = none ∧
    (self.handleMessage now
      (some ⟨none, "NOTICE", some "Login authentication failed"⟩)).state = self := by
  have hstate : (self.handleMessage now
      (some ⟨some tags, "NOTICE", some "Login authentication failed"⟩)) =
      { state := { self with socket := { self.socket with destroyed := some none } },
        thrown := none } := by
    simp [IRCWrapper.handleMessage, Socket.destroy, hopen, herr, Option.filter]
  rw [hstate]
  refine ⟨rfl, rfl, ?_, ?_, ?_, ?_, ?_⟩
  · rw [IRCWrapper.onClose_reconnectCall]
    simp [IRCWrapper.closeReconnects, herr]
  · simp [IRCWrapper.onClose, IRCWrapper.closeReconnects, herr, IRCWrapper.emit]
  · exact (IRCWrapper.onClose_timers _).1
  · exact (IRCWrapper.onClose_timers _).2
  · simp [IRCWrapper.handleMessage]

/-- Witness for C16: the notice with an empty tag map on a fresh connection. -/
theorem auth_notice_closes_without_reconnect_witness :
    IRCWrapper.init.socket.destroyed = none ∧
    (IRCWrapper.init.handleMessage 0
      (some ⟨some [], "NOTICE", some "Login authentication failed"⟩)).state.onClose.reconnectCall
      = none ∧
    (IRCWrapper.init.handleMessage 0
      (some ⟨some [], "NOTICE", some "Login authentication failed"⟩)).state.onClose.state.emitted
      = IRCWrapper.init.emitted ++ [.disconnect] :=
  have h := auth_notice_closes_without_reconnect 0 [] IRCWrapper.init rfl rfl
  ⟨rfl, h.2.2.1, h.2.2.2.1⟩

/-- C17, the code at the failing input: a permission-denied `NOTICE` that carries tags
throws `ReferenceError: msg is not defined` and leaves the whole state, the socket
included, as it was, so the transport is not closed; without tags it is ignored. -/
theorem permission_notice_throws :
    (∀ (now : Int) (tags : List (String × String)) (self : IRCWrapper),
      (self.handleMessage now
        (some ⟨some tags, "NOTICE", some "You don't have permission to perform that action"⟩)).thrown
        = some (.referenceError "msg") ∧
      (self.handleMessage now
        (some ⟨some tags, "NOTICE", some "You don't have permission to perform that action"⟩)).state
        = self) ∧
    (∀ (now : Int) (self : IRCWrapper),
      (self.handleMessage now
        (some ⟨none, "NOTICE", some "You don't have permission to perform that action"⟩)).thrown
        = none ∧
      (self.handleMessage now
        (some ⟨none, "NOTICE", some "You don't have permission to perform that action"⟩)).state
        = self) ∧
    (IRCWrapper.init.handleMessage 0
      (some ⟨some [], "NOTICE", some "You don't have permission to perform that action"⟩)).state.socket.destroyed
      = none := by
  refine ⟨?_, ?_, rfl⟩
  · intro now tags self
    simp [IRCWrapper.handleMessage]
  · intro now self
    simp [IRCWrapper.handleMessage]

/-- C18, the code at the failing input: handling `RECONNECT` throws
`TypeError: this.disconnect is not a function` and leaves the whole state as it was: the
socket is not destroyed and `reconnect()` is not reached. The `reconnect()` named next in
the case is the ordinary one, which advances the delay (from `1000` to `1500` under the
default configuration). -/
theorem reconnect_request_throws :
    (∀ (now : Int) (tags : Option (List (String × String))) (parameters : Option String)
        (self : IRCWrapper),
      (self.handleMessage now (some ⟨tags, "RECONNECT", parameters⟩)).thrown =
        some (.notAFunction "this.disconnect") ∧
      (self.handleMessage now (some ⟨tags, "RECONNECT", parameters⟩)).state = self) ∧
    (IRCWrapper.init.handleMessage 0 (some ⟨none, "RECONNECT", none⟩)).state.socket.destroyed
      = none ∧
    (IRCWrapper.init.handleMessage 0 (some ⟨none, "RECONNECT", none⟩)).state.reconnectTimers
      = [] ∧
    IRCWrapper.init.config.delay = 1000 ∧
    IRCWrapper.init.reconnect.1.config.delay = 1500 := by
  refine ⟨?_, rfl, rfl, rfl, ?_⟩
  · intro now tags parameters self
    simp [IRCWrapper.handleMessage]
  · simp [IRCWrapper.reconnect, IRCWrapper.init, Limit.positive, attemptsReached,
      JSNumber.ofNat_eq, mathMin_times_finite]
    norm_num

namespace IRCWrapper

/-- Neither `destroy()` nor the `'close'` handler touches the entries of `promise()`. -/
theorem onClose_pending (self : IRCWrapper) :
    self.destroy.pending = self.pending ∧ self.onClose.state.pending = self.pending := by
  refine ⟨rfl, ?_⟩
  unfold onClose
  simp only
  split_ifs with h
  · generalize hr : ({ self with pingTimeout := none, staleTimeout := none } : IRCWrapper).reconnect
      = r
    have h1 : r.1.pending = self.pending := by
      rw [← hr]
      unfold reconnect
      split_ifs <;> simp [emit]
    rcases r with ⟨next, _ | delay⟩
    · simpa [emit] using h1
    · simpa using h1
  · simp [emit]

end IRCWrapper

/-- C19: `destroy()` on an open socket destroys it with the error `CLIENT_DISCONNECT`;
for every close whose error is `CLIENT_DISCONNECT` the `'close'` handler clears the ping
and stale timers, does not call `reconnect()` and emits `'disconnect'`; for a close
whose error has any other message the handler calls `reconnect()`. -/
theorem local_disconnect_suppresses_reconnect :
    (∀ self : IRCWrapper, self.socket.destroyed = none → self.socket.errored = none →
      self.destroy.socket.destroyed = some (some (.error "CLIENT_DISCONNECT")) ∧
      self.destroy.socket.errored = some (.error "CLIENT_DISCONNECT")) ∧
    (∀ self : IRCWrapper, self.socket.errored = some (.error "CLIENT_DISCONNECT") →
      self.onClose.state.pingTimeout = none ∧
      self.onClose.state.staleTimeout = none ∧
      self.onClose.reconnectCall = none ∧
      self.onClose.state.emitted = self.emitted ++ [.disconnect]) ∧
    (∀ (self : IRCWrapper) (message : String), message ≠ "CLIENT_DISCONNECT" →
      self.socket.errored = some (.error message) →
      self.onClose.reconnectCall =
        some ({ self with pingTimeout := none, staleTimeout := none } : IRCWrapper).reconnect.2) := by
  refine ⟨?_, ?_, ?_⟩
  · intro self hopen herr
    simp [IRCWrapper.destroy, Socket.destroy, hopen, herr, Option.filter, Errored.truthy]
  · intro self herr
    refine ⟨(IRCWrapper.onClose_timers self).1, (IRCWrapper.onClose_timers self).2, ?_, ?_⟩
    · rw [IRCWrapper.onClose_reconnectCall, herr]
      simp [IRCWrapper.closeReconnects, Errored.message]
    · simp [IRCWrapper.onClose, herr, IRCWrapper.closeReconnects, Errored.message,
        IRCWrapper.emit]
  · intro self message hne herr
    rw [IRCWrapper.onClose_reconnectCall, herr]
    simp [IRCWrapper.closeReconnects, Errored.message, Errored.truthy, hne]

/-- Witness for C19: a fresh connection with both keepalive timers pending is destroyed
and closed: no `reconnect()`, `'disconnect'` emitted; closed instead with the error
`read ECONNRESET`, the handler calls `reconnect()`. -/
theorem local_disconnect_suppresses_reconnect_witness :
    IRCWrapper.init.destroy.socket.errored = some (.error "CLIENT_DISCONNECT") ∧
    IRCWrapper.init.destroy.onClose.reconnectCall = none ∧
    IRCWrapper.init.destroy.onClose.state.emitted = [.disconnect] ∧
    ({ IRCWrapper.init with
        socket := { IRCWrapper.init.socket with errored := some (.error "read ECONNRESET") } } :
      IRCWrapper).onClose.reconnectCall =
      some ({ ({ IRCWrapper.init with
        socket := { IRCWrapper.init.socket with errored := some (.error "read ECONNRESET") } } :
          IRCWrapper) with pingTimeout := none, staleTimeout := none } : IRCWrapper).reconnect.2 :=
  have h1 := local_disconnect_suppresses_reconnect.1 IRCWrapper.init rfl rfl
  have h2 := local_disconnect_suppresses_reconnect.2.1 IRCWrapper.init.destroy h1.2
  ⟨h1.2, h2.2.2.1, h2.2.2.2,
    local_disconnect_suppresses_reconnect.2.2 _ "read ECONNRESET" (by decide) rfl⟩

/-- C20 as stated fails: an entry pending when the connection is destroyed and closed is
still unsettled afterwards. -/
theorem local_disconnect_leaves_entry_pending :
    ¬ ∀ (self : IRCWrapper) (i : Nat) (entry : Pending),
        self.pending[i]? = some entry → entry.settled = none →
        ∃ after outcome, self.destroy.onClose.state.pending[i]? = some after ∧
          after.settled = some outcome ∧ outcome ≠ .timedOut := by
  intro h
  obtain ⟨after, outcome, h1, h2, _⟩ := h (IRCWrapper.init.promise fun _ => true) 0
    (Pending.create (fun _ => true) (promiseDelay none)) rfl rfl
  rw [(IRCWrapper.onClose_pending _).2] at h1
  have h3 : (IRCWrapper.init.promise fun _ => true).destroy.pending[0]? =
      some (Pending.create (fun _ => true) (promiseDelay none)) := rfl
  rw [h3] at h1
  cases h1
  cases h2

/-- C20, amended: a local disconnect (`destroy()` and the `'close'` handler that follows)
leaves every entry of `promise()` exactly as it was, listener and deadline timer
included; an entry that was unsettled with its timer pending is rejected with the
timeout error when that timer comes due. -/
theorem local_disconnect_keeps_entries (self : IRCWrapper) :
    self.destroy.pending = self.pending ∧
    self.destroy.onClose.state.pending = self.pending ∧
    ∀ (i : Nat) (entry : Pending) (d : ℚ), self.pending[i]? = some entry →
      entry.settled = none → entry.timer = some d →
      ∃ after, (self.destroy.onClose.state.deadline i).pending[i]? = some after ∧
        after.settled = some .timedOut ∧ after.listening = false := by
  have hp : self.destroy.onClose.state.pending = self.pending := by
    rw [(IRCWrapper.onClose_pending _).2, (IRCWrapper.onClose_pending _).1]
  refine ⟨rfl, hp, ?_⟩
  intro i entry d hi hs ht
  refine ⟨entry.onTimeout, ?_, ?_, ?_⟩
  · simp [IRCWrapper.deadline, hp, List.getElem?_modify, hi]
  · simp [Pending.onTimeout, ht, Pending.settle, hs]
  · simp [Pending.onTimeout, ht, Pending.settle, hs]

/-- Witness for C20: one entry is pending on a fresh connection; after `destroy()` and
the close it is unsettled, and its deadline then rejects it with the timeout error. -/
theorem local_disconnect_keeps_entries_witness :
    (((IRCWrapper.init.promise fun _ => true).destroy.onClose.state.deadline 0).pending.map
      fun e => e.settled) = [some .timedOut] ∧
    ∃ after,
      ((IRCWrapper.init.promise fun _ => true).destroy.onClose.state.deadline 0).pending[0]? =
        some after ∧ after.settled = some .timedOut ∧ after.listening = false :=
  ⟨by decide,
    (local_disconnect_keeps_entries (IRCWrapper.init.promise fun _ => true)).2.2 0
      (Pending.create (fun _ => true) (promiseDelay none)) (promiseDelay none) rfl rfl rfl⟩

/-! ## Outbound commands -/

/-- C21, the code at the failing input: on a connection that is not open `sendCommand`
rejects its promise with `Not connected to server.` and arms no timer, but the executor
does not stop there: for a command without tags it still calls `send`, so the line is
passed to the socket; `hello` without options writes `hello` and CRLF. -/
theorem sendCommand_not_connected_still_writes :
    (∀ (command : String) (channel : Option String) (delay : Option ℚ) (self : IRCWrapper),
      (self.sendCommand false command channel delay none).rejected = some .notConnected ∧
      (self.sendCommand false command channel delay none).timer = none ∧
      (self.sendCommand false command channel delay none).state.socket.written =
        self.socket.written ++
          [(match channel with
            | some name => "PRIVMSG " ++ name ++ " :"
            | none => "") ++ command ++ "\r\n"]) ∧
    (IRCWrapper.init.sendCommand false "hello" none none none).state.socket.written =
      ["hello\r\n"] := by
  refine ⟨?_, by decide⟩
  intro command channel delay self
  simp [IRCWrapper.sendCommand, IRCWrapper.send, sendCommandTimer]

/-- C22, the code at the failing input: on an open connection a command with a tag map
that has an entry writes nothing: the executor throws `ReferenceError: _ is not defined`
while it forms the tag prefix, and the promise is rejected with it. Without tags, or
with an empty map, the line written is `PRIVMSG <channel> :` (when the channel is a
string), the command text and CRLF, with no tag prefix. -/
theorem sendCommand_tags_throw :
    (∀ (command : String) (channel : Option String) (delay : Option ℚ)
        (entry : String × String) (entries : List (String × String)) (self : IRCWrapper),
      (self.sendCommand true command channel delay (some (entry :: entries))).rejected =
        some (.thrown (.referenceError "_")) ∧
      (self.sendCommand true command channel delay (some (entry :: entries))).state = self) ∧
    (∀ (command : String) (delay : Option ℚ) (self : IRCWrapper),
      (self.sendCommand true command none delay none).state.socket.written =
        self.socket.written ++ [command ++ "\r\n"] ∧
      (self.sendCommand true command none delay (some [])).state.socket.written =
        self.socket.written ++ [command ++ "\r\n"] ∧
      (self.sendCommand true command none delay none).rejected = none) ∧
    (∀ (command name : String) (delay : Option ℚ) (self : IRCWrapper),
      (self.sendCommand true command (some name) delay none).state.socket.written =
        self.socket.written ++ ["PRIVMSG " ++ name ++ " :" ++ command ++ "\r\n"] ∧
      (self.sendCommand true command (some name) delay (some [])).state.socket.written =
        self.socket.written ++ ["PRIVMSG " ++ name ++ " :" ++ command ++ "\r\n"]) ∧
    (IRCWrapper.init.sendCommand true "hello" (some "#room") none
      (some [("reply-parent-msg-id", "abc")])).state.socket.written = [] := by
  refine ⟨?_, ?_, ?_, by decide⟩
  · intro command channel delay entry entries self
    simp [IRCWrapper.sendCommand]
  · intro command delay self
    simp [IRCWrapper.sendCommand, IRCWrapper.send]
  · intro command name delay self
    simp [IRCWrapper.sendCommand, IRCWrapper.send, String.append_assoc]

/-! ## Classification in the listener of `promise()` -/

/-- C26 as stated fails: a message with the deny-classified `msg-id` `msg_banned` and
the text `You are banned` rejects the entry with the text, not with the `msg-id`. -/
theorem deny_reason_is_not_msgid :
    ¬ ∀ (entry : Pending) (message : Message), entry.listening = true →
        entry.settled = none → entry.awaiting = [] → entry.callback message = false →
        rejects message.msgId = true →
        (entry.deliver message).settled = some (.rejected message.msgId) := by
  intro h
  have h1 := h (Pending.create (fun _ => false) 600)
    ⟨some [("msg-id", "msg_banned")], "NOTICE", some "You are banned"⟩ rfl rfl rfl rfl
    (by decide)
  revert h1
  decide

/-- C26, amended: when a pending entry is rejected through the deny classification, the
rejection reason delivered to the caller is the message's `parameters`. -/
theorem deny_reason_is_parameters (entry : Pending) (message : Message)
    (hl : entry.listening = true) (hs : entry.settled = none) (hq : entry.awaiting = [])
    (hc : entry.callback message = false) (hr : rejects message.msgId = true) :
    (entry.deliver message).settled = some (.rejected message.parameters) := by
  rw [Pending.deliver_eq message entry hl hq]
  simp [Pending.afterAwait, Pending.settle, Pending.release, hc, hr, hs]

/-- Witness for C26: the message of the counterexample rejects the entry with its text. -/
theorem deny_reason_is_parameters_witness :
    rejects (Message.msgId ⟨some [("msg-id", "msg_banned")], "NOTICE", some "You are banned"⟩)
      = true ∧
    ((Pending.create (fun _ => false) 600).deliver
        ⟨some [("msg-id", "msg_banned")], "NOTICE", some "You are banned"⟩).settled =
      some (.rejected (some "You are banned")) :=
  ⟨by decide,
    deny_reason_is_parameters (Pending.create (fun _ => false) 600)
      ⟨some [("msg-id", "msg_banned")], "NOTICE", some "You are banned"⟩ rfl rfl rfl rfl
      (by decide)⟩

/-- C28: `msg_duplicate`, `msg_channel_suspended` and `no_permission` satisfy both
`#rejects` and `#resolves`; and for every message whose `msg-id` satisfies both, a
pending entry whose predicate does not accept the message is rejected, not resolved. -/
theorem deny_precedes_allow :
    (rejects (some "msg_duplicate") = true ∧ resolves (some "msg_duplicate") = true) ∧
    (rejects (some "msg_channel_suspended") = true ∧
      resolves (some "msg_channel_suspended") = true) ∧
    (rejects (some "no_permission") = true ∧ resolves (some "no_permission") = true) ∧
    ∀ (entry : Pending) (message : Message), entry.listening = true →
      entry.settled = none → entry.awaiting = [] → entry.callback message = false →
      rejects message.msgId = true → resolves message.msgId = true →
      (entry.deliver message).settled = some (.rejected message.parameters) ∧
      (entry.deliver message).settled ≠ some (.resolved message) := by
  refine ⟨by decide, by decide, by decide, ?_⟩
  intro entry message hl hs hq hc hr _
  rw [Pending.deliver_eq message entry hl hq]
  simp [Pending.afterAwait, Pending.settle, Pending.release, hc, hr, hs]

/-- Witness for C28: a `no_permission` notice rejects an entry that waits for a `JOIN`. -/
theorem deny_precedes_allow_witness :
    resolves (Message.msgId ⟨some [("msg-id", "no_permission")], "NOTICE", some "denied"⟩)
      = true ∧
    ((Pending.create (fun m => m.command == "JOIN") 600).deliver
        ⟨some [("msg-id", "no_permission")], "NOTICE", some "denied"⟩).settled =
      some (.rejected (some "denied")) :=
  ⟨by decide,
    (deny_precedes_allow.2.2.2 (Pending.create (fun m => m.command == "JOIN") 600)
      ⟨some [("msg-id", "no_permission")], "NOTICE", some "denied"⟩ rfl rfl rfl
      (by decide) (by decide) (by decide)).1⟩

/-! ## Tag escaping -/

/-- C27, the code at the failing input: `escapeIRC` leaves a backslash as it is, so the
two characters backslash and `s` come back from `unescapeIRC(escapeIRC(..))` as a
space; a line feed and a carriage return are escaped to backslash `n` and backslash `r`,
which `unescapeIRC` turns into the empty string; a doubled backslash comes back single.
Space and semicolon do make the round trip. -/
theorem escapeIRC_round_trip_fails :
    escapeIRC "\\s" = "\\s" ∧ unescapeIRC (escapeIRC "\\s") = " " ∧
    escapeIRC "\n" = "\\n" ∧ unescapeIRC (escapeIRC "\n") = "" ∧
    escapeIRC "\r" = "\\r" ∧ unescapeIRC (escapeIRC "\r") = "" ∧
    escapeIRC "\\\\" = "\\\\" ∧ unescapeIRC (escapeIRC "\\\\") = "\\" ∧
    escapeIRC "a b;c" = "a\\sb\\:c" ∧ unescapeIRC (escapeIRC "a b;c") = "a b;c" := by
  refine ⟨?_, ?_, ?_, ?_, ?_, ?_, ?_, ?_, ?_, ?_⟩ <;> decide

/-! ## Server `PING` -/

namespace IRCWrapper

/-- While the keepalive timer is unarmed, an operation other than the handling of `001`
or `PONG` arms no keepalive timer and sends no keepalive `PING`; if no write of a
keepalive `PING` is under way, it does not arm the stale timer either. -/
theorem step_keeps_ping_cleared (self : IRCWrapper) (op : Op)
    (hop : ∀ now message, op = .message now (some message) →
      message.command ≠ "001" ∧ message.command ≠ "PONG")
    (hp : self.pingTimeout = none) :
    (step self op).pingTimeout = none ∧ (step self op).pingWrites ≤ self.pingWrites ∧
    (self.pingWrites = 0 →
      (step self op).staleTimeout = self.staleTimeout ∨ (step self op).staleTimeout = none) := by
  cases op with
  | message now message =>
    cases message with
    | none => exact ⟨hp, le_refl _, fun _ => Or.inl rfl⟩
    | some message =>
      obtain ⟨h1, h2⟩ := hop now message rfl
      simp only [step, handleMessage, h1, h2, if_false]
      split_ifs
      on_goal 7 => unfold emitRaw; cases self.observer message
      all_goals simp [send, hp]
  | reconnect =>
    simp only [step, reconnect]
    split_ifs <;> simp [emit, hp]
  | connect => exact ⟨hp, le_refl _, fun _ => Or.inl rfl⟩
  | promise callback => exact ⟨hp, le_refl _, fun _ => Or.inl rfl⟩
  | deadline index => exact ⟨hp, le_refl _, fun _ => Or.inl rfl⟩
  | microtasks => exact ⟨hp, le_refl _, fun _ => Or.inl rfl⟩
  | socketConnect token login => exact ⟨hp, le_refl _, fun _ => Or.inl rfl⟩
  | pingTimer =>
    have h : step self .pingTimer = self := by simp [step, onPingTimer, hp]
    rw [h]
    exact ⟨hp, le_refl _, fun _ => Or.inl rfl⟩
  | pingWritten now =>
    simp only [step]
    split_ifs with h
    · exact ⟨hp, Nat.sub_le _ _, fun h0 => absurd h0 (Nat.pos_iff_ne_zero.mp h)⟩
    · exact ⟨hp, le_refl _, fun _ => Or.inl rfl⟩
  | staleTimer =>
    simp only [step, onStaleTimer]
    cases hs : self.staleTimeout with
    | none => exact ⟨hp, le_refl _, fun _ => Or.inl hs⟩
    | some _ => exact ⟨hp, le_refl _, fun _ => Or.inr rfl⟩
  | close =>
    simp only [step, onClose, reconnect]
    split_ifs <;> simp [emit]
  | destroy => exact ⟨hp, le_refl _, fun _ => Or.inl rfl⟩
  | reconnectTimer =>
    simp only [step, onReconnectTimer]
    cases self.reconnectTimers <;> exact ⟨hp, le_refl _, fun _ => Or.inl rfl⟩
  | sendCommand connected command channel delay tags =>
    simp only [step, sendCommand]
    cases tags.getD [] <;> exact ⟨hp, le_refl _, fun _ => Or.inl rfl⟩

theorem run_keeps_ping_cleared (ops : List Op) :
    ∀ self : IRCWrapper,
      (∀ now message, Op.message now (some message) ∈ ops →
        message.command ≠ "001" ∧ message.command ≠ "PONG") →
      self.pingTimeout = none →
      (run ops self).pingTimeout = none ∧ (run ops self).pingWrites ≤ self.pingWrites ∧
      (self.pingWrites = 0 →
        (run ops self).staleTimeout = self.staleTimeout ∨ (run ops self).staleTimeout = none) := by
  induction ops with
  | nil => intro self _ hp; exact ⟨hp, le_refl _, fun _ => Or.inl rfl⟩
  | cons op rest ih =>
    intro self hops hp
    obtain ⟨h1, h2, h3⟩ := step_keeps_ping_cleared self op
      (fun now message h => hops now message (by rw [h]; exact List.mem_cons_self _ _)) hp
    obtain ⟨h4, h5, h6⟩ := ih (step self op)
      (fun now message h => hops now message (List.mem_cons_of_mem _ h)) h1
    refine ⟨by simpa [run] using h4, le_trans (by simpa [run] using h5) h2, ?_⟩
    intro h0
    have h7 : (step self op).pingWrites = 0 := Nat.le_zero.mp (h0 ▸ h2)
    have h8 : (run (op :: rest) self).staleTimeout = (run rest (step self op)).staleTimeout := by
      simp [run]
    rw [h8]
    rcases h6 h7 with h | h
    · rw [h]; exact h3 h0
    · exact Or.inr h

end IRCWrapper

/-- C29 as stated fails: a keepalive `PING` has been passed to the socket and its write
is not complete when a server `PING` is handled; the callback of that write then arms the
stale timer, with no `001` or `PONG` handled in between. -/
theorem server_ping_stale_timer_armed :
    ¬ ∀ (now : Int) (tags : Option (List (String × String))) (parameters : Option String)
        (self : IRCWrapper) (ops : List IRCWrapper.Op),
        (∀ t message, IRCWrapper.Op.message t (some message) ∈ ops →
          message.command ≠ "001" ∧ message.command ≠ "PONG") →
        (IRCWrapper.run ops
          (self.handleMessage now (some ⟨tags, "PING", parameters⟩)).state).staleTimeout =
            self.staleTimeout ∨
        (IRCWrapper.run ops
          (self.handleMessage now (some ⟨tags, "PING", parameters⟩)).state).staleTimeout =
            none := by
  intro h
  have h1 := h 1 none none (IRCWrapper.run [.pingTimer] (IRCWrapper.init.ping 60000))
    [.pingWritten 2] (by simp)
  have h2 : (IRCWrapper.run [.pingWritten 2]
      ((IRCWrapper.run [.pingTimer] (IRCWrapper.init.ping 60000)).handleMessage 1
        (some ⟨none, "PING", none⟩)).state).staleTimeout = some 1000 := by
    simp [IRCWrapper.run, IRCWrapper.step, IRCWrapper.handleMessage, IRCWrapper.send,
      IRCWrapper.onPingTimer, IRCWrapper.onPingWritten, IRCWrapper.ping, IRCWrapper.init]
  have h3 : (IRCWrapper.run [.pingTimer] (IRCWrapper.init.ping 60000)).staleTimeout = none := by
    simp [IRCWrapper.run, IRCWrapper.step, IRCWrapper.onPingTimer, IRCWrapper.send,
      IRCWrapper.ping, IRCWrapper.init]
  rw [h2, h3] at h1
  simp at h1

/-- C29, amended: handling a server `PING` throws nothing, writes exactly `PONG` and
CRLF, clears the keepalive timer and arms none, and changes nothing else; afterwards the
keepalive timer callback does nothing, and along every sequence of method calls, socket
events and timer and write callbacks without the handling of a `001` or a `PONG` the
keepalive timer stays unarmed and no keepalive `PING` is passed to the socket; the stale
timer is not armed anew either, unless the write of a keepalive `PING` passed to the
socket before the server `PING` was still to complete. -/
theorem server_ping_answered (now : Int) (tags : Option (List (String × String)))
    (parameters : Option String) (self : IRCWrapper) :
    (self.handleMessage now (some ⟨tags, "PING", parameters⟩)).thrown = none ∧
    (self.handleMessage now (some ⟨tags, "PING", parameters⟩)).state =
      { self with
        pingTimeout := none
        socket := { self.socket with written := self.socket.written ++ ["PONG\r\n"] } } ∧
    (self.handleMessage now (some ⟨tags, "PING", parameters⟩)).state.onPingTimer =
      (self.handleMessage now (some ⟨tags, "PING", parameters⟩)).state ∧
    ∀ ops : List IRCWrapper.Op,
      (∀ t message, IRCWrapper.Op.message t (some message) ∈ ops →
        message.command ≠ "001" ∧ message.command ≠ "PONG") →
      (IRCWrapper.run ops
        (self.handleMessage now (some ⟨tags, "PING", parameters⟩)).state).pingTimeout = none ∧
      (IRCWrapper.run ops
        (self.handleMessage now (some ⟨tags, "PING", parameters⟩)).state).pingWrites ≤
          self.pingWrites ∧
      (self.pingWrites = 0 →
        (IRCWrapper.run ops
          (self.handleMessage now (some ⟨tags, "PING", parameters⟩)).state).staleTimeout =
            self.staleTimeout ∨
        (IRCWrapper.run ops
          (self.handleMessage now (some ⟨tags, "PING", parameters⟩)).state).staleTimeout =
            none) := by
  have hstate : (self.handleMessage now (some ⟨tags, "PING", parameters⟩)) =
      { state := { self with
          pingTimeout := none
          socket := { self.socket with written := self.socket.written ++ ["PONG\r\n"] } },
        thrown := none } := by
    simp [IRCWrapper.handleMessage, IRCWrapper.send]
  rw [hstate]
  refine ⟨rfl, rfl, rfl, ?_⟩
  intro ops hops
  exact IRCWrapper.run_keeps_ping_cleared ops _ hops rfl

/-- Witness for C29: after `001` armed the keepalive timer, a server `PING`, then the
keepalive timer's time, a completed write, a `JOIN` and a second `PING` leave both timers
unarmed, with `PONG` written twice and no `PING`. -/
theorem server_ping_answered_witness :
    (IRCWrapper.run
      [.pingTimer, .pingWritten 2, .message 2 (some ⟨none, "JOIN", none⟩),
        .message 3 (some ⟨none, "PING", none⟩)]
      ((IRCWrapper.init.ping 60000).handleMessage 1 (some ⟨none, "PING", none⟩)).state).pingTimeout
      = none ∧
    (IRCWrapper.run
      [.pingTimer, .pingWritten 2, .message 2 (some ⟨none, "JOIN", none⟩),
        .message 3 (some ⟨none, "PING", none⟩)]
      ((IRCWrapper.init.ping 60000).handleMessage 1 (some ⟨none, "PING", none⟩)).state).staleTimeout
      = none ∧
    (IRCWrapper.run
      [.pingTimer, .pingWritten 2, .message 2 (some ⟨none, "JOIN", none⟩),
        .message 3 (some ⟨none, "PING", none⟩)]
      ((IRCWrapper.init.ping 60000).handleMessage 1
        (some ⟨none, "PING", none⟩)).state).socket.written = ["PONG\r\n", "PONG\r\n"] :=
  have h := (server_ping_answered 1 none none (IRCWrapper.init.ping 60000)).2.2.2
    [.pingTimer, .pingWritten 2, .message 2 (some ⟨none, "JOIN", none⟩),
      .message 3 (some ⟨none, "PING", none⟩)]
    (by
      intro t message hm
      simp only [List.mem_cons, List.mem_singleton, IRCWrapper.Op.message.injEq,
        Option.some.injEq, List.not_mem_nil, or_false, reduceCtorEq, false_or] at hm
      rcases hm with ⟨_, rfl⟩ | ⟨_, rfl⟩ <;> decide)
  ⟨h.1, (h.2.2 rfl).elim id id, by decide⟩

/-! ## The `reconnect` option -/

namespace BaseClient

/-- One property of the option keeps the interval ordered and leaves the event
connection alone. -/
theorem setReconnectOption_interval (self : BaseClient) (option : ReconnectOption)
    (h0 : 0 ≤ self.irc.config.intervalMin)
    (h1 : self.irc.config.intervalMin ≤ self.irc.config.intervalMax) :
    0 ≤ (self.setReconnectOption option).irc.config.intervalMin ∧
    (self.setReconnectOption option).irc.config.intervalMin ≤
      (self.setReconnectOption option).irc.config.intervalMax ∧
    (self.setReconnectOption option).ws = self.ws := by
  cases option with
  | maxAttempts value => exact ⟨h0, h1, rfl⟩
  | decay value => exact ⟨h0, h1, rfl⟩
  | interval min max =>
    refine ⟨?_, ?_, rfl⟩
    · simp only [setReconnectOption]
      exact_mod_cast le_max_left 0 (toInt32 min)
    · simp only [setReconnectOption]
      exact_mod_cast le_max_left (Max.max 0 (toInt32 min)) (toInt32 max)
  | other key => exact ⟨h0, h1, rfl⟩

theorem setReconnect_interval (options : List ReconnectOption) :
    ∀ self : BaseClient, 0 ≤ self.irc.config.intervalMin →
      self.irc.config.intervalMin ≤ self.irc.config.intervalMax →
      0 ≤ (self.setReconnect options).irc.config.intervalMin ∧
      (self.setReconnect options).irc.config.intervalMin ≤
        (self.setReconnect options).irc.config.intervalMax ∧
      (self.setReconnect options).ws = self.ws := by
  induction options with
  | nil => intro self h0 h1; exact ⟨h0, h1, rfl⟩
  | cons option rest ih =>
    intro self h0 h1
    obtain ⟨a, b, c⟩ := setReconnectOption_interval self option h0 h1
    obtain ⟨d, e, f⟩ := ih (self.setReconnectOption option) a b
    exact ⟨by simpa [setReconnect] using d, by simpa [setReconnect] using e,
      by rw [← c]; simpa [setReconnect] using f⟩

end BaseClient

/-- Truncation towards zero of a rational number, from its numerator and denominator. -/
theorem tdiv_num_den (v : ℚ) :
    Int.tdiv v.num v.den = if 0 ≤ v then ⌊v⌋ else ⌈v⌉ := by
  have hden : (0 : Int) ≤ (v.den : Int) := Int.ofNat_nonneg _
  split_ifs with h
  · rw [Rat.floor_def]
    exact Int.tdiv_eq_ediv (Rat.num_nonneg.mpr h) hden
  · have hneg : 0 ≤ -v := by linarith [not_le.mp h]
    have hnum : 0 ≤ -v.num := by
      have := Rat.num_nonneg.mpr hneg
      simpa using this
    have h1 : ⌈v⌉ = -⌊-v⌋ := by rw [Int.floor_neg, neg_neg]
    rw [h1, Rat.floor_def, Rat.num_neg_eq_neg_num, Rat.den_neg_eq_den,
      ← Int.tdiv_eq_ediv hnum hden, Int.neg_tdiv, neg_neg]

theorem toInt32_spec (v : ℚ) :
    -2147483648 ≤ toInt32 (.finite v) ∧ toInt32 (.finite v) < 2147483648 ∧
    (toInt32 (.finite v) - (if 0 ≤ v then ⌊v⌋ else ⌈v⌉)) % 4294967296 = 0 := by
  rw [← tdiv_num_den]
  simp only [toInt32]
  have h1 := Int.emod_nonneg (Int.tdiv v.num v.den) (by norm_num : (4294967296 : Int) ≠ 0)
  have h2 := Int.emod_lt_of_pos (Int.tdiv v.num v.den) (by norm_num : (0 : Int) < 4294967296)
  have h3 := Int.emod_add_ediv (Int.tdiv v.num v.den) 4294967296
  split_ifs with h
  · refine ⟨by omega, by omega, ?_⟩
    omega
  · refine ⟨by omega, by omega, ?_⟩
    omega

theorem toInt32_multiple (k : Int) : toInt32 (.finite ((k * 4294967296 : Int) : ℚ)) = 0 := by
  simp only [toInt32, Rat.num_intCast, Rat.den_intCast]
  simp [Int.tdiv_one, Int.mul_emod_left]

theorem toInt32_integer (n : Int) (hlo : -2147483648 ≤ n) (hhi : n < 2147483648) :
    toInt32 (.finite (n : ℚ)) = n := by
  simp only [toInt32, Rat.num_intCast, Rat.den_intCast, Nat.cast_one, Int.tdiv_one]
  have h1 := Int.emod_nonneg n (by norm_num : (4294967296 : Int) ≠ 0)
  have h2 := Int.emod_lt_of_pos n (by norm_num : (0 : Int) < 4294967296)
  have h3 := Int.emod_add_ediv n 4294967296
  split_ifs with h <;> omega

/-- The loop handles one more property after those before it. -/
theorem BaseClient.setReconnect_concat (options : List ReconnectOption)
    (option : ReconnectOption) (self : BaseClient) :
    self.setReconnect (options ++ [option]) =
      (self.setReconnect options).setReconnectOption option := by
  simp [BaseClient.setReconnect, List.foldl_append]

/-- C30: for every `reconnect` option, whatever its properties and their order, the
chat configuration ends with `0 ≤ interval.min ≤ interval.max` and the event connection
is as its constructor left it. The properties are handled one after another, each on the
configuration the ones before it left. A supplied `maxAttempts` is stored as
`Math.max(0, ~~value)`, which is not negative; a supplied interval as
`min = Math.max(0, ~~min)` and `max = Math.max(min, ~~max)`; nothing else of the
configuration changes with them. The operator `~~` truncates a finite number towards
zero and reduces it modulo `2^32` into `[-2^31, 2^31)`, so an integer in that range is
kept (`5` is stored as `5`, the interval `5000..100` as `5000..5000`); it gives `0` for
`NaN`, the infinities and every multiple of `2^32`, and with `maxAttempts = 0` every
`reconnect()` is refused. -/
theorem reconnect_option_bounds (rest : Message → Option Thrown) :
    (∀ options : List ReconnectOption,
      0 ≤ ((BaseClient.init rest).setReconnect options).irc.config.intervalMin ∧
      ((BaseClient.init rest).setReconnect options).irc.config.intervalMin ≤
        ((BaseClient.init rest).setReconnect options).irc.config.intervalMax ∧
      ((BaseClient.init rest).setReconnect options).ws = WebSocketWrapper.init) ∧
    (∀ (self : BaseClient) (options : List ReconnectOption) (option : ReconnectOption),
      self.setReconnect [] = self ∧
      self.setReconnect (options ++ [option]) =
        (self.setReconnect options).setReconnectOption option) ∧
    (∀ (self : BaseClient) (value : JSNumber),
      ∃ n : Nat,
        self.setReconnectOption (.maxAttempts value) =
          { self with
            irc := { self.irc with
              config := { self.irc.config with maxAttempts := .finite n } } } ∧
        (n : Int) = max 0 (toInt32 value) ∧ (0 : Int) ≤ n) ∧
    (∀ (self : BaseClient) (min max : JSNumber),
      self.setReconnectOption (.interval min max) =
        { self with
          irc := { self.irc with
            config := { self.irc.config with
              intervalMin := ((Max.max 0 (toInt32 min) : Int) : ℚ)
              intervalMax := ((Max.max (Max.max 0 (toInt32 min)) (toInt32 max) : Int) : ℚ) } } }) ∧
    (∀ v : ℚ,
      -2147483648 ≤ toInt32 (.finite v) ∧ toInt32 (.finite v) < 2147483648 ∧
      (toInt32 (.finite v) - (if 0 ≤ v then ⌊v⌋ else ⌈v⌉)) % 4294967296 = 0) ∧
    (∀ n : Int, -2147483648 ≤ n → n < 2147483648 → toInt32 (.finite (n : ℚ)) = n) ∧
    toInt32 .infinity = 0 ∧ toInt32 .negInfinity = 0 ∧ toInt32 .nan = 0 ∧
    (∀ k : Int, toInt32 (.finite ((k * 4294967296 : Int) : ℚ)) = 0) ∧
    (∀ (self : BaseClient) (value : JSNumber), toInt32 value = 0 →
      (self.setReconnectOption (.maxAttempts value)).irc.config.maxAttempts = .finite 0 ∧
      (self.setReconnectOption (.maxAttempts value)).irc.reconnect.2 = .refused) ∧
    ((BaseClient.init rest).setReconnect
        [.maxAttempts (.finite 5), .interval (.finite 5000) (.finite 100)]).irc.config =
      { IRCWrapper.init.config with
        maxAttempts := .finite 5, intervalMin := 5000, intervalMax := 5000 } ∧
    ((BaseClient.init rest).setReconnect
        [.interval (.finite 100) (.finite 5000), .interval (.finite 250) (.finite (-1))]).irc.config =
      { IRCWrapper.init.config with intervalMin := 250, intervalMax := 250 } ∧
    ((BaseClient.init rest).setReconnect [.maxAttempts .infinity]).irc.config.maxAttempts =
      .finite 0 := by
  have h5 : toInt32 (.finite 5) = 5 := by
    have := toInt32_integer 5 (by norm_num) (by norm_num)
    simpa using this
  have h100 : toInt32 (.finite 100) = 100 := by
    have := toInt32_integer 100 (by norm_num) (by norm_num)
    simpa using this
  have h250 : toInt32 (.finite 250) = 250 := by
    have := toInt32_integer 250 (by norm_num) (by norm_num)
    simpa using this
  have h5000 : toInt32 (.finite 5000) = 5000 := by
    have := toInt32_integer 5000 (by norm_num) (by norm_num)
    simpa using this
  have hneg : toInt32 (.finite (-1)) = -1 := by
    have := toInt32_integer (-1) (by norm_num) (by norm_num)
    simpa using this
  refine ⟨?_, ?_, ?_, ?_, toInt32_spec, toInt32_integer, rfl, rfl, rfl, toInt32_multiple, ?_,
    ?_, ?_, rfl⟩
  · intro options
    exact BaseClient.setReconnect_interval options (BaseClient.init rest)
      (by norm_num [BaseClient.init, IRCWrapper.init])
      (by norm_num [BaseClient.init, IRCWrapper.init])
  · intro self options option
    exact ⟨rfl, BaseClient.setReconnect_concat options option self⟩
  · intro self value
    refine ⟨(max 0 (toInt32 value)).toNat, rfl, ?_, Int.ofNat_nonneg _⟩
    exact Int.toNat_of_nonneg (le_max_left 0 _)
  · intro self min max
    rfl
  · intro self value hv
    have hm : (self.setReconnectOption (.maxAttempts value)).irc.config.maxAttempts =
        .finite 0 := by
      simp [BaseClient.setReconnectOption, hv]
    refine ⟨hm, ?_⟩
    unfold IRCWrapper.reconnect
    simp [hm, Limit.positive]
  · simp [BaseClient.setReconnect, BaseClient.setReconnectOption, BaseClient.init, h5, h5000,
      h100]
  · simp [BaseClient.setReconnect, BaseClient.setReconnectOption, BaseClient.init, h5000,
      h100, h250, hneg]

/-- Witness for C30: the option `{ maxAttempts: 2^33 }` gives `maxAttempts = 0`, which
disables `reconnect()`; the option `{ maxAttempts: 5, interval: { min: 5000, max: 100 } }`
gives `maxAttempts = 5` and the interval `5000..5000`. -/
theorem reconnect_option_bounds_witness :
    toInt32 (.finite ((2 * 4294967296 : Int) : ℚ)) = 0 ∧
    ((BaseClient.init fun _ => none).setReconnectOption
      (.maxAttempts (.finite ((2 * 4294967296 : Int) : ℚ)))).irc.reconnect.2 = .refused ∧
    ((BaseClient.init fun _ => none).setReconnect
        [.maxAttempts (.finite 5), .interval (.finite 5000) (.finite 100)]).irc.config =
      { IRCWrapper.init.config with
        maxAttempts := .finite 5, intervalMin := 5000, intervalMax := 5000 } :=
  match reconnect_option_bounds (fun _ => none) with
  | ⟨_, _, _, _, _, _, _, _, _, h10, h11, h12, _, _⟩ =>
    ⟨h10 2, (h11 (BaseClient.init fun _ => none) _ (h10 2)).2, h12⟩

/-! ## Subscriptions of the event connection -/

theorem mapHas_mapSet_self (map : List (String × Subscription)) (key : String)
    (value : Subscription) : mapHas (mapSet map key value) key = true := by
  unfold mapSet
  split_ifs with h
  · unfold mapHas at h ⊢
    rw [List.any_eq_true] at h ⊢
    obtain ⟨entry, hmem, hkey⟩ := h
    exact ⟨(key, value), List.mem_map.mpr ⟨entry, hmem, by simp [hkey]⟩, by simp⟩
  · simp [mapHas]

theorem mapHas_mapSet_of_mapHas (map : List (String × Subscription)) (key other : String)
    (value : Subscription) (h : mapHas map other = true) :
    mapHas (mapSet map key value) other = true := by
  unfold mapSet
  split_ifs with hk
  · unfold mapHas at h ⊢
    rw [List.any_eq_true] at h ⊢
    obtain ⟨entry, hmem, hkey⟩ := h
    by_cases he : entry.1 = key
    · refine ⟨(key, value), List.mem_map.mpr ⟨entry, hmem, by simp [he]⟩, ?_⟩
      simpa [he] using hkey
    · exact ⟨entry, List.mem_map.mpr ⟨entry, hmem, by simp [he]⟩, hkey⟩
  · unfold mapHas at h ⊢
    simp [List.any_append, h]

theorem mapHas_foldl_of_mapHas (subscriptions : List Subscription) :
    ∀ (map : List (String × Subscription)) (key : String), mapHas map key = true →
      mapHas (subscriptions.foldl (fun map sub => mapSet map sub.type sub) map) key = true := by
  induction subscriptions with
  | nil => intro map key h; simpa using h
  | cons sub rest ih =>
    intro map key h
    simp only [List.foldl_cons]
    exact ih _ key (mapHas_mapSet_of_mapHas map sub.type key sub h)

theorem mapHas_foldl_of_mem (subscriptions : List Subscription) :
    ∀ (map : List (String × Subscription)) (sub : Subscription), sub ∈ subscriptions →
      mapHas (subscriptions.foldl (fun map sub => mapSet map sub.type sub) map) sub.type
        = true := by
  induction subscriptions with
  | nil => intro map sub h; cases h
  | cons head rest ih =>
    intro map sub h
    simp only [List.foldl_cons]
    rcases List.mem_cons.mp h with rfl | h
    · exact mapHas_foldl_of_mapHas rest _ _ (mapHas_mapSet_self map _ _)
    · exact ih _ sub h

/-- C24 as stated fails: two calls of `subscribe` for an untracked type, the second made
before the response to the first has arrived, make two requests; the map is written only
when a response arrives. -/
theorem subscribe_twice_requests_twice :
    ¬ ∀ (type : String) (self : WebSocketWrapper),
        mapHas self.subscriptions type = false →
        ((self.subscribe type).1.subscribe type).1.requests.length =
          self.requests.length + 1 := by
  intro h
  have h1 := h "channel.follow" WebSocketWrapper.init rfl
  revert h1
  decide

/-- C24, amended: when the type is tracked in `subscriptions`, `subscribe(type)` returns
the map itself, makes no request and changes nothing. For a type that is not tracked the
call makes one `POST` request and leaves the map as it is; the map is written when the
response arrives. So when the response carries a subscription of that type, a second
call made after the response makes no further request and returns the map that holds the
entry: one request for the two calls. A second call made before the response, or after
a rejected request, makes a second request. -/
theorem subscribe_idempotent :
    (∀ (type : String) (self : WebSocketWrapper),
      mapHas self.subscriptions type = true →
      self.subscribe type = (self, .current self.subscriptions)) ∧
    (∀ (type : String) (self : WebSocketWrapper),
      mapHas self.subscriptions type = false →
      (self.subscribe type).2 = .requested ∧
      (self.subscribe type).1.requests =
        self.requests ++
          [{ method := "POST", path := "/eventsub/subscriptions", type := type,
             sessionId := self.sessionId }] ∧
      (self.subscribe type).1.subscriptions = self.subscriptions) ∧
    (∀ (type : String) (subscriptions : List Subscription) (self : WebSocketWrapper),
      mapHas self.subscriptions type = false →
      (∃ sub ∈ subscriptions, sub.type = type) →
      mapHas ((self.subscribe type).1.onSubscribed subscriptions).subscriptions type = true ∧
      (((self.subscribe type).1.onSubscribed subscriptions).subscribe type).2 =
        .current ((self.subscribe type).1.onSubscribed subscriptions).subscriptions ∧
      (((self.subscribe type).1.onSubscribed subscriptions).subscribe type).1.requests =
        self.requests ++
          [{ method := "POST", path := "/eventsub/subscriptions", type := type,
             sessionId := self.sessionId }]) ∧
    (∀ (type : String) (self : WebSocketWrapper),
      mapHas self.subscriptions type = false →
      ((self.subscribe type).1.subscribe type).2 = .requested ∧
      ((self.subscribe type).1.subscribe type).1.requests =
        self.requests ++
          [{ method := "POST", path := "/eventsub/subscriptions", type := type,
             sessionId := self.sessionId },
           { method := "POST", path := "/eventsub/subscriptions", type := type,
             sessionId := self.sessionId }]) := by
  have hfirst : ∀ (type : String) (self : WebSocketWrapper),
      mapHas self.subscriptions type = true →
      self.subscribe type = (self, .current self.subscriptions) := by
    intro type self h
    simp [WebSocketWrapper.subscribe, h]
  refine ⟨hfirst, ?_, ?_, ?_⟩
  · intro type self hno
    simp [WebSocketWrapper.subscribe, hno]
  · intro type subscriptions self hno hsub
    obtain ⟨sub, hmem, htype⟩ := hsub
    have htracked :
        mapHas ((self.subscribe type).1.onSubscribed subscriptions).subscriptions type =
          true := by
      have := mapHas_foldl_of_mem subscriptions self.subscriptions sub hmem
      rw [htype] at this
      simpa [WebSocketWrapper.subscribe, WebSocketWrapper.onSubscribed, hno] using this
    rw [hfirst type _ htracked]
    refine ⟨htracked, rfl, ?_⟩
    simp [WebSocketWrapper.subscribe, WebSocketWrapper.onSubscribed, hno]
  · intro type self hno
    simp [WebSocketWrapper.subscribe, hno]

/-- Witness for C24: on a fresh connection `subscribe` for `channel.follow` makes one
request; after its response the type is tracked and a second call returns the map at
once, without a request. -/
theorem subscribe_idempotent_witness :
    mapHas WebSocketWrapper.init.subscriptions "channel.follow" = false ∧
    (((WebSocketWrapper.init.subscribe "channel.follow").1.onSubscribed
        [⟨"channel.follow", "1"⟩]).subscribe "channel.follow").1.requests =
      [{ method := "POST", path := "/eventsub/subscriptions", type := "channel.follow",
         sessionId := none }] ∧
    (((WebSocketWrapper.init.subscribe "channel.follow").1.onSubscribed
        [⟨"channel.follow", "1"⟩]).subscribe "channel.follow").2 =
      .current [("channel.follow", ⟨"channel.follow", "1"⟩)] :=
  have h := subscribe_idempotent.2.2.1 "channel.follow" [⟨"channel.follow", "1"⟩]
    WebSocketWrapper.init rfl ⟨⟨"channel.follow", "1"⟩, List.mem_singleton.mpr rfl, rfl⟩
  ⟨rfl, h.2.2, by decide⟩

namespace WebSocketWrapper

/-- An awaited `subscribe` is rejected exactly when it made a request and the request
was rejected, and it never writes the session fields. -/
theorem awaitSubscribe_facts (type : String) (response : ApiResponse)
    (self : WebSocketWrapper) :
    (∀ error, (self.awaitSubscribe type response).2 = .rejected error →
      response = .failure error ∧ mapHas self.subscriptions type = false) ∧
    ((∃ subscriptions, response = .success subscriptions) →
      ∀ error, (self.awaitSubscribe type response).2 ≠ .rejected error) ∧
    (∀ error, response = .failure error → mapHas self.subscriptions type = false →
      (self.awaitSubscribe type response).2 = .rejected error ∧
      (self.awaitSubscribe type response).1.requests =
        self.requests ++
          [{ method := "POST", path := "/eventsub/subscriptions", type := type,
             sessionId := self.sessionId }]) ∧
    (self.awaitSubscribe type response).1.sessionId = self.sessionId ∧
    (self.awaitSubscribe type response).1.keepAliveTimeout = self.keepAliveTimeout := by
  unfold awaitSubscribe subscribe
  by_cases h : mapHas self.subscriptions type = true
  · simp [h]
  · cases response with
    | failure e => simp [h]
    | success subs => simp [h, onSubscribed]

/-- The loop calls `subscribe` for a leading part of the types, all of them unless a
call is rejected, and stops at the first rejected call. -/
theorem subscribeAll_facts (respond : String → ApiResponse) (types : List String) :
    ∀ self : WebSocketWrapper,
      (∃ rest, types = (subscribeAll respond types self).called ++ rest ∧
        ((subscribeAll respond types self).failed = none → rest = [])) ∧
      (∀ error, (subscribeAll respond types self).failed = some error →
        ∃ before type, (subscribeAll respond types self).called = before ++ [type] ∧
          respond type = .failure error) ∧
      ((∀ type ∈ types, ∃ subscriptions, respond type = .success subscriptions) →
        (subscribeAll respond types self).failed = none) ∧
      (subscribeAll respond types self).state.sessionId = self.sessionId ∧
      (subscribeAll respond types self).state.keepAliveTimeout = self.keepAliveTimeout := by
  induction types with
  | nil =>
    intro self
    simp [subscribeAll]
  | cons type types ih =>
    intro self
    obtain ⟨hrej, hok, _, hsid, hkeep⟩ := awaitSubscribe_facts type (respond type) self
    rcases hcall : self.awaitSubscribe type (respond type) with ⟨next, result⟩
    rw [hcall] at hrej hok hsid hkeep
    simp only at hrej hok hsid hkeep
    obtain ⟨⟨rest, hrest, hnone⟩, hfail, hall, hs, hk⟩ := ih next
    cases result with
    | rejected error =>
      simp only [subscribeAll, hcall]
      refine ⟨⟨types, by simp, by simp⟩, ?_, ?_, hsid, hkeep⟩
      · intro e he
        simp only [Option.some.injEq] at he
        subst he
        exact ⟨[], type, by simp, (hrej error rfl).1⟩
      · intro hsucc
        exact absurd rfl (hok (hsucc type (List.mem_cons_self _ _)) error)
    | current map =>
      simp only [subscribeAll, hcall]
      refine ⟨⟨rest, by simp [← hrest], hnone⟩, ?_, ?_, hs.trans hsid, hk.trans hkeep⟩
      · intro e he
        obtain ⟨before, t, hb, hr⟩ := hfail e he
        exact ⟨type :: before, t, by simp [hb], hr⟩
      · intro hsucc
        exact hall fun t ht => hsucc t (List.mem_cons_of_mem _ ht)
    | resolved map =>
      simp only [subscribeAll, hcall]
      refine ⟨⟨rest, by simp [← hrest], hnone⟩, ?_, ?_, hs.trans hsid, hk.trans hkeep⟩
      · intro e he
        obtain ⟨before, t, hb, hr⟩ := hfail e he
        exact ⟨type :: before, t, by simp [hb], hr⟩
      · intro hsucc
        exact hall fun t ht => hsucc t (List.mem_cons_of_mem _ ht)

/-- A loop that got through its first types without a rejected call goes on with the
rest from the state they left. -/
theorem subscribeAll_append (respond : String → ApiResponse) (before rest : List String) :
    ∀ self : WebSocketWrapper, (subscribeAll respond before self).failed = none →
      (subscribeAll respond (before ++ rest) self).called =
        before ++ (subscribeAll respond rest (subscribeAll respond before self).state).called ∧
      (subscribeAll respond (before ++ rest) self).failed =
        (subscribeAll respond rest (subscribeAll respond before self).state).failed ∧
      (subscribeAll respond (before ++ rest) self).state =
        (subscribeAll respond rest (subscribeAll respond before self).state).state := by
  induction before with
  | nil =>
    intro self _
    simp [subscribeAll]
  | cons type before ih =>
    intro self hnone
    rcases hcall : self.awaitSubscribe type (respond type) with ⟨next, result⟩
    cases result with
    | rejected error => simp [subscribeAll, hcall] at hnone
    | current map =>
      simp only [subscribeAll, hcall] at hnone
      obtain ⟨h1, h2, h3⟩ := ih next hnone
      simp only [List.cons_append, subscribeAll, hcall]
      exact ⟨congrArg (type :: ·) h1, h2, h3⟩
    | resolved map =>
      simp only [subscribeAll, hcall] at hnone
      obtain ⟨h1, h2, h3⟩ := ih next hnone
      simp only [List.cons_append, subscribeAll, hcall]
      exact ⟨congrArg (type :: ·) h1, h2, h3⟩

/-- A rejected call ends the loop at its type. -/
theorem subscribeAll_rejected (respond : String → ApiResponse) (type : String)
    (after : List String) (error : String) (self : WebSocketWrapper)
    (hno : mapHas self.subscriptions type = false) (hfail : respond type = .failure error) :
    (subscribeAll respond (type :: after) self).called = [type] ∧
    (subscribeAll respond (type :: after) self).failed = some error ∧
    (subscribeAll respond (type :: after) self).state.requests =
      self.requests ++
        [{ method := "POST", path := "/eventsub/subscriptions", type := type,
           sessionId := self.sessionId }] := by
  obtain ⟨h1, h2⟩ := (awaitSubscribe_facts type (respond type) self).2.2.1 error hfail hno
  rcases hcall : self.awaitSubscribe type (respond type) with ⟨next, result⟩
  rw [hcall] at h1 h2
  simp only at h1 h2
  subst h1
  simp only [subscribeAll, hcall]
  exact ⟨trivial, trivial, h2⟩

end WebSocketWrapper

/-- C25 as stated fails: with the types `a`, `b` configured and the request for `a`
rejected, `subscribe` is called for `a` only. -/
theorem welcome_stops_at_first_failure :
    ¬ ∀ (id : String) (keepalive : ℚ) (types : List String) (respond : String → ApiResponse)
        (self : WebSocketWrapper),
        (self.onSessionWelcome id keepalive types respond).called = types := by
  intro h
  have h1 := h "session" 10 ["a", "b"]
    (fun type => if type = "a" then .failure "refused" else .success [⟨type, "1"⟩])
    WebSocketWrapper.init
  revert h1
  decide

/-- C25, amended: on a `session_welcome` frame the event connection stores the session
id and the keepalive timeout of the frame and then calls `subscribe` for the configured
types one after another in configuration order, up to and including the first type
whose `subscribe` is rejected and for none after it: when the calls for the types before
a type were not rejected, the type is not tracked at its turn and its request is
rejected, `subscribe` is called for exactly the types up to it, its request is the last
one made and its error leaves the loop. When no request is rejected `subscribe` is
called for all the types. -/
theorem welcome_subscribes_in_order (id : String) (keepalive : ℚ) (types : List String)
    (respond : String → ApiResponse) (self : WebSocketWrapper) :
    (self.onSessionWelcome id keepalive types respond).state.sessionId = some id ∧
    (self.onSessionWelcome id keepalive types respond).state.keepAliveTimeout = keepalive ∧
    (∃ rest, types = (self.onSessionWelcome id keepalive types respond).called ++ rest ∧
      ((self.onSessionWelcome id keepalive types respond).failed = none → rest = [])) ∧
    (∀ error, (self.onSessionWelcome id keepalive types respond).failed = some error →
      ∃ before type,
        (self.onSessionWelcome id keepalive types respond).called = before ++ [type] ∧
        respond type = .failure error) ∧
    (∀ (before after : List String) (type error : String), types = before ++ type :: after →
      (self.onSessionWelcome id keepalive before respond).failed = none →
      mapHas (self.onSessionWelcome id keepalive before respond).state.subscriptions type =
        false →
      respond type = .failure error →
      (self.onSessionWelcome id keepalive types respond).called = before ++ [type] ∧
      (self.onSessionWelcome id keepalive types respond).failed = some error ∧
      (self.onSessionWelcome id keepalive types respond).state.requests =
        (self.onSessionWelcome id keepalive before respond).state.requests ++
          [{ method := "POST", path := "/eventsub/subscriptions", type := type,
             sessionId := some id }]) ∧
    ((∀ type ∈ types, ∃ subscriptions, respond type = .success subscriptions) →
      (self.onSessionWelcome id keepalive types respond).failed = none ∧
      (self.onSessionWelcome id keepalive types respond).called = types) := by
  unfold WebSocketWrapper.onSessionWelcome
  simp only
  obtain ⟨⟨rest, hrest, hnone⟩, hfail, hall, hs, hk⟩ :=
    WebSocketWrapper.subscribeAll_facts respond types
      { self with sessionId := some id, keepAliveTimeout := keepalive,
                  emitted := self.emitted ++ ["ready"] }
  refine ⟨hs, hk, ⟨rest, hrest, hnone⟩, hfail, ?_, ?_⟩
  · intro before after type error htypes hbefore hno hresp
    subst htypes
    obtain ⟨h1, h2, h3⟩ := WebSocketWrapper.subscribeAll_append respond before (type :: after)
      _ hbefore
    obtain ⟨h4, h5, h6⟩ := WebSocketWrapper.subscribeAll_rejected respond type after error
      _ hno hresp
    rw [h1, h2, h3, h4, h5, h6]
    refine ⟨rfl, rfl, ?_⟩
    have hsid := (WebSocketWrapper.subscribeAll_facts respond before
      { self with sessionId := some id, keepAliveTimeout := keepalive,
                  emitted := self.emitted ++ ["ready"] }).2.2.2.1
    rw [hsid]
  · intro hsucc
    have hn := hall hsucc
    refine ⟨hn, ?_⟩
    have := hnone hn
    rw [this, List.append_nil] at hrest
    exact hrest.symm

/-- Witness for C25: with `a`, `b`, `c` configured and every request answered, `subscribe`
is called for `a`, `b`, `c` in this order; with the request for `b` rejected it is
called for `a` and `b` only. -/
theorem welcome_subscribes_in_order_witness :
    (WebSocketWrapper.init.onSessionWelcome "session" 10 ["a", "b", "c"]
      (fun type => .success [⟨type, "1"⟩])).called = ["a", "b", "c"] ∧
    (WebSocketWrapper.init.onSessionWelcome "session" 10 ["a", "b", "c"]
      (fun type => .success [⟨type, "1"⟩])).state.sessionId = some "session" ∧
    (WebSocketWrapper.init.onSessionWelcome "session" 10 ["a", "b", "c"]
      (fun type => if type = "b" then .failure "refused" else .success [⟨type, "1"⟩])).called =
      ["a", "b"] :=
  have h := welcome_subscribes_in_order "session" 10 ["a", "b", "c"]
    (fun type => .success [⟨type, "1"⟩]) WebSocketWrapper.init
  have g := welcome_subscribes_in_order "session" 10 ["a", "b", "c"]
    (fun type => if type = "b" then .failure "refused" else .success [⟨type, "1"⟩])
    WebSocketWrapper.init
  ⟨(h.2.2.2.2.2 (fun _ _ => ⟨_, rfl⟩)).2, h.1,
    (g.2.2.2.2.1 ["a"] ["c"] "b" "refused" rfl (by decide) (by decide) (by decide)).1⟩

/-! ## Inbound framing -/

namespace IRCWrapper

theorem splitCRLF_plain (line : List Char) (h : ∀ c ∈ line, c ≠ '\r') :
    splitCRLF line = [line] := by
  induction line with
  | nil => rfl
  | cons c rest ih =>
    have hc : c ≠ '\r' := h c (List.mem_cons_self _ _)
    have hrest := ih fun d hd => h d (List.mem_cons_of_mem _ hd)
    cases rest with
    | nil => rfl
    | cons d rest =>
      rw [splitCRLF, if_neg (fun hcd => hc hcd.1), hrest]

theorem splitCRLF_line_append (line rest : List Char) (h : ∀ c ∈ line, c ≠ '\r') :
    splitCRLF (line ++ '\r' :: '\n' :: rest) = line :: splitCRLF rest := by
  induction line with
  | nil =>
    rw [List.nil_append, splitCRLF, if_pos ⟨rfl, rfl⟩]
  | cons c line ih =>
    have hc : c ≠ '\r' := h c (List.mem_cons_self _ _)
    have hrest := ih fun d hd => h d (List.mem_cons_of_mem _ hd)
    cases line with
    | nil =>
      rw [List.nil_append] at hrest
      show splitCRLF (c :: '\r' :: '\n' :: rest) = _
      rw [splitCRLF, if_neg (fun hcd => hc hcd.1), hrest]
    | cons d line =>
      show splitCRLF (c :: d :: (line ++ '\r' :: '\n' :: rest)) = _
      rw [splitCRLF, if_neg (fun hcd => hc hcd.1)]
      rw [show d :: (line ++ '\r' :: '\n' :: rest) = (d :: line) ++ '\r' :: '\n' :: rest from rfl,
        hrest]

theorem trim_body (first last : Char) (middle tail : List Char)
    (body : List Char) (hhead : body = first :: tail) (hlast : body = middle ++ [last])
    (hf : isTrimmed first = false) (hl : isTrimmed last = false) :
    trim (body ++ ['\r', '\n']) = body := by
  unfold trim
  have h1 : (body ++ ['\r', '\n']).dropWhile isTrimmed = body ++ ['\r', '\n'] := by
    rw [hhead, List.cons_append, List.dropWhile_cons_of_neg (by simp [hf])]
  rw [h1, hlast]
  have h2 : (middle ++ [last] ++ ['\r', '\n']).reverse = '\n' :: '\r' :: last :: middle.reverse := by
    simp
  rw [h2]
  have hn : isTrimmed '\n' = true := by decide
  have hr : isTrimmed '\r' = true := by decide
  rw [List.dropWhile_cons_of_pos hn, List.dropWhile_cons_of_pos hr,
    List.dropWhile_cons_of_neg (by simp [hl])]
  simp

/-- The characters of a chunk of whole plain lines: a body that starts and ends with a
character `trim` keeps, followed by CRLF, and the body splits into the lines. -/
theorem wire_body (lines : List (List Char)) (hne : lines ≠ [])
    (hplain : ∀ line ∈ lines, (∀ c ∈ line, c ≠ '\r') ∧
      (∃ first tail, line = first :: tail ∧ isTrimmed first = false) ∧
      (∃ middle last, line = middle ++ [last] ∧ isTrimmed last = false)) :
    ∃ body, (lines.map fun line => line ++ ['\r', '\n']).flatten = body ++ ['\r', '\n'] ∧
      splitCRLF body = lines ∧
      (∃ first tail, body = first :: tail ∧ isTrimmed first = false) ∧
      (∃ middle last, body = middle ++ [last] ∧ isTrimmed last = false) := by
  induction lines with
  | nil => exact absurd rfl hne
  | cons line rest ih =>
    obtain ⟨hcr, hfirst, hlast⟩ := hplain line (List.mem_cons_self _ _)
    cases rest with
    | nil =>
      exact ⟨line, by simp, splitCRLF_plain line hcr, hfirst, hlast⟩
    | cons next rest =>
      obtain ⟨body, hwire, hsplit, _, hblast⟩ := ih (by simp)
        (fun l hl => hplain l (List.mem_cons_of_mem _ hl))
      refine ⟨line ++ '\r' :: '\n' :: body, ?_, ?_, ?_, ?_⟩
      · rw [List.map_cons, List.flatten_cons, hwire]
        simp
      · rw [splitCRLF_line_append line body hcr, hsplit]
      · obtain ⟨first, tail, ht, hf⟩ := hfirst
        exact ⟨first, tail ++ '\r' :: '\n' :: body, by rw [ht]; rfl, hf⟩
      · obtain ⟨middle, last, hm, hl⟩ := hblast
        exact ⟨line ++ '\r' :: '\n' :: middle, last, by rw [hm]; simp, hl⟩

theorem isPlainLine_iff (line : String) (h : isPlainLine line = true) :
    (∀ c ∈ line.toList, c ≠ '\r') ∧
    (∃ first tail, line.toList = first :: tail ∧ isTrimmed first = false) ∧
    (∃ middle last, line.toList = middle ++ [last] ∧ isTrimmed last = false) := by
  unfold isPlainLine at h
  simp only [Bool.and_eq_true, List.all_eq_true, bne_iff_ne, beq_iff_eq, Option.map_eq_some'] at h
  obtain ⟨⟨hall, first, hhead, hf⟩, last, hlast, hl⟩ := h
  refine ⟨fun c hc => (hall c hc).1, ?_, ?_⟩
  · obtain ⟨tail, ht⟩ := List.head?_eq_some_iff.mp hhead
    exact ⟨first, tail, ht, hf⟩
  · obtain ⟨middle, hm⟩ := List.getLast?_eq_some_iff.mp hlast
    exact ⟨middle, last, hm, hl⟩

/-- One chunk made of whole plain lines is split into exactly these lines. -/
theorem dataLines_wireText (lines : List String) (hne : lines ≠ [])
    (hplain : ∀ line ∈ lines, isPlainLine line = true) :
    dataLines (wireText lines) = lines := by
  have hchars : (wireText lines).toList =
      ((lines.map String.toList).map fun line => line ++ ['\r', '\n']).flatten := by
    unfold wireText
    show (String.join _).data = _
    rw [String.data_join]
    simp only [List.map_map]
    congr 1
  obtain ⟨body, hwire, hsplit, ⟨first, tail, hb1, hf⟩, ⟨middle, last, hb2, hl⟩⟩ :=
    wire_body (lines.map String.toList) (by simpa using hne) (by
      intro line hline
      obtain ⟨text, hmem, rfl⟩ := List.mem_map.mp hline
      exact isPlainLine_iff text (hplain text hmem))
  unfold dataLines
  rw [hchars, hwire, trim_body first last middle tail body hb1 hb2 hf hl, hsplit]
  simp [List.map_map, Function.comp_def]

/-- Handling a message leaves the listeners registered before `promise()` as they were. -/
theorem handleMessage_observer (now : Int) (message : Option Message) (self : IRCWrapper) :
    (self.handleMessage now message).state.observer = self.observer := by
  unfold handleMessage
  cases message with
  | none => rfl
  | some message =>
    simp only
    split_ifs
    on_goal 9 => unfold emitRaw; cases self.observer message
    all_goals rfl

/-- Whether handling a message throws depends on the message and on the listeners
registered before `promise()` only. -/
theorem handleMessage_thrown_congr (now t : Int) (message : Option Message)
    (self other : IRCWrapper) (h : self.observer = other.observer) :
    (self.handleMessage now message).thrown = (other.handleMessage t message).thrown := by
  unfold handleMessage
  cases message with
  | none => rfl
  | some message =>
    simp only
    split_ifs
    on_goal 9 => unfold emitRaw; rw [h]; cases other.observer message
    all_goals rfl

/-- The loop over the parts of one chunk hands on a leading part of them: all of them
when nothing throws, else those up to the part at which the parser or `_handleMessage`
threw. -/
theorem handleParts_facts (parseMessage : String → Except Thrown (Option Message))
    (now : Int) (parts : List String) :
    ∀ self : IRCWrapper,
      (handleParts parseMessage now parts self).parsed <+: parts ∧
      ((handleParts parseMessage now parts self).thrown = none →
        (handleParts parseMessage now parts self).parsed = parts ∧
        (handleParts parseMessage now parts self).handled.map Except.ok =
          parts.map parseMessage) ∧
      (∀ error, (handleParts parseMessage now parts self).thrown = some error →
        ∃ before part, (handleParts parseMessage now parts self).parsed = before ++ [part] ∧
          (parseMessage part = .error error ∨
            ∃ (message : Option Message) (state : IRCWrapper),
              parseMessage part = .ok message ∧
              state.observer = self.observer ∧
              (state.handleMessage now message).thrown = some error)) ∧
      (handleParts parseMessage now parts self).state.observer = self.observer ∧
      ((∀ part ∈ parts, ∃ message, parseMessage part = .ok message ∧
          (self.handleMessage now message).thrown = none) →
        (handleParts parseMessage now parts self).thrown = none) := by
  induction parts with
  | nil =>
    intro self
    simp [handleParts]
  | cons part parts ih =>
    intro self
    cases hp : parseMessage part with
    | error error =>
      simp only [handleParts, hp]
      refine ⟨by simp, by simp, ?_, by simp, ?_⟩
      · intro e he
        simp only [Option.some.injEq] at he
        subst he
        exact ⟨[], part, rfl, Or.inl hp⟩
      · intro hall
        obtain ⟨m, hm, _⟩ := hall part (List.mem_cons_self _ _)
        rw [hp] at hm
        cases hm
    | ok message =>
      have hobs := handleMessage_observer now message self
      rcases hh : self.handleMessage now message with ⟨next, thrown⟩
      rw [hh] at hobs
      simp only at hobs
      cases thrown with
      | some error =>
        simp only [handleParts, hp, hh]
        refine ⟨by simp, by simp, ?_, hobs, ?_⟩
        · intro e he
          simp only [Option.some.injEq] at he
          subst he
          exact ⟨[], part, rfl, Or.inr ⟨message, self, hp, rfl, by simp [hh]⟩⟩
        · intro hall
          obtain ⟨m, hm, hnone⟩ := hall part (List.mem_cons_self _ _)
          rw [hp] at hm
          cases hm
          rw [hh] at hnone
          cases hnone
      | none =>
        obtain ⟨h1, h2, h3, h4, h5⟩ := ih next
        simp only [handleParts, hp, hh]
        refine ⟨?_, ?_, ?_, h4.trans hobs, ?_⟩
        · exact (List.prefix_cons_inj part).mpr h1
        · intro hnone
          obtain ⟨ha, hb⟩ := h2 hnone
          exact ⟨by rw [ha], by simp [hb, hp]⟩
        · intro e he
          obtain ⟨before, p, hb, hcause⟩ := h3 e he
          refine ⟨part :: before, p, by simp [hb], ?_⟩
          rcases hcause with hc | ⟨m, state, hm, hso, hst⟩
          · exact Or.inl hc
          · exact Or.inr ⟨m, state, hm, hso.trans hobs, hst⟩
        · intro hall
          apply h5
          intro p hpmem
          obtain ⟨m, hm, hnone⟩ := hall p (List.mem_cons_of_mem _ hpmem)
          refine ⟨m, hm, ?_⟩
          rw [handleMessage_thrown_congr now now m next self hobs]
          exact hnone

/-- The handler of `'data'` over a sequence of chunks hands on a leading part of the
parts of all chunks: all of them when nothing throws. -/
theorem onStream_facts (parseMessage : String → Except Thrown (Option Message))
    (chunks : List (Int × String)) :
    ∀ self : IRCWrapper,
      (onStream parseMessage chunks self).parsed <+:
        chunks.flatMap (fun chunk => dataLines chunk.2) ∧
      ((onStream parseMessage chunks self).thrown = none →
        (onStream parseMessage chunks self).parsed =
          chunks.flatMap (fun chunk => dataLines chunk.2) ∧
        (onStream parseMessage chunks self).handled.map Except.ok =
          (chunks.flatMap (fun chunk => dataLines chunk.2)).map parseMessage) ∧
      (∀ error, (onStream parseMessage chunks self).thrown = some error →
        ∃ before part, (onStream parseMessage chunks self).parsed = before ++ [part] ∧
          (parseMessage part = .error error ∨
            ∃ (message : Option Message) (state : IRCWrapper) (now : Int),
              parseMessage part = .ok message ∧
              state.observer = self.observer ∧
              (state.handleMessage now message).thrown = some error)) ∧
      (onStream parseMessage chunks self).state.observer = self.observer ∧
      ((∀ part ∈ chunks.flatMap (fun chunk => dataLines chunk.2),
          ∃ message, parseMessage part = .ok message ∧
            (self.handleMessage 0 message).thrown = none) →
        (onStream parseMessage chunks self).thrown = none) := by
  induction chunks with
  | nil =>
    intro self
    simp [onStream]
  | cons chunk chunks ih =>
    intro self
    obtain ⟨now, text⟩ := chunk
    obtain ⟨g1, g2, g3, g4, g5⟩ := handleParts_facts parseMessage now (dataLines text) self
    rcases hd : handleParts parseMessage now (dataLines text) self with
      ⟨next, parsed, handled, thrown⟩
    rw [hd] at g1 g2 g3 g4 g5
    simp only at g1 g2 g3 g4 g5
    cases thrown with
    | some error =>
      simp only [onStream, onData, hd, List.flatMap_cons]
      refine ⟨g1.trans (List.prefix_append _ _), by simp, ?_, g4, ?_⟩
      · intro e he
        obtain ⟨before, p, hb, hcause⟩ := g3 e he
        refine ⟨before, p, hb, ?_⟩
        rcases hcause with hc | ⟨m, state, hm, hso, hst⟩
        · exact Or.inl hc
        · exact Or.inr ⟨m, state, now, hm, hso, hst⟩
      · intro hall
        have : (some error : Option Thrown) = none := by
          apply g5
          intro p hpmem
          obtain ⟨m, hm, hnone⟩ := hall p (List.mem_append_left _ hpmem)
          exact ⟨m, hm, by rw [handleMessage_thrown_congr now 0 m self self rfl]; exact hnone⟩
        cases this
    | none =>
      obtain ⟨ha, hb⟩ := g2 rfl
      obtain ⟨h1, h2, h3, h4, h5⟩ := ih next
      simp only [onStream, onData, hd, List.flatMap_cons]
      refine ⟨?_, ?_, ?_, h4.trans g4, ?_⟩
      · rw [ha]
        exact (List.prefix_append_right_inj _).mpr h1
      · intro hnone
        obtain ⟨hc, hd2⟩ := h2 hnone
        exact ⟨by rw [ha, hc], by simp [hb, hd2]⟩
      · intro e he
        obtain ⟨before, p, hbp, hcause⟩ := h3 e he
        refine ⟨parsed ++ before, p, by simp [hbp], ?_⟩
        rcases hcause with hc | ⟨m, state, t, hm, hso, hst⟩
        · exact Or.inl hc
        · exact Or.inr ⟨m, state, t, hm, hso.trans g4, hst⟩
      · intro hall
        apply h5
        intro p hpmem
        obtain ⟨m, hm, hnone⟩ := hall p (List.mem_append_right _ hpmem)
        refine ⟨m, hm, ?_⟩
        rw [handleMessage_thrown_congr 0 0 m next self g4]
        exact hnone

/-- Chunks of whole plain lines are split into exactly these lines. -/
theorem flatMap_dataLines_wireText (groups : List (Int × List String))
    (hne : ∀ group ∈ groups, group.2 ≠ [])
    (hplain : ∀ group ∈ groups, ∀ line ∈ group.2, isPlainLine line = true) :
    (groups.map fun group => (group.1, wireText group.2)).flatMap
        (fun chunk => dataLines chunk.2) =
      groups.flatMap (fun group => group.2) := by
  induction groups with
  | nil => rfl
  | cons group rest ih =>
    have hrest := ih (fun g hg => hne g (List.mem_cons_of_mem _ hg))
      (fun g hg => hplain g (List.mem_cons_of_mem _ hg))
    rw [List.map_cons, List.flatMap_cons, hrest, List.flatMap_cons,
      dataLines_wireText group.2 (hne group (List.mem_cons_self _ _))
        (hplain group (List.mem_cons_self _ _))]

end IRCWrapper

/-- C23 as stated fails: the stream of the two lines `PING :a` and `PONG :b`, arriving
as the chunks `PING :a` CRLF `PO` and `NG :b` CRLF, is handed to the parser as the three
strings `PING :a`, `PO`, `NG :b`, also when nothing throws. -/
theorem framing_depends_on_chunks :
    ¬ ∀ (parseMessage : String → Except Thrown (Option Message)) (lines : List String)
        (chunks : List (Int × String)) (self : IRCWrapper),
        (∀ line ∈ lines, IRCWrapper.isPlainLine line = true) →
        String.join (chunks.map fun chunk => chunk.2) = IRCWrapper.wireText lines →
        (IRCWrapper.onStream parseMessage chunks self).parsed = lines := by
  intro h
  have h1 := h (fun _ => .ok none) ["PING :a", "PONG :b"]
    [(0, "PING :a\r\nPO"), (1, "NG :b\r\n")] IRCWrapper.init (by decide) (by decide)
  revert h1
  decide

/-- C23, amended: when every `'data'` chunk consists of whole lines, each followed by
CRLF, and the lines are plain (no CR or LF inside, not empty, no white space at either
end), the chunks together are the stream of all the lines, and the strings handed to the
parser are a leading part of these lines, in the order received: all of them, each
parsed message handed to `_handleMessage`, when neither the parser nor `_handleMessage`
throws, which is so when each line parses to a message that `_handleMessage` handles
without an exception; else the lines up to the one at which the exception was thrown. -/
theorem framing_of_whole_line_chunks
    (parseMessage : String → Except Thrown (Option Message))
    (groups : List (Int × List String)) (self : IRCWrapper)
    (hne : ∀ group ∈ groups, group.2 ≠ [])
    (hplain : ∀ group ∈ groups, ∀ line ∈ group.2, IRCWrapper.isPlainLine line = true) :
    String.join (groups.map fun group => IRCWrapper.wireText group.2) =
      IRCWrapper.wireText (groups.flatMap fun group => group.2) ∧
    (IRCWrapper.onStream parseMessage
        (groups.map fun group => (group.1, IRCWrapper.wireText group.2)) self).parsed <+:
      (groups.flatMap fun group => group.2) ∧
    ((IRCWrapper.onStream parseMessage
        (groups.map fun group => (group.1, IRCWrapper.wireText group.2)) self).thrown = none →
      (IRCWrapper.onStream parseMessage
        (groups.map fun group => (group.1, IRCWrapper.wireText group.2)) self).parsed =
          (groups.flatMap fun group => group.2) ∧
      (IRCWrapper.onStream parseMessage
        (groups.map fun group => (group.1, IRCWrapper.wireText group.2)) self).handled.map
          Except.ok = (groups.flatMap fun group => group.2).map parseMessage) ∧
    (∀ error, (IRCWrapper.onStream parseMessage
        (groups.map fun group => (group.1, IRCWrapper.wireText group.2)) self).thrown =
          some error →
      ∃ before line, (IRCWrapper.onStream parseMessage
        (groups.map fun group => (group.1, IRCWrapper.wireText group.2)) self).parsed =
          before ++ [line] ∧
        (parseMessage line = .error error ∨
          ∃ (message : Option Message) (state : IRCWrapper) (now : Int),
            parseMessage line = .ok message ∧
            state.observer = self.observer ∧
            (state.handleMessage now message).thrown = some error)) ∧
    ((∀ line ∈ groups.flatMap (fun group => group.2),
        ∃ message, parseMessage line = .ok message ∧
          (self.handleMessage 0 message).thrown = none) →
      (IRCWrapper.onStream parseMessage
        (groups.map fun group => (group.1, IRCWrapper.wireText group.2)) self).thrown =
          none) := by
  have hjoin : String.join (groups.map fun group => IRCWrapper.wireText group.2) =
      IRCWrapper.wireText (groups.flatMap fun group => group.2) := by
    apply String.ext
    simp only [IRCWrapper.wireText, String.data_join, List.map_map]
    clear hne hplain
    induction groups with
    | nil => rfl
    | cons group rest ih =>
      simp only [List.map_cons, List.flatten_cons, List.flatMap_cons, List.map_append,
        List.flatten_append, Function.comp_apply, String.data_join, List.map_map] at ih ⊢
      rw [ih]
  have hlines := IRCWrapper.flatMap_dataLines_wireText groups hne hplain
  obtain ⟨h1, h2, h3, _, h5⟩ := IRCWrapper.onStream_facts parseMessage
    (groups.map fun group => (group.1, IRCWrapper.wireText group.2)) self
  rw [hlines] at h1 h2 h5
  exact ⟨hjoin, h1, h2, h3, h5⟩

/-- Witness for C23: three lines arriving as one chunk of one line and one chunk of two
are handed to the parser in order when nothing throws; with a parser that gives each
line as a command, the chunk of the lines `RECONNECT` and `PING :a` ends at `RECONNECT`,
whose handling throws. -/
theorem framing_of_whole_line_chunks_witness :
    (IRCWrapper.onStream (fun _ => .ok none)
      [(0, "PING :a\r\n"), (1, "PONG :b\r\nJOIN #c\r\n")] IRCWrapper.init).parsed =
      ["PING :a", "PONG :b", "JOIN #c"] ∧
    (IRCWrapper.onStream (fun line => .ok (some ⟨none, line, none⟩))
      [(0, "RECONNECT\r\nPING :a\r\n")] IRCWrapper.init).parsed = ["RECONNECT"] ∧
    (IRCWrapper.onStream (fun line => .ok (some ⟨none, line, none⟩))
      [(0, "RECONNECT\r\nPING :a\r\n")] IRCWrapper.init).thrown =
      some (.notAFunction "this.disconnect") :=
  have h := (framing_of_whole_line_chunks (fun _ => .ok none)
    [(0, ["PING :a"]), (1, ["PONG :b", "JOIN #c"])] IRCWrapper.init
    (by decide) (by decide)).2.2.1
  ⟨(h (by decide)).1, by decide, by decide⟩

end Twitch
